import Mathlib

/-!
# daScript execution engine: context, pointer nodes and the for-loop

A shallow embedding of `simulate/simulate.h` (namespace `yzg`): the `Context`
class with its inline member functions, the stop-flag bitset `EvalFlags`, the
index, field, pointer, null-coalescing and short-circuit nodes, and the for-loop
node over iterators.  Pointers are addresses (`Ptr`, with `nullptr = 0`), the
`uint32_t` quantities are naturals with the wrap-around written out where the C++
arithmetic can wrap, a `const char *` message is an optional string (`none` for
the null pointer), and memory is a map from addresses to bytes.
-/

namespace yzg

/-! ## Data model -/

/-- An address (`char *` and the other raw pointers of the header).  Pointer
arithmetic is exact: in C++ it is only defined while it stays inside an object. -/
abbrev Ptr := Int

/-- The null pointer. -/
abbrev nullptr : Ptr := 0

/-- A `const char *`: `none` is the null pointer, `some s` points at the text `s`. -/
abbrev CStr := Option String

/-- The 16-byte value cell `__m128`, as the 128-bit number it holds (lane 0 in the
low 32 bits). -/
abbrev Cell := Nat

/-- The zero cell, `_mm_setzero_ps()`. -/
abbrev _mm_setzero_ps : Cell := 0

/-- One entry of the globals table, `struct GlobalVariable`. -/
structure GlobalVariable where
  name : CStr
  value : Cell
  size : Nat
  debug : Ptr
  init : Ptr
deriving DecidableEq, Repr

/-- One entry of the functions table, `struct SimFunction`. -/
structure SimFunction where
  name : CStr
  code : Ptr
  stackSize : Nat
  debug : Ptr
deriving DecidableEq, Repr

/-- The bit `stopForBreak = 1 << 0` of `enum EvalFlags`. -/
def EvalFlags.stopForBreak : Nat := 1 <<< 0

/-- The bit `stopForReturn = 1 << 1` of `enum EvalFlags`. -/
def EvalFlags.stopForReturn : Nat := 1 <<< 1

/-- The bit `stopForThrow = 1 << 2` of `enum EvalFlags`. -/
def EvalFlags.stopForThrow : Nat := 1 <<< 2

/-- The bit `stopForTerminate = 1 << 3` of `enum EvalFlags`. -/
def EvalFlags.stopForTerminate : Nat := 1 <<< 3

/-- The data members of `class Context`, in declaration order.  The two tables
are held by their contents; `totalVariables` and `totalFunctions` are the separate
`int` counters of the class. -/
structure Context where
  linearAllocatorSize : Int
  linearAllocator : Ptr
  linearAllocatorBase : Ptr
  linearAllocatorExecuteBase : Ptr
  globalVariables : List GlobalVariable
  functions : List SimFunction
  totalVariables : Int
  totalFunctions : Int
  exception : CStr
  debugInput : Ptr
  thisProgram : Ptr
  invokeStackTop : Ptr
  stackTop : Ptr
  stack : Ptr
  stackSize : Int
  stopFlags : Nat
deriving DecidableEq, Repr

/-- Modelled from the spec: the constructor `Context::Context(lines, las)` is
defined outside `simulate.h`.  Whatever buffers it allocates, a newly constructed
context has the default member initialisers of the class declaration for the
exception pointer and the stop flags: `exception = nullptr`, `stopFlags = 0`. -/
def Context.isFresh (c : Context) : Prop :=
  c.exception = none ∧ c.stopFlags = 0

instance (c : Context) : Decidable c.isFresh :=
  inferInstanceAs (Decidable (_ ∧ _))

/-! ## Member functions of `Context` -/

/-- The member `Context::simEnd`: forgets the program pointer and records the
current bump pointer as the execute base. -/
def Context.simEnd (c : Context) : Context :=
  let c := { c with thisProgram := nullptr }
  { c with linearAllocatorExecuteBase := c.linearAllocator }

/-- The member `Context::restart`. -/
def Context.restart (c : Context) : Context :=
  let c := { c with linearAllocator := c.linearAllocatorExecuteBase }
  let c := { c with invokeStackTop := nullptr }
  let c := { c with stackTop := c.stack + c.stackSize }
  { c with stopFlags := 0 }

/-- The member `Context::throw_error` in the flag-based build
(`YZG_ENABLE_EXCEPTIONS` is 1, so the host-language `throw` is compiled out). -/
def Context.throw_error (c : Context) (message : CStr) : Context :=
  let c := { c with exception := message }
  { c with stopFlags := c.stopFlags ||| EvalFlags.stopForThrow }

/-- The member `Context::getException`, a `const` member: it reads the context
and returns a pointer, so it is a function of the context alone. -/
def Context.getException (c : Context) : CStr :=
  if c.stopFlags &&& EvalFlags.stopForThrow ≠ 0 then c.exception else none

/-- How a call that can hit undefined behaviour or a failed `assert` ends. -/
inductive Fault where
  | assertion (text : String)
  | outOfBounds
deriving DecidableEq, Repr

/-- The member `Context::getVariable`, a `const` member.  Its only bounds test is
the `assert`: with assertions compiled in, an index outside
`0 ≤ index < totalVariables` is the fault `assertion`; `ndebug` is the build
without them, which goes on to the read.  The read `globalVariables[index]` of a
descriptor the table does not hold is the fault `outOfBounds`. -/
def Context.getVariable (c : Context) (ndebug : Bool) (index : Int) : Except Fault Cell :=
  if ndebug = false ∧ ¬ (index ≥ 0 ∧ index < c.totalVariables) then
    Except.error (Fault.assertion "variable index out of range")
  else if index ≥ 0 then
    match c.globalVariables[index.toNat]? with
    | some g => Except.ok g.value
    | none => Except.error Fault.outOfBounds
  else Except.error Fault.outOfBounds

/-- The region invariant of the linear allocator, `base ≤ execBase ≤ top`. -/
def Context.regionInv (c : Context) : Prop :=
  c.linearAllocatorBase ≤ c.linearAllocatorExecuteBase ∧
    c.linearAllocatorExecuteBase ≤ c.linearAllocator

instance (c : Context) : Decidable c.regionInv :=
  inferInstanceAs (Decidable (_ ∧ _))

/-! ## The cast bridge -/

/-- Modelled from the spec: `cast.h`, which defines the cast bridge, is missing.
`cast<uint32_t>::to(cell)` reads the cell as an unsigned 32-bit integer, the low
lane of the cell. -/
def cast_uint32_t_to (x : Cell) : Nat := x % 2 ^ 32

/-- Modelled from the spec: `cast<int32_t>::to(cell)` reads the low lane of the
cell as a signed 32-bit integer. -/
def cast_int32_t_to (x : Cell) : Int :=
  if x % 2 ^ 32 < 2 ^ 31 then (x % 2 ^ 32 : Nat) else (x % 2 ^ 32 : Nat) - 2 ^ 32

/-- Modelled from the spec: `cast<int32_t>::from(v)` is the cell with the two's
complement bits of `v` in the low lane and zero in the unused lanes. -/
def cast_int32_t_from (v : Int) : Cell := (v % 2 ^ 32).toNat

/-- Modelled from the spec: `cast<uint64_t>::to(cell)` reads the low 64 bits. -/
def cast_uint64_t_to (x : Cell) : Nat := x % 2 ^ 64

/-- Modelled from the spec: `cast<int64_t>::to(cell)` reads the low 64 bits as a
signed integer. -/
def cast_int64_t_to (x : Cell) : Int :=
  if x % 2 ^ 64 < 2 ^ 63 then (x % 2 ^ 64 : Nat) else (x % 2 ^ 64 : Nat) - 2 ^ 64

/-- Modelled from the spec: `cast<float>::to(cell)` is the float in the low lane,
kept as its 32-bit pattern. -/
def cast_float_to (x : Cell) : Nat := x % 2 ^ 32

/-- Modelled from the spec: `cast<bool>::to(cell)` is true when the low lane is
not zero. -/
def cast_bool_to (x : Cell) : Bool := x % 2 ^ 32 != 0

/-- Modelled from the spec: `cast<char *>::to(cell)` reads the low 64 bits as an
address. -/
def cast_ptr_to (x : Cell) : Ptr := (x % 2 ^ 64 : Nat)

/-- Modelled from the spec: `cast<char *>::from(p)` is the cell with the address
in the low 64 bits and zero above. -/
def cast_ptr_from (p : Ptr) : Cell := (p % 2 ^ 64).toNat

/-! ## Nodes -/

/-- What a node evaluation runs on: the `Context &` it is handed and the memory
its pointers point into (one byte per address). -/
structure Machine where
  context : Context
  memory : Ptr → Nat

/-- The virtual interface of `struct SimNode`: `eval` and the seven typed paths,
each a state transformer.  A float result is kept as its 32-bit pattern. -/
structure SimNode where
  eval : Machine → Cell × Machine
  evalPtr : Machine → Ptr × Machine
  evalBool : Machine → Bool × Machine
  evalFloat : Machine → Nat × Machine
  evalInt : Machine → Int × Machine
  evalUInt : Machine → Nat × Machine
  evalInt64 : Machine → Int × Machine
  evalUInt64 : Machine → Nat × Machine

/-- The node `SimNode_ConstValue`: `eval` returns the stored cell and every typed
path the cast of it; the context is not touched. -/
def SimNode_ConstValue (value : Cell) : SimNode :=
  { eval := fun m => (value, m)
    evalPtr := fun m => (cast_ptr_to value, m)
    evalBool := fun m => (cast_bool_to value, m)
    evalFloat := fun m => (cast_float_to value, m)
    evalInt := fun m => (cast_int32_t_to value, m)
    evalUInt := fun m => (cast_uint32_t_to value, m)
    evalInt64 := fun m => (cast_int64_t_to value, m)
    evalUInt64 := fun m => (cast_uint64_t_to value, m) }

/-- The member `SimNode_At::compute`: the base pointer, then the index read as
`uint32_t`, each followed by `YZG_PTR_EXCEPTION_POINT`; then the bounds test.
The product `idx*stride` is a `uint32_t` product, so it wraps at `2^32`. -/
def SimNode_At.compute (value index : SimNode) (stride range : Nat) (m : Machine) :
    Ptr × Machine :=
  let rv := value.evalPtr m
  let pValue := rv.1
  if rv.2.context.stopFlags ≠ 0 then (nullptr, rv.2) else
  let ri := index.eval rv.2
  let idx := cast_uint32_t_to ri.1
  if ri.2.context.stopFlags ≠ 0 then (nullptr, ri.2) else
  if idx ≥ range then
    (nullptr, { ri.2 with context := ri.2.context.throw_error (some "index out of range") })
  else
    (pValue + ((idx * stride % 2 ^ 32 : Nat) : Int), ri.2)

/-- The node `SimNode_At` with the methods `YZG_PTR_NODE` gives it: `eval` boxes
`compute` through `cast<char *>::from`, `evalPtr` is `compute`; the other typed
paths are those of the base class, passed in as `base`. -/
def SimNode_At (base : SimNode) (value index : SimNode) (stride range : Nat) : SimNode :=
  { base with
    eval := fun m =>
      let r := SimNode_At.compute value index stride range m
      (cast_ptr_from r.1, r.2)
    evalPtr := SimNode_At.compute value index stride range }

/-! ## Reachable contexts -/

/-- The statements of the node bodies in `simulate.h` that write to the context:
the four `throw_error` calls with their literal messages, and the three updates of
`stopFlags` in `SimNode_Return`, `SimNode_Break` and `SimNode_ForWithIterator`. -/
inductive NodeWrite where
  | throwNullPointer
  | throwIndexRange
  | setReturn
  | setBreak
  | clearBreak
deriving DecidableEq, Repr

/-- What each write of a node body does to the context. -/
def NodeWrite.apply (w : NodeWrite) (c : Context) : Context :=
  match w with
  | NodeWrite.throwNullPointer => c.throw_error (some "dereferencing null pointer")
  | NodeWrite.throwIndexRange => c.throw_error (some "index out of range")
  | NodeWrite.setReturn => { c with stopFlags := c.stopFlags ||| EvalFlags.stopForReturn }
  | NodeWrite.setBreak => { c with stopFlags := c.stopFlags ||| EvalFlags.stopForBreak }
  | NodeWrite.clearBreak =>
      { c with stopFlags := c.stopFlags &&& (2 ^ 32 - 1 - EvalFlags.stopForBreak) }

/-- The contexts reachable from a fresh one by `throw_error` with a message that
satisfies `allowed`, by `restart`, by the writes of the node bodies to the stop
flags and the exception, and by `other` steps: whatever else an evaluation does
to the context (allocation, `stackTop` moves) without writing `stopFlags` or
`exception`. -/
inductive Reachable (allowed : CStr → Prop) : Context → Prop where
  | fresh (c : Context) : c.isFresh → Reachable allowed c
  | throw_error (c : Context) (message : CStr) :
      Reachable allowed c → allowed message → Reachable allowed (c.throw_error message)
  | restart (c : Context) : Reachable allowed c → Reachable allowed c.restart
  | node (c : Context) (w : NodeWrite) : Reachable allowed c → Reachable allowed (w.apply c)
  | other (c d : Context) : Reachable allowed c → d.stopFlags = c.stopFlags →
      d.exception = c.exception → Reachable allowed d

/-! ## Predicates of the claims and concrete inputs -/

/-- The message `SimNode_At` throws with. -/
def indexOutOfRange : CStr := some "index out of range"

/-- The index `SimNode_At::compute` reads when the base pointer raised no flag:
the cell of the index child, evaluated after the base child, through
`cast<uint32_t>::to`. -/
def SimNode_At.idx (value index : SimNode) (m : Machine) : Nat :=
  cast_uint32_t_to (index.eval (value.evalPtr m).2).1

/-- The outcome "index rejected": a null result, the throw flag set, and
`getException()` equal to "index out of range". -/
def SimNode_At.rejected (r : Ptr × Machine) : Prop :=
  r.1 = nullptr ∧ r.2.context.stopFlags &&& EvalFlags.stopForThrow ≠ 0 ∧
    r.2.context.getException = indexOutOfRange

/-- A context as constructed: a 4 MiB region at address 65536, nothing emitted
yet, a 16 KiB stack at address 8388608, no flag and no exception. -/
def freshContext : Context :=
  { linearAllocatorSize := 4 * 1024 * 1024
    linearAllocator := 65536
    linearAllocatorBase := 65536
    linearAllocatorExecuteBase := 65536
    globalVariables := []
    functions := []
    totalVariables := 0
    totalFunctions := 0
    exception := none
    debugInput := nullptr
    thisProgram := nullptr
    invokeStackTop := nullptr
    stackTop := 8388608 + 16 * 1024
    stack := 8388608
    stackSize := 16 * 1024
    stopFlags := 0 }

/-- A context after setup: 4096 bytes of the region hold the program, and the
table has two globals. -/
def sampleContext : Context :=
  { freshContext with
    linearAllocator := 65536 + 4096
    linearAllocatorExecuteBase := 65536 + 4096
    globalVariables :=
      [ { name := some "a", value := 42, size := 4, debug := 0, init := 0 },
        { name := some "b", value := 7, size := 4, debug := 0, init := 0 } ]
    totalVariables := 2 }

/-- The sample context with the break, return and terminate flags set (but not
throw) and a message left in `exception`. -/
def staleContext : Context :=
  { sampleContext with exception := some "stale", stopFlags := 1 + 2 + 8 }

/-- The sample context with all four flags set and a message in `exception`. -/
def thrownContext : Context :=
  { sampleContext with exception := some "boom", stopFlags := 1 + 2 + 4 + 8 }

/-- The sample context during setup: `top` has moved past `execBase = base`. -/
def setupContext : Context :=
  { sampleContext with linearAllocatorExecuteBase := 65536 }

/-- A machine: the sample context over zeroed memory. -/
def sampleMachine : Machine :=
  { context := sampleContext, memory := fun _ => 0 }

/-! ## Memory reads and the typed paths -/

/-- Modelled from the spec: `cast<bool>::from(b)` is the cell with 1 or 0 in the
low lane and zero in the unused lanes. -/
def cast_bool_from (b : Bool) : Cell := if b then 1 else 0

/-- The number held little-endian in the `n` bytes of memory that start at `p`. -/
def loadLE (memory : Ptr → Nat) (p : Ptr) : Nat → Nat
  | 0 => 0
  | n + 1 => memory p % 256 + 256 * loadLE memory (p + 1) n

/-- The read `*(char **)p`: an 8-byte address. -/
def Machine.loadPtr (m : Machine) (p : Ptr) : Ptr := (loadLE m.memory p 8 : Nat)

/-- The read `*(bool *)p`: one byte, true when not zero. -/
def Machine.loadBool (m : Machine) (p : Ptr) : Bool := loadLE m.memory p 1 != 0

/-- The read `*(float *)p`: four bytes, kept as the 32-bit pattern. -/
def Machine.loadFloat (m : Machine) (p : Ptr) : Nat := loadLE m.memory p 4

/-- The read `*(int32_t *)p`: four bytes in two's complement. -/
def Machine.loadInt (m : Machine) (p : Ptr) : Int :=
  if loadLE m.memory p 4 < 2 ^ 31 then (loadLE m.memory p 4 : Nat)
  else (loadLE m.memory p 4 : Nat) - 2 ^ 32

/-- The read `*(uint32_t *)p`: four bytes. -/
def Machine.loadUInt (m : Machine) (p : Ptr) : Nat := loadLE m.memory p 4

/-- The read `*(int64_t *)p`: eight bytes in two's complement. -/
def Machine.loadInt64 (m : Machine) (p : Ptr) : Int :=
  if loadLE m.memory p 8 < 2 ^ 63 then (loadLE m.memory p 8 : Nat)
  else (loadLE m.memory p 8 : Nat) - 2 ^ 64

/-- The read `*(uint64_t *)p`: eight bytes. -/
def Machine.loadUInt64 (m : Machine) (p : Ptr) : Nat := loadLE m.memory p 8

/-- What a node template uses of its type parameter `TT`: `sizeof(TT)` and
`cast<TT>::from`, applied to an object given by the little-endian number of its
bytes. -/
structure ValueType where
  sizeOf : Nat
  castFrom : Nat → Cell

/-- The read `cast<TT>::from(*(TT *)p)`. -/
def Machine.loadValue (m : Machine) (T : ValueType) (p : Ptr) : Cell :=
  T.castFrom (loadLE m.memory p T.sizeOf)

/-- Modelled from the spec: the typed paths of the base class `SimNode` are
defined outside `simulate.h`; each forwards through the virtual `eval` and the
cast bridge. -/
def SimNode.ofEval (eval : Machine → Cell × Machine) : SimNode :=
  { eval := eval
    evalPtr := fun m => (cast_ptr_to (eval m).1, (eval m).2)
    evalBool := fun m => (cast_bool_to (eval m).1, (eval m).2)
    evalFloat := fun m => (cast_float_to (eval m).1, (eval m).2)
    evalInt := fun m => (cast_int32_t_to (eval m).1, (eval m).2)
    evalUInt := fun m => (cast_uint32_t_to (eval m).1, (eval m).2)
    evalInt64 := fun m => (cast_int64_t_to (eval m).1, (eval m).2)
    evalUInt64 := fun m => (cast_uint64_t_to (eval m).1, (eval m).2) }

/-- The macro `YZG_PTR_NODE`: `eval` boxes `compute` through `cast<char *>::from`
and `evalPtr` is `compute`; the other typed paths stay those of the base class. -/
def YZG_PTR_NODE (compute : Machine → Ptr × Machine) : SimNode :=
  { SimNode.ofEval (fun m => (cast_ptr_from (compute m).1, (compute m).2)) with
    evalPtr := compute }

/-- The macro `YZG_BOOL_NODE`: `eval` boxes `compute` through `cast<bool>::from`
and `evalBool` is `compute`; the other typed paths stay those of the base class. -/
def YZG_BOOL_NODE (compute : Machine → Bool × Machine) : SimNode :=
  { SimNode.ofEval (fun m => (cast_bool_from (compute m).1, (compute m).2)) with
    evalBool := compute }

/-! ## Field, pointer and null-coalescing nodes -/

/-- The message of the null-pointer throws. -/
def nullPointerMessage : CStr := some "dereferencing null pointer"

/-- The member `SimNode_FieldDeref::compute`: the child's pointer plus the
offset, with no test in between. -/
def SimNode_FieldDeref.compute (value : SimNode) (offset : Nat) (m : Machine) :
    Ptr × Machine :=
  let r := value.evalPtr m
  (r.1 + (offset : Int), r.2)

/-- The node `SimNode_FieldDeref`. -/
def SimNode_FieldDeref (value : SimNode) (offset : Nat) : SimNode :=
  YZG_PTR_NODE (SimNode_FieldDeref.compute value offset)

/-- The member `SimNode_PtrFieldDeref::compute`. -/
def SimNode_PtrFieldDeref.compute (value : SimNode) (offset : Nat) (m : Machine) :
    Ptr × Machine :=
  let r := value.evalPtr m
  let prv := r.1
  if r.2.context.stopFlags ≠ 0 then (nullptr, r.2) else
  if prv ≠ nullptr then
    (prv + (offset : Int), r.2)
  else
    (nullptr, { r.2 with context := r.2.context.throw_error (some "dereferencing null pointer") })

/-- The node `SimNode_PtrFieldDeref`. -/
def SimNode_PtrFieldDeref (value : SimNode) (offset : Nat) : SimNode :=
  YZG_PTR_NODE (SimNode_PtrFieldDeref.compute value offset)

/-- The member `SimNode_PtrFieldDerefR2V<TT>::eval`. -/
def SimNode_PtrFieldDerefR2V.eval (T : ValueType) (value : SimNode) (offset : Nat)
    (m : Machine) : Cell × Machine :=
  let r := value.evalPtr m
  let prv := r.1
  if r.2.context.stopFlags ≠ 0 then (_mm_setzero_ps, r.2) else
  if prv ≠ nullptr then
    (r.2.loadValue T (prv + (offset : Int)), r.2)
  else
    (_mm_setzero_ps,
      { r.2 with context := r.2.context.throw_error (some "dereferencing null pointer") })

/-- The member `SimNode_PtrFieldDerefR2V<TT>::evalPtr`. -/
def SimNode_PtrFieldDerefR2V.evalPtr (value : SimNode) (offset : Nat) (m : Machine) :
    Ptr × Machine :=
  let r := value.evalPtr m
  let prv := r.1
  if r.2.context.stopFlags ≠ 0 then (nullptr, r.2) else
  if prv ≠ nullptr then
    (r.2.loadPtr (prv + (offset : Int)), r.2)
  else
    (nullptr, { r.2 with context := r.2.context.throw_error (some "dereferencing null pointer") })

/-- The node `SimNode_PtrFieldDerefR2V<TT>`: it overrides `eval` and `evalPtr` of
`SimNode_PtrFieldDeref`. -/
def SimNode_PtrFieldDerefR2V (T : ValueType) (value : SimNode) (offset : Nat) : SimNode :=
  { SimNode.ofEval (SimNode_PtrFieldDerefR2V.eval T value offset) with
    evalPtr := SimNode_PtrFieldDerefR2V.evalPtr value offset }

/-- The member `SimNode_SafeFieldDeref::compute`. -/
def SimNode_SafeFieldDeref.compute (value : SimNode) (offset : Nat) (m : Machine) :
    Ptr × Machine :=
  let r := value.evalPtr m
  let prv := r.1
  if r.2.context.stopFlags ≠ 0 then (nullptr, r.2) else
  (if prv ≠ nullptr then prv + (offset : Int) else nullptr, r.2)

/-- The node `SimNode_SafeFieldDeref`. -/
def SimNode_SafeFieldDeref (value : SimNode) (offset : Nat) : SimNode :=
  YZG_PTR_NODE (SimNode_SafeFieldDeref.compute value offset)

/-- The member `SimNode_Ptr2Ref::compute`: the null test throws but the function
returns `ptr` either way. -/
def SimNode_Ptr2Ref.compute (subexpr : SimNode) (m : Machine) : Ptr × Machine :=
  let r := subexpr.evalPtr m
  let ptr := r.1
  if r.2.context.stopFlags ≠ 0 then (nullptr, r.2) else
  let m1 : Machine :=
    if ptr = nullptr then
      { r.2 with context := r.2.context.throw_error (some "dereferencing null pointer") }
    else r.2
  (ptr, m1)

/-- One `EVAL_NODE(TYPE,CTYPE)` expansion inside `SimNode_NullCoalescing<TT>`, and
its `eval` as well: `zero` is the value returned at the exception point, `load`
the read `*pR`, and `evalT` the path of the default node that is called. -/
def SimNode_NullCoalescing.evalTyped {α : Type} (zero : α) (load : Machine → Ptr → α)
    (evalT : SimNode → Machine → α × Machine) (subexpr value : SimNode) (m : Machine) :
    α × Machine :=
  let r := subexpr.evalPtr m
  let pR := r.1
  if r.2.context.stopFlags ≠ 0 then (zero, r.2) else
  if pR ≠ nullptr then (load r.2 pR, r.2) else evalT value r.2

/-- The node `SimNode_NullCoalescing<TT>`: `eval` and the seven typed paths. -/
def SimNode_NullCoalescing (T : ValueType) (subexpr value : SimNode) : SimNode :=
  { eval := SimNode_NullCoalescing.evalTyped _mm_setzero_ps (fun m p => m.loadValue T p)
      SimNode.eval subexpr value
    evalPtr := SimNode_NullCoalescing.evalTyped nullptr Machine.loadPtr
      SimNode.evalPtr subexpr value
    evalBool := SimNode_NullCoalescing.evalTyped false Machine.loadBool
      SimNode.evalBool subexpr value
    evalFloat := SimNode_NullCoalescing.evalTyped 0 Machine.loadFloat
      SimNode.evalFloat subexpr value
    evalInt := SimNode_NullCoalescing.evalTyped 0 Machine.loadInt
      SimNode.evalInt subexpr value
    evalUInt := SimNode_NullCoalescing.evalTyped 0 Machine.loadUInt
      SimNode.evalUInt subexpr value
    evalInt64 := SimNode_NullCoalescing.evalTyped 0 Machine.loadInt64
      SimNode.evalInt64 subexpr value
    evalUInt64 := SimNode_NullCoalescing.evalTyped 0 Machine.loadUInt64
      SimNode.evalUInt64 subexpr value }

/-- The member `SimNode_NullCoalescingRef::compute`. -/
def SimNode_NullCoalescingRef.compute (subexpr value : SimNode) (m : Machine) :
    Ptr × Machine :=
  let r := subexpr.evalPtr m
  let ptr := r.1
  if r.2.context.stopFlags ≠ 0 then (nullptr, r.2) else
  if ptr ≠ nullptr then (ptr, r.2) else value.evalPtr r.2

/-! ## Short-circuit boolean nodes -/

/-- The member `Sim_BoolAnd::compute`. -/
def Sim_BoolAnd.compute (l r : SimNode) (m : Machine) : Bool × Machine :=
  let rl := l.evalBool m
  if !rl.1 then
    (false, rl.2)
  else
    if rl.2.context.stopFlags ≠ 0 then (false, rl.2) else
    r.evalBool rl.2

/-- The node `Sim_BoolAnd`. -/
def Sim_BoolAnd (l r : SimNode) : SimNode := YZG_BOOL_NODE (Sim_BoolAnd.compute l r)

/-- The member `Sim_BoolOr::compute`. -/
def Sim_BoolOr.compute (l r : SimNode) (m : Machine) : Bool × Machine :=
  let rl := l.evalBool m
  if rl.1 then
    (true, rl.2)
  else
    if rl.2.context.stopFlags ≠ 0 then (false, rl.2) else
    r.evalBool rl.2

/-- The node `Sim_BoolOr`. -/
def Sim_BoolOr (l r : SimNode) : SimNode := YZG_BOOL_NODE (Sim_BoolOr.compute l r)

/-! ## Inputs for the field, pointer and boolean nodes -/

/-- The machine after `throw_error(message)` on its context. -/
def Machine.thrown (m : Machine) (message : CStr) : Machine :=
  { m with context := m.context.throw_error message }

/-- The type parameter `int32_t`: four bytes, boxed into the low lane. -/
def int32Type : ValueType := { sizeOf := 4, castFrom := fun n => n }

/-- A machine whose memory holds the `int32_t` 42 at address 4096 and zero
elsewhere. -/
def valueMachine : Machine :=
  { context := sampleContext, memory := fun p => if p = 4096 then 42 else 0 }

/-- A node that throws when evaluated: a pointer-field dereference of the null
constant. -/
def throwingNode : SimNode := SimNode_PtrFieldDeref (SimNode_ConstValue 0) 0

/-- A plain field access at offset 4096 on the throwing node: its child returns
null with the throw flag set and `SimNode_FieldDeref` adds the offset, so the node
hands on the non-null pointer 4096 together with a stop flag. -/
def strayPointerNode : SimNode := SimNode_FieldDeref throwingNode 4096

/-! ## Iterators and the for-loop node -/

/-- The memory after the `n` bytes at `p` have been overwritten with the number
`v`, little-endian. -/
def storeLE (memory : Ptr → Nat) (p : Ptr) (n : Nat) (v : Nat) : Ptr → Nat :=
  fun q => if p ≤ q ∧ q < p + (n : Int) then v / 256 ^ (q - p).toNat % 256 else memory q

/-- The write `*(__m128 *)p = c` of a 16-byte cell. -/
def Machine.storeCell (m : Machine) (p : Ptr) (c : Cell) : Machine :=
  { m with memory := storeLE m.memory p 16 c }

/-- The read `*(__m128 *)p` of a 16-byte cell. -/
def Machine.loadCell (m : Machine) (p : Ptr) : Cell := loadLE m.memory p 16

/-- The record `struct IteratorContext`: the current value and the 16 bytes of
the union that follows it. -/
structure IteratorContext where
  value : Cell
  tail : Cell
deriving DecidableEq, Repr

/-- The virtual interface of `struct Iterator`: each method is handed the
context (with the memory behind it) and the `IteratorContext &`, and may write
both. -/
structure Iterator where
  first : Machine → IteratorContext → Bool × Machine × IteratorContext
  next : Machine → IteratorContext → Bool × Machine × IteratorContext
  close : Machine → IteratorContext → Machine × IteratorContext

/-- The calls the for-loop node makes, for the record kept beside its state:
`first`, `next` or `close` on the iterator in slot `t`, or one evaluation of the
body. -/
inductive IterCall where
  | first (t : Nat)
  | next (t : Nat)
  | close (t : Nat)
  | body
deriving DecidableEq, Repr

/-- The data members of `SimNode_ForWithIteratorBase` together with the template
argument `total` of `SimNode_ForWithIterator<total>`; the arrays are given by
index. -/
structure SimNode_ForWithIterator where
  total : Nat
  source_iterators : Nat → SimNode
  body : SimNode
  stackTop : Nat → Nat

/-- The state of one evaluation of the for-loop node: the machine, the local
array `ph`, and two records that the code does not have: the calls made so far,
in order, and the machines on which the body was evaluated. -/
structure ForState where
  machine : Machine
  ph : Nat → IteratorContext
  calls : List IterCall
  bodyInputs : List Machine

namespace SimNode_ForWithIterator

/-- The local array `pi`: slot `t` is at `context.stackTop + stackTop[t]`, taken
from the context on entry. -/
def slot (node : SimNode_ForWithIterator) (m : Machine) (t : Nat) : Ptr :=
  m.context.stackTop + (node.stackTop t : Int)

/-- The second loop of `eval`: each source node is evaluated in turn and its cell
stored in `sources`; a stop flag after a source makes `eval` return at once
(`none`). -/
def evalSources (node : SimNode_ForWithIterator) :
    List Nat → Machine → (Nat → Cell) → Machine × Option (Nat → Cell)
  | [], m, sources => (m, some sources)
  | t :: ts, m, sources =>
    let ll := (node.source_iterators t).eval m
    if ll.2.context.stopFlags ≠ 0 then (ll.2, none)
    else evalSources node ts ll.2 (Function.update sources t ll.1)

/-- The third loop of `eval`: `first` on each iterator in turn, and-ed into
`needLoop` with `first` as the left operand; a stop flag after a call jumps to
`loopend`.  The result is the state, `needLoop`, and whether the jump was
taken. -/
def firstAll (sources : Nat → Iterator) :
    List Nat → ForState → Bool → ForState × Bool × Bool
  | [], st, needLoop => (st, needLoop, false)
  | t :: ts, st, needLoop =>
    let r := (sources t).first st.machine (st.ph t)
    let st1 : ForState :=
      { st with
        machine := r.2.1
        ph := Function.update st.ph t r.2.2
        calls := st.calls ++ [IterCall.first t] }
    let needLoop1 := r.1 && needLoop
    if st1.machine.context.stopFlags ≠ 0 then (st1, needLoop1, true)
    else firstAll sources ts st1 needLoop1

/-- The writes `*pi[t] = ph[t].value`, in slot order. -/
def writeSlots (pi : Nat → Ptr) (ph : Nat → IteratorContext) : List Nat → Machine → Machine
  | [], m => m
  | t :: ts, m => writeSlots pi ph ts (m.storeCell (pi t) (ph t).value)

/-- The inner loop after the body: `next` on each iterator in turn; a false
answer, or a stop flag after the call, jumps to `loopend`.  The result is the
state and whether the jump was taken. -/
def nextAll (sources : Nat → Iterator) : List Nat → ForState → ForState × Bool
  | [], st => (st, false)
  | t :: ts, st =>
    let r := (sources t).next st.machine (st.ph t)
    let st1 : ForState :=
      { st with
        machine := r.2.1
        ph := Function.update st.ph t r.2.2
        calls := st.calls ++ [IterCall.next t] }
    if !r.1 then (st1, true)
    else if st1.machine.context.stopFlags ≠ 0 then (st1, true)
    else nextAll sources ts st1

/-- The loop `for ( int i=0; !context.stopFlags; ++i )`, with `fuel` bounding the
number of rounds: it ends when a stop flag is set at the head of a round or when
the inner loop jumps to `loopend`; `none` means the fuel ran out. -/
def loop (node : SimNode_ForWithIterator) (sources : Nat → Iterator) (pi : Nat → Ptr) :
    Nat → ForState → Option ForState
  | 0, _ => none
  | fuel + 1, st =>
    if st.machine.context.stopFlags ≠ 0 then some st
    else
      let m1 := writeSlots pi st.ph (List.range node.total) st.machine
      let rb := node.body.eval m1
      let st1 : ForState :=
        { st with
          machine := rb.2
          calls := st.calls ++ [IterCall.body]
          bodyInputs := st.bodyInputs ++ [m1] }
      let rn := nextAll sources (List.range node.total) st1
      if rn.2 then some rn.1 else loop node sources pi fuel rn.1

/-- The loop at `loopend`: `close` on every one of the `total` iterators. -/
def closeAll (sources : Nat → Iterator) : List Nat → ForState → ForState
  | [], st => st
  | t :: ts, st =>
    let r := (sources t).close st.machine (st.ph t)
    closeAll sources ts
      { st with
        machine := r.1
        ph := Function.update st.ph t r.2
        calls := st.calls ++ [IterCall.close t] }

/-- The tail of `eval` from `loopend` on: the closes, then
`stopFlags &= ~stopForBreak`. -/
def loopend (node : SimNode_ForWithIterator) (sources : Nat → Iterator) (st : ForState) :
    ForState :=
  let st1 := closeAll sources (List.range node.total) st
  { st1 with
    machine :=
      { st1.machine with
        context :=
          { st1.machine.context with
            stopFlags :=
              st1.machine.context.stopFlags &&& (2 ^ 32 - 1 - EvalFlags.stopForBreak) } } }

/-- The member `SimNode_ForWithIterator<total>::eval`.  `iteratorAt` gives the
iterator object a source cell points to (`cast<Iterator *>::to`), `junk` is the
content of the uninitialised local array `ph`, and `fuel` bounds the rounds of
the main loop (`none` when it runs out).  The result is the returned cell and the
final state. -/
def eval (node : SimNode_ForWithIterator) (iteratorAt : Cell → Iterator)
    (junk : Nat → IteratorContext) (fuel : Nat) (m : Machine) : Option (Cell × ForState) :=
  let pi := slot node m
  let rs := evalSources node (List.range node.total) m (fun _ => 0)
  match rs.2 with
  | none =>
    some (_mm_setzero_ps, { machine := rs.1, ph := junk, calls := [], bodyInputs := [] })
  | some cells =>
    let sources := fun t => iteratorAt (cells t)
    let rf := firstAll sources (List.range node.total)
      { machine := rs.1, ph := junk, calls := [], bodyInputs := [] } true
    if rf.2.2 then some (_mm_setzero_ps, loopend node sources rf.1)
    else if !rf.2.1 then some (_mm_setzero_ps, loopend node sources rf.1)
    else
      match loop node sources pi fuel rf.1 with
      | none => none
      | some st => some (_mm_setzero_ps, loopend node sources st)

end SimNode_ForWithIterator

/-- An iterator over the list `xs` that keeps its position in `tail`: `first`
goes to element 0, `next` to the following element, `close` does nothing, and
none of them touches the machine. -/
def listIterator (xs : List Cell) : Iterator :=
  { first := fun m _ => (decide (0 < xs.length), m, { value := xs.getD 0 0, tail := 0 })
    next := fun m itc =>
      (decide (itc.tail + 1 < xs.length), m,
        { value := xs.getD (itc.tail + 1) 0, tail := itc.tail + 1 })
    close := fun m itc => (m, itc) }

/-- A call of the opening and looping phases of the for-loop node over `n`
slots: `first` or `next` on a slot below `n`, or the body; never a `close`. -/
def IterCall.beforeClose (n : Nat) : IterCall → Prop
  | IterCall.first t => t < n
  | IterCall.next t => t < n
  | IterCall.close _ => False
  | IterCall.body => True

/-- The node `SimNode_Break`: it sets the break flag and returns a zero cell. -/
def SimNode_Break : SimNode :=
  SimNode.ofEval (fun m =>
    (_mm_setzero_ps,
      { m with
        context :=
          { m.context with
            stopFlags := m.context.stopFlags ||| EvalFlags.stopForBreak } }))

/-! ## Inputs for the for-loop node -/

/-- The two sequences of the lockstep scenario: A = [1,2,3,4] and B = ["x","y"]
(as the character codes 120 and 121). -/
def lockstepSeqs (t : Nat) : List Cell :=
  if t = 0 then [1, 2, 3, 4] else [120, 121]

/-- The iterator objects of the scenario: the cell `t + 1` points to the iterator
over sequence `t`. -/
def lockstepIteratorAt (c : Cell) : Iterator := listIterator (lockstepSeqs (c - 1))

/-- A for-loop node of arity 2 whose sources are the constants 1 and 2, whose
slots are at frame offsets 32 and 48, and whose body does nothing. -/
def lockstepNode : SimNode_ForWithIterator :=
  { total := 2
    source_iterators := fun t => SimNode_ConstValue (t + 1)
    body := SimNode_ConstValue 0
    stackTop := fun t => 32 + 16 * t }

/-- The same node with a `break` as its body. -/
def breakingNode : SimNode_ForWithIterator :=
  { lockstepNode with body := SimNode_Break }

/-- The content of the uninitialised array `ph` in the scenario. -/
def lockstepJunk : Nat → IteratorContext := fun _ => { value := 99, tail := 99 }

/-! ## The remaining casts and the typed paths -/

/-- Modelled from the spec: `cast<uint32_t>::from(v)` is the cell with `v` in the
low lane and zero in the unused lanes. -/
def cast_uint32_t_from (v : Nat) : Cell := v % 2 ^ 32

/-- Modelled from the spec: `cast<int64_t>::from(v)` is the cell with the two's
complement bits of `v` in the low 64 bits and zero above. -/
def cast_int64_t_from (v : Int) : Cell := (v % 2 ^ 64).toNat

/-- Modelled from the spec: `cast<uint64_t>::from(v)` is the cell with `v` in the
low 64 bits and zero above. -/
def cast_uint64_t_from (v : Nat) : Cell := v % 2 ^ 64

/-- Modelled from the spec: `cast<float>::from(v)` is the cell with the 32-bit
pattern of `v` in the low lane and zero in the unused lanes. -/
def cast_float_from (v : Nat) : Cell := v % 2 ^ 32

/-- One `EVAL_NODE(TYPE,CTYPE)` pair: the virtual method `eval##TYPE` of a node
(`get`), the override of it (`set`), the value `(CTYPE) 0`, and the two
directions of `cast<CTYPE>`. -/
structure TypedPath (α : Type) where
  get : SimNode → Machine → α × Machine
  set : SimNode → (Machine → α × Machine) → SimNode
  zero : α
  castFrom : α → Cell
  castTo : Cell → α

/-- The pair `(Ptr, char *)`. -/
def TypedPath.ptr : TypedPath Ptr :=
  { get := SimNode.evalPtr
    set := fun n f => { n with evalPtr := f }
    zero := nullptr
    castFrom := cast_ptr_from
    castTo := cast_ptr_to }

/-- The pair `(Int, int32_t)`. -/
def TypedPath.int : TypedPath Int :=
  { get := SimNode.evalInt
    set := fun n f => { n with evalInt := f }
    zero := 0
    castFrom := cast_int32_t_from
    castTo := cast_int32_t_to }

/-- The pair `(UInt, uint32_t)`. -/
def TypedPath.uint : TypedPath Nat :=
  { get := SimNode.evalUInt
    set := fun n f => { n with evalUInt := f }
    zero := 0
    castFrom := cast_uint32_t_from
    castTo := cast_uint32_t_to }

/-- The pair `(Int64, int64_t)`. -/
def TypedPath.int64 : TypedPath Int :=
  { get := SimNode.evalInt64
    set := fun n f => { n with evalInt64 := f }
    zero := 0
    castFrom := cast_int64_t_from
    castTo := cast_int64_t_to }

/-- The pair `(UInt64, uint64_t)`. -/
def TypedPath.uint64 : TypedPath Nat :=
  { get := SimNode.evalUInt64
    set := fun n f => { n with evalUInt64 := f }
    zero := 0
    castFrom := cast_uint64_t_from
    castTo := cast_uint64_t_to }

/-- The pair `(Float, float)`, a float being kept as its 32-bit pattern. -/
def TypedPath.float : TypedPath Nat :=
  { get := SimNode.evalFloat
    set := fun n f => { n with evalFloat := f }
    zero := 0
    castFrom := cast_float_from
    castTo := cast_float_to }

/-- The pair `(Bool, bool)`. -/
def TypedPath.bool : TypedPath Bool :=
  { get := SimNode.evalBool
    set := fun n f => { n with evalBool := f }
    zero := false
    castFrom := cast_bool_from
    castTo := cast_bool_to }

/-- The macro `YZG_NODE(TYPE,CTYPE)`: `eval` boxes `compute` through
`cast<CTYPE>::from` and `eval##TYPE` is `compute`; the other typed paths stay
those of the base class. -/
def YZG_NODE {α : Type} (P : TypedPath α) (compute : Machine → α × Machine) : SimNode :=
  P.set (SimNode.ofEval (fun m => (P.castFrom (compute m).1, (compute m).2))) compute

/-! ## Frame access, `return`, and the local and argument reads -/

/-- The member `Context::abiResult`: the address of `((Prologue *)stackTop)->result`,
the first member of the prologue. -/
def Context.abiResult (c : Context) : Ptr := c.stackTop

/-- The member `Context::abiArguments`: the pointer read from
`((Prologue *)stackTop)->arguments`, the member that follows the 16-byte
`result`. -/
def Machine.abiArguments (m : Machine) : Ptr := m.loadPtr (m.context.stackTop + 16)

/-- The member `SimNode_Return::eval`; `subexpr` is `none` for a null pointer.
The right-hand side `subexpr->eval(context)` is evaluated before `abiResult()`
is applied, the order of an assignment since C++17. -/
def SimNode_Return.eval (subexpr : Option SimNode) (m : Machine) : Cell × Machine :=
  let m1 : Machine :=
    match subexpr with
    | some s =>
      let r := s.eval m
      r.2.storeCell r.2.context.abiResult r.1
    | none => m
  (_mm_setzero_ps,
    { m1 with
      context :=
        { m1.context with
          stopFlags := m1.context.stopFlags ||| EvalFlags.stopForReturn } })

/-- The node `SimNode_Return`: only `eval` is overridden. -/
def SimNode_Return (subexpr : Option SimNode) : SimNode :=
  SimNode.ofEval (SimNode_Return.eval subexpr)

/-- The node `SimNode_GetArgument`: `eval` reads `abiArguments()[index]` and every
typed path casts that cell. -/
def SimNode_GetArgument (index : Int) : SimNode :=
  { eval := fun m => (m.loadCell (m.abiArguments + 16 * index), m)
    evalPtr := fun m => (cast_ptr_to (m.loadCell (m.abiArguments + 16 * index)), m)
    evalBool := fun m => (cast_bool_to (m.loadCell (m.abiArguments + 16 * index)), m)
    evalFloat := fun m => (cast_float_to (m.loadCell (m.abiArguments + 16 * index)), m)
    evalInt := fun m => (cast_int32_t_to (m.loadCell (m.abiArguments + 16 * index)), m)
    evalUInt := fun m => (cast_uint32_t_to (m.loadCell (m.abiArguments + 16 * index)), m)
    evalInt64 := fun m => (cast_int64_t_to (m.loadCell (m.abiArguments + 16 * index)), m)
    evalUInt64 := fun m => (cast_uint64_t_to (m.loadCell (m.abiArguments + 16 * index)), m) }

/-- The node `SimNode_Call` as far as `simulate.h` defines it: `eval` is defined
elsewhere and passed in, and every typed path is `cast<CTYPE>::to(eval(context))`. -/
def SimNode_Call (eval : Machine → Cell × Machine) : SimNode :=
  { eval := eval
    evalPtr := fun m => (cast_ptr_to (eval m).1, (eval m).2)
    evalBool := fun m => (cast_bool_to (eval m).1, (eval m).2)
    evalFloat := fun m => (cast_float_to (eval m).1, (eval m).2)
    evalInt := fun m => (cast_int32_t_to (eval m).1, (eval m).2)
    evalUInt := fun m => (cast_uint32_t_to (eval m).1, (eval m).2)
    evalInt64 := fun m => (cast_int64_t_to (eval m).1, (eval m).2)
    evalUInt64 := fun m => (cast_uint64_t_to (eval m).1, (eval m).2) }

/-- The member `SimNode_GetLocal::compute`. -/
def SimNode_GetLocal.compute (stackTop : Nat) (m : Machine) : Ptr × Machine :=
  (m.context.stackTop + (stackTop : Int), m)

/-- An `assert(0 && text)` followed by `return value`: with assertions compiled in
the call faults; `ndebug` is the build without them, which returns the value. -/
def assertFalseThen {α : Type} (ndebug : Bool) (text : String) (value : α) : Except Fault α :=
  if ndebug then Except.ok value else Except.error (Fault.assertion text)

/-- The override `SimNode_GetLocal::evalInt`: `assert(0 && "we should not even be
here"); return 0;`. -/
def SimNode_GetLocal.evalInt (ndebug : Bool) (m : Machine) : Except Fault (Int × Machine) :=
  assertFalseThen ndebug "we should not even be here" (0, m)

/-- The member `SimNode_GetLocalRef::compute`: the pointer stored in the local. -/
def SimNode_GetLocalRef.compute (stackTop : Nat) (m : Machine) : Ptr × Machine :=
  (m.loadPtr (m.context.stackTop + (stackTop : Int)), m)

/-- The override `SimNode_GetLocalRef::evalInt`: `assert(0 && "like that?");
return **(int32_t **)(context.stackTop + stackTop);`. -/
def SimNode_GetLocalRef.evalInt (stackTop : Nat) (ndebug : Bool) (m : Machine) :
    Except Fault (Int × Machine) :=
  assertFalseThen ndebug "like that?"
    (m.loadInt (m.loadPtr (m.context.stackTop + (stackTop : Int))), m)

/-- The override `SimNode_Ptr2Ref::evalInt`: `assert(0 && "we should not even be
here!"); return 0;`. -/
def SimNode_Ptr2Ref.evalInt (ndebug : Bool) (m : Machine) : Except Fault (Int × Machine) :=
  assertFalseThen ndebug "we should not even be here!" (0, m)

/-- The override `SimNode_NullCoalescingRef::evalInt`: `assert(0 && "we should not
even be here!"); return 0;`. -/
def SimNode_NullCoalescingRef.evalInt (ndebug : Bool) (m : Machine) :
    Except Fault (Int × Machine) :=
  assertFalseThen ndebug "we should not even be here!" (0, m)

/-- The member `SimNode_SafeFieldDerefPtr::compute`: the child's pointer is taken
as a `char **`, so `prv + offset` advances by `offset` pointers of 8 bytes. -/
def SimNode_SafeFieldDerefPtr.compute (value : SimNode) (offset : Nat) (m : Machine) :
    Ptr × Machine :=
  let r := value.evalPtr m
  let prv := r.1
  if r.2.context.stopFlags ≠ 0 then (nullptr, r.2) else
  (if prv ≠ nullptr then r.2.loadPtr (prv + 8 * (offset : Int)) else nullptr, r.2)

/-! ## Binary operator nodes and `makeNodeUnroll` -/

/-- The member `compute` that `IMPLEMENT_OP2_POLICY(CALL,TYPE,CTYPE)` generates:
`P` is the pair `(TYPE, CTYPE)` and `policy` the function `SimPolicy<CTYPE>::CALL`,
which is handed the context. -/
def IMPLEMENT_OP2_POLICY.compute {α : Type} (P : TypedPath α)
    (policy : α → α → Machine → α × Machine) (l r : SimNode) (m : Machine) : α × Machine :=
  let lv := P.get l m
  if lv.2.context.stopFlags ≠ 0 then (P.zero, lv.2) else
  let rv := P.get r lv.2
  if rv.2.context.stopFlags ≠ 0 then (P.zero, rv.2) else
  policy lv.1 rv.1 rv.2

/-- The node `IMPLEMENT_OP2_POLICY(CALL,TYPE,CTYPE)` generates. -/
def IMPLEMENT_OP2_POLICY {α : Type} (P : TypedPath α)
    (policy : α → α → Machine → α × Machine) (l r : SimNode) : SimNode :=
  YZG_NODE P (IMPLEMENT_OP2_POLICY.compute P policy l r)

/-- The member `compute` that `IMPLEMENT_OP2_BOOL_POLICY(CALL,TYPE,CTYPE)`
generates: operands through `eval##TYPE`, a `bool` result, `false` at the
exception points. -/
def IMPLEMENT_OP2_BOOL_POLICY.compute {α : Type} (P : TypedPath α)
    (policy : α → α → Machine → Bool × Machine) (l r : SimNode) (m : Machine) :
    Bool × Machine :=
  let lv := P.get l m
  if lv.2.context.stopFlags ≠ 0 then (false, lv.2) else
  let rv := P.get r lv.2
  if rv.2.context.stopFlags ≠ 0 then (false, rv.2) else
  policy lv.1 rv.1 rv.2

/-- The node `IMPLEMENT_OP2_BOOL_POLICY(CALL,TYPE,CTYPE)` generates. -/
def IMPLEMENT_OP2_BOOL_POLICY {α : Type} (P : TypedPath α)
    (policy : α → α → Machine → Bool × Machine) (l r : SimNode) : SimNode :=
  YZG_BOOL_NODE (IMPLEMENT_OP2_BOOL_POLICY.compute P policy l r)

/-- The member `eval` that `IMPLEMENT_OP2_EVAL_POLICY(CALL,CTYPE)` generates:
operands through `eval`, a cell result, a zeroed cell at the exception points. -/
def IMPLEMENT_OP2_EVAL_POLICY.eval (policy : Cell → Cell → Machine → Cell × Machine)
    (l r : SimNode) (m : Machine) : Cell × Machine :=
  let lv := l.eval m
  if lv.2.context.stopFlags ≠ 0 then (_mm_setzero_ps, lv.2) else
  let rv := r.eval lv.2
  if rv.2.context.stopFlags ≠ 0 then (_mm_setzero_ps, rv.2) else
  policy lv.1 rv.1 rv.2

/-- The node `IMPLEMENT_OP2_EVAL_POLICY(CALL,CTYPE)` generates: only `eval` is
overridden. -/
def IMPLEMENT_OP2_EVAL_POLICY (policy : Cell → Cell → Machine → Cell × Machine)
    (l r : SimNode) : SimNode :=
  SimNode.ofEval (IMPLEMENT_OP2_EVAL_POLICY.eval policy l r)

/-- Modelled from the spec: `sim_policy.h` is missing.  The policy
`SimPolicy<int32_t>::Div`: division by zero calls `throw_error("divide by zero")`
and yields 0; otherwise the quotient truncated toward zero, wrapped to 32 bits. -/
def SimPolicy_int32_t.Div (a b : Int) (m : Machine) : Int × Machine :=
  if b = 0 then (0, m.thrown (some "divide by zero"))
  else (cast_int32_t_to (cast_int32_t_from (Int.tdiv a b)), m)

/-- Modelled from the spec: the policy `SimPolicy<int32_t>::Add`, with wrap-around
at 32 bits. -/
def SimPolicy_int32_t.Add (a b : Int) (m : Machine) : Int × Machine :=
  (cast_int32_t_to (cast_int32_t_from (a + b)), m)

/-- The constant `MAX_FOR_ITERATORS`. -/
def MAX_FOR_ITERATORS : Nat := 16

/-- The member `Context::makeNodeUnroll`, by the template argument of the node it
instantiates (`none` for a null result): the `switch` has the cases 1 to 16, and
its `default` is `assert(0 && "we should not even be here"); return nullptr;`. -/
def Context.makeNodeUnroll (ndebug : Bool) (count : Int) : Except Fault (Option Nat) :=
  if count = 1 then Except.ok (some 1)
  else if count = 2 then Except.ok (some 2)
  else if count = 3 then Except.ok (some 3)
  else if count = 4 then Except.ok (some 4)
  else if count = 5 then Except.ok (some 5)
  else if count = 6 then Except.ok (some 6)
  else if count = 7 then Except.ok (some 7)
  else if count = 8 then Except.ok (some 8)
  else if count = 9 then Except.ok (some 9)
  else if count = 10 then Except.ok (some 10)
  else if count = 11 then Except.ok (some 11)
  else if count = 12 then Except.ok (some 12)
  else if count = 13 then Except.ok (some 13)
  else if count = 14 then Except.ok (some 14)
  else if count = 15 then Except.ok (some 15)
  else if count = 16 then Except.ok (some 16)
  else assertFalseThen ndebug "we should not even be here" none

/-! ## Inputs for `return` and the operator nodes -/

/-- The expression `10 / a` with `a = 0`: an `int32_t` division node over two
constants. -/
def divideByZeroNode : SimNode :=
  IMPLEMENT_OP2_POLICY TypedPath.int SimPolicy_int32_t.Div
    (SimNode_ConstValue (cast_int32_t_from 10)) (SimNode_ConstValue (cast_int32_t_from 0))

/-- The expression `40 + 2` as an `int32_t` addition node over two constants. -/
def fortyTwoNode : SimNode :=
  IMPLEMENT_OP2_POLICY TypedPath.int SimPolicy_int32_t.Add
    (SimNode_ConstValue (cast_int32_t_from 40)) (SimNode_ConstValue (cast_int32_t_from 2))

/-! ## The for-loop node: the exit state and the answers of `first` -/

namespace SimNode_ForWithIterator

/-- The state in which `eval` arrives at the label `loopend`, once the sources
have been evaluated (leaving the machine `m1`) and have given the iterators:
after the calls of `first` if a stop flag tripped there or `needLoop` is false,
and at the exit of the main loop otherwise (`none` when the fuel runs out). -/
def atLoopend (node : SimNode_ForWithIterator) (sources : Nat → Iterator) (pi : Nat → Ptr)
    (junk : Nat → IteratorContext) (fuel : Nat) (m1 : Machine) : Option ForState :=
  let rf := firstAll sources (List.range node.total)
    { machine := m1, ph := junk, calls := [], bodyInputs := [] } true
  if rf.2.2 then some rf.1
  else if !rf.2.1 then some rf.1
  else loop node sources pi fuel rf.1

/-- The answers of the calls of `first` that `firstAll` makes, in order: a record
beside the code, which follows the state exactly as `firstAll` does. -/
def firstAnswers (sources : Nat → Iterator) : List Nat → ForState → List Bool
  | [], _ => []
  | t :: ts, st =>
    let r := (sources t).first st.machine (st.ph t)
    let st1 : ForState :=
      { st with
        machine := r.2.1
        ph := Function.update st.ph t r.2.2
        calls := st.calls ++ [IterCall.first t] }
    if st1.machine.context.stopFlags ≠ 0 then [r.1]
    else r.1 :: firstAnswers sources ts st1

end SimNode_ForWithIterator

/-- A call of the main loop: `next` on some slot, or the body. -/
def IterCall.inLoop : IterCall → Prop
  | IterCall.first _ => False
  | IterCall.next _ => True
  | IterCall.close _ => False
  | IterCall.body => True

/-- An iterator whose `first` throws: it calls `throw_error("iterator failed")` and
answers false. -/
def throwingIterator : Iterator :=
  { first := fun m itc => (false, m.thrown (some "iterator failed"), itc)
    next := fun m itc => (false, m, itc)
    close := fun m itc => (m, itc) }

/-- Iterator objects for a loop whose first iterator throws in `first`; the second
one runs over B = ["x","y"]. -/
def throwingFirstIteratorAt (c : Cell) : Iterator :=
  if c = 1 then throwingIterator else listIterator [120, 121]

/-- Iterator objects for a loop whose first sequence is empty; the second one is
B = ["x","y"]. -/
def emptyFirstIteratorAt (c : Cell) : Iterator :=
  if c = 1 then listIterator [] else listIterator [120, 121]

/-- The state of `eval` when the calls of `first` begin: the machine the sources
left, the uninitialised `ph`, and empty records. -/
def SimNode_ForWithIterator.start (m1 : Machine) (junk : Nat → IteratorContext) : ForState :=
  { machine := m1, ph := junk, calls := [], bodyInputs := [] }

/-- The source cells of the arity-2 scenarios: slot 0 holds the cell 1 and slot 1
the cell 2. -/
def lockstepCells : Nat → Cell :=
  Function.update (Function.update (fun _ => 0) 0 1) 1 2

/-! ## Compound assignment, copy nodes, and the safe pointer-field node -/

/-- The member `compute` that `IMPLEMENT_OP2_SET_POLICY(CALL,TYPE,CTYPE)`
generates: the left operand through `evalPtr`, the right one through
`eval##TYPE`, each followed by `YZG_NODE_EXCEPTION_POINT(CTYPE)`; then
`SimPolicy<CTYPE>::CALL(*lv,rv,context)`, whose result is dropped, and
`return CTYPE()`.  `policy` is handed the reference `*lv` as its address, the
right value and the context with the memory behind it. -/
def IMPLEMENT_OP2_SET_POLICY.compute {α : Type} (P : TypedPath α)
    (policy : Ptr → α → Machine → Machine) (l r : SimNode) (m : Machine) : α × Machine :=
  let lv := l.evalPtr m
  if lv.2.context.stopFlags ≠ 0 then (P.zero, lv.2) else
  let rv := P.get r lv.2
  if rv.2.context.stopFlags ≠ 0 then (P.zero, rv.2) else
  (P.zero, policy lv.1 rv.1 rv.2)

/-- The node `IMPLEMENT_OP2_SET_POLICY(CALL,TYPE,CTYPE)` generates. -/
def IMPLEMENT_OP2_SET_POLICY {α : Type} (P : TypedPath α)
    (policy : Ptr → α → Machine → Machine) (l r : SimNode) : SimNode :=
  YZG_NODE P (IMPLEMENT_OP2_SET_POLICY.compute P policy l r)

/-- The member `eval` that `IMPLEMENT_OP2_EVAL_SET_POLICY(CALL,CTYPE)` generates:
the left operand through `evalPtr`, the right one through `eval`, each followed by
`YZG_EXCEPTION_POINT`; then `SimPolicy<CTYPE>::CALL(lv,rv,context)` on the pointer
and `return _mm_setzero_ps()`. -/
def IMPLEMENT_OP2_EVAL_SET_POLICY.eval (policy : Ptr → Cell → Machine → Machine)
    (l r : SimNode) (m : Machine) : Cell × Machine :=
  let lv := l.evalPtr m
  if lv.2.context.stopFlags ≠ 0 then (_mm_setzero_ps, lv.2) else
  let rv := r.eval lv.2
  if rv.2.context.stopFlags ≠ 0 then (_mm_setzero_ps, rv.2) else
  (_mm_setzero_ps, policy lv.1 rv.1 rv.2)

/-- The node `IMPLEMENT_OP2_EVAL_SET_POLICY(CALL,CTYPE)` generates: only `eval` is
overridden. -/
def IMPLEMENT_OP2_EVAL_SET_POLICY (policy : Ptr → Cell → Machine → Machine)
    (l r : SimNode) : SimNode :=
  SimNode.ofEval (IMPLEMENT_OP2_EVAL_SET_POLICY.eval policy l r)

/-- The write `*(TT *)p = v`: the `sizeof(TT)` bytes at `p` take the low bytes of
the number `v`. -/
def Machine.storeValue (m : Machine) (T : ValueType) (p : Ptr) (v : Nat) : Machine :=
  { m with memory := storeLE m.memory p T.sizeOf v }

/-- The member `SimNode_CopyValue<TT>::eval`: the destination pointer, then the
source cell, each followed by `YZG_EXCEPTION_POINT`; then `*pl = *pr` with `pr`
pointing at the cell `rr`, so the first `sizeof(TT)` bytes of the cell are
written. -/
def SimNode_CopyValue.eval (T : ValueType) (l r : SimNode) (m : Machine) : Cell × Machine :=
  let pl := l.evalPtr m
  if pl.2.context.stopFlags ≠ 0 then (_mm_setzero_ps, pl.2) else
  let rr := r.eval pl.2
  if rr.2.context.stopFlags ≠ 0 then (_mm_setzero_ps, rr.2) else
  (_mm_setzero_ps, rr.2.storeValue T pl.1 rr.1)

/-- The member `SimNode_CopyValue<TT>::evalPtr`: the same with
`YZG_PTR_EXCEPTION_POINT` and `return nullptr`. -/
def SimNode_CopyValue.evalPtr (T : ValueType) (l r : SimNode) (m : Machine) : Ptr × Machine :=
  let pl := l.evalPtr m
  if pl.2.context.stopFlags ≠ 0 then (nullptr, pl.2) else
  let rr := r.eval pl.2
  if rr.2.context.stopFlags ≠ 0 then (nullptr, rr.2) else
  (nullptr, rr.2.storeValue T pl.1 rr.1)

/-- The node `SimNode_CopyValue<TT>`: it overrides `eval` and `evalPtr`. -/
def SimNode_CopyValue (T : ValueType) (l r : SimNode) : SimNode :=
  { SimNode.ofEval (SimNode_CopyValue.eval T l r) with
    evalPtr := SimNode_CopyValue.evalPtr T l r }

/-- The member `SimNode_CopyRefValueT<TT>::eval`: the destination pointer, then
the source pointer, each followed by `YZG_EXCEPTION_POINT`; then `*pl = *pr`, a
copy of the `sizeof(TT)` bytes at `pr`. -/
def SimNode_CopyRefValueT.eval (T : ValueType) (l r : SimNode) (m : Machine) :
    Cell × Machine :=
  let pl := l.evalPtr m
  if pl.2.context.stopFlags ≠ 0 then (_mm_setzero_ps, pl.2) else
  let pr := r.evalPtr pl.2
  if pr.2.context.stopFlags ≠ 0 then (_mm_setzero_ps, pr.2) else
  (_mm_setzero_ps, pr.2.storeValue T pl.1 (loadLE pr.2.memory pr.1 T.sizeOf))

/-- The node `SimNode_CopyRefValueT<TT>`: only `eval` is overridden. -/
def SimNode_CopyRefValueT (T : ValueType) (l r : SimNode) : SimNode :=
  SimNode.ofEval (SimNode_CopyRefValueT.eval T l r)

/-- The node `SimNode_SafeFieldDerefPtr`. -/
def SimNode_SafeFieldDerefPtr (value : SimNode) (offset : Nat) : SimNode :=
  YZG_PTR_NODE (SimNode_SafeFieldDerefPtr.compute value offset)

/-! ## Inputs for the assignment nodes, the safe pointer-field node and the loop -/

/-- Modelled from the spec: `sim_policy.h` is missing.  The policy
`SimPolicy<int32_t>::SetAdd(a, b, context)` is `a += b` on the referenced
`int32_t`, with wrap-around at 32 bits. -/
def SimPolicy_int32_t.SetAdd (a : Ptr) (b : Int) (m : Machine) : Machine :=
  { m with memory := storeLE m.memory a 4 (cast_int32_t_from (m.loadInt a + b)) }

/-- A machine whose memory holds a structure at address 4096 with the pointer
4660 in its field at byte offset 8 and the pointer 22136 at byte offset 64. -/
def pointerFieldMachine : Machine :=
  { context := sampleContext
    memory := fun p =>
      if p = 4104 then 52 else if p = 4105 then 18
      else if p = 4160 then 120 else if p = 4161 then 86 else 0 }

/-- The arity-2 loop over A and B whose body throws. -/
def throwingBodyNode : SimNode_ForWithIterator :=
  { lockstepNode with body := throwingNode }

/-- Modelled from the spec: the iterator implementations are outside
`simulate.h`.  The premise that an iterator's `next` returns false after at most
`k` successful calls, as a measure on its state: after a `first` that answers true
the measure is at most `k`, and every `next` that answers true lowers it. -/
structure Iterator.StopsWithin (it : Iterator) (rank : IteratorContext → Nat) (k : Nat) :
    Prop where
  first_rank : ∀ m itc, (it.first m itc).1 = true → rank (it.first m itc).2.2 ≤ k
  next_rank : ∀ m itc, (it.next m itc).1 = true → rank (it.next m itc).2.2 < rank itc

/-- The measure of `listIterator xs`: the number of elements after the one the
state stands at. -/
def listIterator.rank (xs : List Cell) (itc : IteratorContext) : Nat :=
  xs.length - 1 - itc.tail

/-! ## The helper functions of the parser -/

/-- The record `LineInfo`, a range in a source file; the file is left out. -/
structure LineInfo where
  column : Nat
  line : Nat
  last_column : Nat
  last_line : Nat
deriving DecidableEq, Repr

/-- The values of `enum class CompilationError` that the helper functions pass
on. -/
inductive CompilationError where
  | syntax_error
  | invalid_name
  | cant_initialize
  | annotation_not_found
  | invalid_annotation
deriving DecidableEq, Repr

/-- One report: the five arguments of a call of `Program::error`. -/
structure Error where
  what : String
  extra : String
  fixme : String
  at_ : LineInfo
  cerr : CompilationError
deriving DecidableEq, Repr

/-- Modelled from the spec: class `Program` is defined outside the parser file;
of the program behind `g_Program` only the reports made so far are kept, in the
order of the calls. -/
structure Program where
  errors : List Error
deriving DecidableEq, Repr

/-- Modelled from the spec: `Program::error` is defined outside the parser file;
a call adds one report after those made before. -/
def Program.error (p : Program) (what extra fixme : String) (at_ : LineInfo)
    (cerr : CompilationError) : Program :=
  { p with
    errors := p.errors ++
      [{ what := what, extra := extra, fixme := fixme, at_ := at_, cerr := cerr }] }

/-- The read `name[i]` of a `std::string`, which is kept as a `String` with one
`Char` for each `char`. -/
def charAt (name : String) (i : Nat) : Char := name.data.getD i (Char.ofNat 0)

/-- The function `das_checkName`, with the program behind `g_Program` passed
through. -/
def das_checkName (name : String) (at_ : LineInfo) (g_Program : Program) : Program :=
  if name.length ≥ 2 ∧ charAt name 0 = '_' ∧ charAt name 1 = '_' then
    g_Program.error ("names starting with __ are reserved, " ++ name) "" "" at_
      CompilationError.invalid_name
  else g_Program

/-- The overload `das_yyerror(error, at, cerr)`. -/
def das_yyerror (error : String) (at_ : LineInfo) (cerr : CompilationError)
    (g_Program : Program) : Program :=
  g_Program.error error "" "" at_ cerr

/-- An expression tree as far as `sequenceToList` looks at it: an `ExprSequence`
with its `left` and `right`, or an expression of another class, told apart by a
tag. -/
inductive Expression where
  | ExprSequence (left right : Expression)
  | other (tag : Nat)
deriving DecidableEq, Repr

/-- The virtual method `rtti_isSequence`: true for `ExprSequence` only. -/
def Expression.rtti_isSequence : Expression → Bool
  | Expression.ExprSequence _ _ => true
  | Expression.other _ => false

/-- Modelled from the spec: the macro `DAS_ASSERT` is defined outside the parser
file.  A condition that fails is the fault `assertion` with the text of the
condition; `ndebug` is the build without assertions, which goes on. -/
def DAS_ASSERT (ndebug cond : Bool) (text : String) : Except Fault Unit :=
  if cond = false ∧ ndebug = false then Except.error (Fault.assertion text)
  else Except.ok ()

/-- The `while` loop of `sequenceToList`: while `arg` is a sequence, the assertion
on its right child, then `argList.push_back(pSeq->right)` and `arg = pSeq->left`.
The result is `argList` and the last `arg`. -/
def sequenceToList.loop (ndebug : Bool) :
    Expression → List Expression → Except Fault (List Expression × Expression)
  | Expression.ExprSequence left right, argList =>
    match DAS_ASSERT ndebug (!right.rtti_isSequence) "!pSeq->right->rtti_isSequence()" with
    | Except.error f => Except.error f
    | Except.ok _ => sequenceToList.loop ndebug left (argList ++ [right])
  | Expression.other tag, argList => Except.ok (argList, Expression.other tag)

/-- The function `sequenceToList`. -/
def sequenceToList (ndebug : Bool) (arguments : Expression) :
    Except Fault (List Expression) :=
  if arguments.rtti_isSequence then
    match sequenceToList.loop ndebug arguments [] with
    | Except.error f => Except.error f
    | Except.ok r => Except.ok (r.1 ++ [r.2]).reverse
  else Except.ok [arguments]

/-- The class `ExprLooksLikeCall`, as far as `parseFunctionArguments` writes it. -/
structure ExprLooksLikeCall where
  name : String
  arguments : List Expression
deriving DecidableEq, Repr

/-- The function `parseFunctionArguments`. -/
def parseFunctionArguments (ndebug : Bool) (pCall : ExprLooksLikeCall)
    (arguments : Expression) : Except Fault ExprLooksLikeCall :=
  match sequenceToList ndebug arguments with
  | Except.error f => Except.error f
  | Except.ok argList => Except.ok { pCall with arguments := argList }

/-- The number of `ExprSequence` nodes of an expression tree. -/
def Expression.sequenceNodes : Expression → Nat
  | Expression.ExprSequence left right => left.sequenceNodes + right.sequenceNodes + 1
  | Expression.other _ => 0

/-- The class `TypeDecl`, as far as `varDeclToTypeDecl` reads and writes it: the
base type and the vectors `argTypes` and `argNames`. -/
inductive TypeDecl where
  | mk (baseType : Nat) (argTypes : List TypeDecl) (argNames : List String)

/-- The member `baseType`. -/
def TypeDecl.baseType : TypeDecl → Nat
  | TypeDecl.mk b _ _ => b

/-- The member `argTypes`. -/
def TypeDecl.argTypes : TypeDecl → List TypeDecl
  | TypeDecl.mk _ a _ => a

/-- The member `argNames`. -/
def TypeDecl.argNames : TypeDecl → List String
  | TypeDecl.mk _ _ n => n

/-- The call `pType->argTypes.push_back(pVarType)`. -/
def TypeDecl.pushArgType : TypeDecl → TypeDecl → TypeDecl
  | TypeDecl.mk b a n, pVarType => TypeDecl.mk b (a ++ [pVarType]) n

/-- The call `pType->argNames.push_back(name)`. -/
def TypeDecl.pushArgName : TypeDecl → String → TypeDecl
  | TypeDecl.mk b a n, name => TypeDecl.mk b a (n ++ [name])

/-- The record `VariableDeclaration`, as far as `varDeclToTypeDecl` reads it; a
null pointer is `none`. -/
structure VariableDeclaration where
  pNameList : Option (List (String × LineInfo))
  pTypeDecl : Option TypeDecl
  pInit : Option Expression

/-- The local `count` of `varDeclToTypeDecl`: the size of the name list, or 1
when there is none. -/
def varDeclToTypeDecl.count (pDecl : VariableDeclaration) : Nat :=
  match pDecl.pNameList with
  | some names => names.length
  | none => 1

/-- One round of the loop `for ( int ai=0; ai!=count; ++ai )` for a declaration
with the type `typeDecl`.  The state is `*pType`, the program behind `g_Program`
and `anyNames`.  With an initialiser the report names the position
`(*pDecl->pNameList)[ai].second`; `none` stands for that read through a null
`pNameList`. -/
def varDeclToTypeDecl.addArgument (needNames : Bool) (pDecl : VariableDeclaration)
    (typeDecl : TypeDecl) (ai : Nat) (st : TypeDecl × Program × Bool) :
    Option (TypeDecl × Program × Bool) :=
  let reported : Option Program :=
    if pDecl.pInit.isSome then
      match pDecl.pNameList with
      | none => none
      | some names =>
        some (das_yyerror "can't have default values in type declaration"
          (names.getD ai ("", LineInfo.mk 0 0 0 0)).2 CompilationError.cant_initialize st.2.1)
    else some st.2.1
  match reported with
  | none => none
  | some prog =>
    let named : Bool :=
      needNames &&
        (match pDecl.pNameList with
          | some names => (names.getD ai ("", LineInfo.mk 0 0 0 0)).1 != ""
          | none => false)
    some (st.1.pushArgType typeDecl, prog, if named then true else st.2.2)

/-- The whole loop over `ai`, the indices given as a list. -/
def varDeclToTypeDecl.arguments (needNames : Bool) (pDecl : VariableDeclaration)
    (typeDecl : TypeDecl) :
    List Nat → TypeDecl × Program × Bool → Option (TypeDecl × Program × Bool)
  | [], st => some st
  | ai :: rest, st =>
    match varDeclToTypeDecl.addArgument needNames pDecl typeDecl ai st with
    | none => none
    | some st1 => varDeclToTypeDecl.arguments needNames pDecl typeDecl rest st1

/-- The first loop over the declarations. -/
def varDeclToTypeDecl.types (needNames : Bool) :
    List VariableDeclaration → TypeDecl × Program × Bool →
      Option (TypeDecl × Program × Bool)
  | [], st => some st
  | pDecl :: rest, st =>
    match pDecl.pTypeDecl with
    | none => varDeclToTypeDecl.types needNames rest st
    | some typeDecl =>
      match varDeclToTypeDecl.arguments needNames pDecl typeDecl
          (List.range (varDeclToTypeDecl.count pDecl)) st with
      | none => none
      | some st1 => varDeclToTypeDecl.types needNames rest st1

/-- The second loop over the declarations, run when `anyNames` is set. -/
def varDeclToTypeDecl.names : List VariableDeclaration → TypeDecl → TypeDecl
  | [], pType => pType
  | pDecl :: rest, pType =>
    match pDecl.pTypeDecl with
    | none => varDeclToTypeDecl.names rest pType
    | some _ =>
      match pDecl.pNameList with
      | some names =>
        varDeclToTypeDecl.names rest
          (names.foldl (fun t name => t.pushArgName name.1) pType)
      | none => varDeclToTypeDecl.names rest (pType.pushArgName "")

/-- The function `varDeclToTypeDecl`; the result is `*pType` and the program
behind `g_Program` afterwards. -/
def varDeclToTypeDecl (pType : TypeDecl) (list : List VariableDeclaration)
    (needNames : Bool) (g_Program : Program) : Option (TypeDecl × Program) :=
  match varDeclToTypeDecl.types needNames list (pType, g_Program, false) with
  | none => none
  | some st =>
    some (if st.2.2 then varDeclToTypeDecl.names list st.1 else st.1, st.2.1)

/-- The argument types the declarations stand for: for every declaration with a
type, in order, one copy of the type for each declared name, and one copy when
there is no name list. -/
def declaredTypes : List VariableDeclaration → List TypeDecl
  | [] => []
  | pDecl :: rest =>
    match pDecl.pTypeDecl with
    | none => declaredTypes rest
    | some typeDecl =>
      List.replicate (varDeclToTypeDecl.count pDecl) typeDecl ++ declaredTypes rest

/-- Some declaration with a type carries a non-empty name. -/
def carriesName (list : List VariableDeclaration) : Prop :=
  ∃ pDecl ∈ list, pDecl.pTypeDecl.isSome = true ∧
    ∃ names, pDecl.pNameList = some names ∧ ∃ name ∈ names, name.1 ≠ ""

/-- The declarations `a, b : int`, an unnamed `float`, and `c` with no type. -/
def sampleDeclarations : List VariableDeclaration :=
  [ { pNameList := some [("a", LineInfo.mk 1 1 1 1), ("b", LineInfo.mk 4 1 4 1)]
      pTypeDecl := some (TypeDecl.mk 7 [] [])
      pInit := none },
    { pNameList := none
      pTypeDecl := some (TypeDecl.mk 9 [] [])
      pInit := none },
    { pNameList := some [("c", LineInfo.mk 1 2 1 2)]
      pTypeDecl := none
      pInit := none } ]

/-- A machine whose local at frame offset 32 holds the pointer 4096, with the
`int32_t` 42 at address 4096. -/
def refLocalMachine : Machine :=
  { context := sampleContext
    memory := fun p => if p = 8405025 then 16 else if p = 4096 then 42 else 0 }

/-- The closes in the words of the spec: each of the iterators in the slots `ts`,
in that order, receives one call of `close`, on the machine the call before it
left and on its own entry of `ph`, which the call may write. -/
def closedOnce (sources : Nat → Iterator) (ts : List Nat)
    (s : Machine × (Nat → IteratorContext)) : Machine × (Nat → IteratorContext) :=
  ts.foldl
    (fun s t =>
      (((sources t).close s.1 (s.2 t)).1,
        Function.update s.2 t ((sources t).close s.1 (s.2 t)).2))
    s

/-- The machine after one is added to the byte at `p`. -/
def Machine.bump (m : Machine) (p : Ptr) : Machine :=
  { m with memory := fun q => if q = p then m.memory q + 1 else m.memory q }

/-- An iterator over the list `xs` that counts the calls it receives in memory:
`first` adds one to the byte at `counter`, `next` to the byte at `counter + 1` and
`close` to the byte at `counter + 2`. -/
def countingIterator (xs : List Cell) (counter : Ptr) : Iterator :=
  { first := fun m itc =>
      (((listIterator xs).first m itc).1, m.bump counter,
        ((listIterator xs).first m itc).2.2)
    next := fun m itc =>
      (((listIterator xs).next m itc).1, m.bump (counter + 1),
        ((listIterator xs).next m itc).2.2)
    close := fun m itc => (m.bump (counter + 2), itc) }

/-- The counting iterators of the scenario: the cell 1 points to the iterator over
A with its counters at 9016, the cell 2 to the one over B with its counters at
9032. -/
def countingIteratorAt (c : Cell) : Iterator :=
  countingIterator (lockstepSeqs (c - 1)) (9000 + 16 * ((c : Nat) : Int))

/-- The counters of the two counting iterators in a memory: calls of `first`,
`next` and `close` on the iterator over A, then on the one over B. -/
def iteratorCounters (m : Machine) : List Nat :=
  [m.memory 9016, m.memory 9017, m.memory 9018, m.memory 9032, m.memory 9033,
    m.memory 9034]

/-! ## Bit lemmas for the stop flags -/

theorem or_two_pow_and_self (x k : Nat) : (x ||| 2 ^ k) &&& 2 ^ k = 2 ^ k := by
  apply Nat.eq_of_testBit_eq
  intro i
  simp only [Nat.testBit_and, Nat.testBit_or, Nat.testBit_two_pow]
  by_cases h : k = i <;> simp [h]

theorem or_two_pow_and_other (x j k : Nat) (h : j ≠ k) :
    (x ||| 2 ^ j) &&& 2 ^ k = x &&& 2 ^ k := by
  apply Nat.eq_of_testBit_eq
  intro i
  simp only [Nat.testBit_and, Nat.testBit_or, Nat.testBit_two_pow]
  by_cases hk : k = i
  · subst hk; simp [h]
  · simp [hk]

theorem stopForBreak_eq : EvalFlags.stopForBreak = 2 ^ 0 := rfl

theorem stopForReturn_eq : EvalFlags.stopForReturn = 2 ^ 1 := rfl

theorem stopForThrow_eq : EvalFlags.stopForThrow = 2 ^ 2 := rfl

theorem stopForTerminate_eq : EvalFlags.stopForTerminate = 2 ^ 3 := rfl

theorem or_throw_and_throw (x : Nat) :
    (x ||| EvalFlags.stopForThrow) &&& EvalFlags.stopForThrow = EvalFlags.stopForThrow := by
  rw [stopForThrow_eq]; exact or_two_pow_and_self x 2

theorem or_throw_and_throw_ne_zero (x : Nat) :
    (x ||| EvalFlags.stopForThrow) &&& EvalFlags.stopForThrow ≠ 0 := by
  rw [or_throw_and_throw]; decide

theorem getException_throw_error (c : Context) (message : CStr) :
    (c.throw_error message).getException = message := by
  simp [Context.getException, Context.throw_error, or_throw_and_throw_ne_zero]

theorem and_clear_break_and_throw (x : Nat) :
    (x &&& (2 ^ 32 - 1 - EvalFlags.stopForBreak)) &&& EvalFlags.stopForThrow
      = x &&& EvalFlags.stopForThrow := by
  rw [Nat.and_assoc]
  have h : (2 ^ 32 - 1 - EvalFlags.stopForBreak) &&& EvalFlags.stopForThrow
      = EvalFlags.stopForThrow := by decide
  rw [h]

theorem nodeWrite_exception_of_throw (w : NodeWrite) (c : Context)
    (h : c.stopFlags &&& EvalFlags.stopForThrow ≠ 0 → c.exception ≠ none) :
    (w.apply c).stopFlags &&& EvalFlags.stopForThrow ≠ 0 → (w.apply c).exception ≠ none := by
  cases w
  · intro _; simp [NodeWrite.apply, Context.throw_error]
  · intro _; simp [NodeWrite.apply, Context.throw_error]
  · intro hf
    have e : (c.stopFlags ||| EvalFlags.stopForReturn) &&& EvalFlags.stopForThrow
        = c.stopFlags &&& EvalFlags.stopForThrow :=
      or_two_pow_and_other c.stopFlags 1 2 (by decide)
    exact h (by simpa [NodeWrite.apply, e] using hf)
  · intro hf
    have e : (c.stopFlags ||| EvalFlags.stopForBreak) &&& EvalFlags.stopForThrow
        = c.stopFlags &&& EvalFlags.stopForThrow :=
      or_two_pow_and_other c.stopFlags 0 2 (by decide)
    exact h (by simpa [NodeWrite.apply, e] using hf)
  · intro hf
    have e := and_clear_break_and_throw c.stopFlags
    have hf2 : (c.stopFlags &&& (2 ^ 32 - 1 - EvalFlags.stopForBreak))
        &&& EvalFlags.stopForThrow ≠ 0 := hf
    rw [e] at hf2
    exact h hf2

theorem reachable_exception_of_throw (c : Context)
    (h : Reachable (fun message => message ≠ none) c) :
    c.stopFlags &&& EvalFlags.stopForThrow ≠ 0 → c.exception ≠ none := by
  induction h with
  | fresh c hc =>
      intro hf
      rw [hc.2] at hf
      exact absurd (Nat.zero_and EvalFlags.stopForThrow) hf
  | throw_error c message _ hm _ => intro _; exact hm
  | restart c _ _ => intro hf; exact absurd (Nat.zero_and EvalFlags.stopForThrow) hf
  | node c w _ ih => exact nodeWrite_exception_of_throw w c ih
  | other c d _ hflags hex ih =>
      intro hf
      rw [hflags] at hf
      rw [hex]
      exact ih hf

theorem SimNode_At.compute_of_ge (value index : SimNode) (stride range : Nat) (m : Machine)
    (hv : (value.evalPtr m).2.context.stopFlags = 0)
    (hi : (index.eval (value.evalPtr m).2).2.context.stopFlags = 0)
    (hge : SimNode_At.idx value index m ≥ range) :
    SimNode_At.compute value index stride range m =
      (nullptr,
        { (index.eval (value.evalPtr m).2).2 with
          context := (index.eval (value.evalPtr m).2).2.context.throw_error
            (some "index out of range") }) := by
  unfold SimNode_At.idx at hge
  simp [SimNode_At.compute, hv, hi, hge]

theorem SimNode_At.compute_of_lt (value index : SimNode) (stride range : Nat) (m : Machine)
    (hv : (value.evalPtr m).2.context.stopFlags = 0)
    (hi : (index.eval (value.evalPtr m).2).2.context.stopFlags = 0)
    (hlt : SimNode_At.idx value index m < range) :
    SimNode_At.compute value index stride range m =
      ((value.evalPtr m).1 + ((SimNode_At.idx value index m * stride % 2 ^ 32 : Nat) : Int),
        (index.eval (value.evalPtr m).2).2) := by
  unfold SimNode_At.idx at hlt ⊢
  have hnot : ¬ (range ≤ cast_uint32_t_to (index.eval (value.evalPtr m).2).1) := by omega
  simp [SimNode_At.compute, hv, hi, hnot]

theorem SimNode_At.rejected_iff (value index : SimNode) (stride range : Nat) (m : Machine)
    (hv : (value.evalPtr m).2.context.stopFlags = 0)
    (hi : (index.eval (value.evalPtr m).2).2.context.stopFlags = 0) :
    SimNode_At.rejected (SimNode_At.compute value index stride range m) ↔
      SimNode_At.idx value index m ≥ range := by
  constructor
  · intro hr
    by_contra hlt
    rw [SimNode_At.compute_of_lt value index stride range m hv hi (by omega)] at hr
    obtain ⟨_, hflag, _⟩ := hr
    apply hflag
    show (index.eval (value.evalPtr m).2).2.context.stopFlags &&& EvalFlags.stopForThrow = 0
    rw [hi]; exact Nat.zero_and _
  · intro hge
    rw [SimNode_At.compute_of_ge value index stride range m hv hi hge]
    exact ⟨rfl, or_throw_and_throw_ne_zero _, getException_throw_error _ _⟩

theorem cast_uint32_t_to_of_negative (x : Nat) (h : cast_int32_t_to x < 0) :
    2 ^ 31 ≤ cast_uint32_t_to x := by
  unfold cast_uint32_t_to
  by_cases hlt : x % 2 ^ 32 < 2 ^ 31
  · have hpos : cast_int32_t_to x = ((x % 2 ^ 32 : Nat) : Int) := if_pos hlt
    omega
  · omega

theorem cast_uint32_t_to_of_nonneg (x : Nat) (h : 0 ≤ cast_int32_t_to x) :
    (cast_uint32_t_to x : Int) = cast_int32_t_to x := by
  unfold cast_uint32_t_to
  by_cases hlt : x % 2 ^ 32 < 2 ^ 31
  · have hpos : cast_int32_t_to x = ((x % 2 ^ 32 : Nat) : Int) := if_pos hlt
    omega
  · have hneg : cast_int32_t_to x = ((x % 2 ^ 32 : Nat) : Int) - 2 ^ 32 := if_neg hlt
    omega

theorem SimNode_NullCoalescing.evalTyped_of_ptr {α : Type} (zero : α)
    (load : Machine → Ptr → α) (evalT : SimNode → Machine → α × Machine)
    (subexpr value : SimNode) (m : Machine)
    (h0 : (subexpr.evalPtr m).2.context.stopFlags = 0)
    (hp : (subexpr.evalPtr m).1 ≠ nullptr) :
    SimNode_NullCoalescing.evalTyped zero load evalT subexpr value m
      = (load (subexpr.evalPtr m).2 (subexpr.evalPtr m).1, (subexpr.evalPtr m).2) := by
  simp [SimNode_NullCoalescing.evalTyped, h0, hp]

theorem SimNode_NullCoalescing.evalTyped_of_null {α : Type} (zero : α)
    (load : Machine → Ptr → α) (evalT : SimNode → Machine → α × Machine)
    (subexpr value : SimNode) (m : Machine)
    (h0 : (subexpr.evalPtr m).2.context.stopFlags = 0)
    (hp : (subexpr.evalPtr m).1 = nullptr) :
    SimNode_NullCoalescing.evalTyped zero load evalT subexpr value m
      = evalT value (subexpr.evalPtr m).2 := by
  simp [SimNode_NullCoalescing.evalTyped, h0, hp]

/-! ## `restart` and `simEnd` -/

/-- C1: after `restart()` the bump pointer `top` equals `execBase`, `stackTop`
equals `stack + stackSize`, `stopFlags` is 0 and `invokeStackTop` is null, from
every context state. -/
theorem restart_resets (c : Context) :
    c.restart.linearAllocator = c.linearAllocatorExecuteBase ∧
    c.restart.linearAllocator = c.restart.linearAllocatorExecuteBase ∧
    c.restart.stackTop = c.stack + c.stackSize ∧
    c.restart.stackTop = c.restart.stack + c.restart.stackSize ∧
    c.restart.stopFlags = 0 ∧
    c.restart.invokeStackTop = nullptr :=
  ⟨rfl, rfl, rfl, rfl, rfl, rfl⟩

/-- C2: `restart()` is idempotent: a second `restart()` leaves the whole context
(every field) as the first one left it. -/
theorem restart_idempotent (c : Context) : c.restart.restart = c.restart := rfl

/-- C3: `restart()` discards run-time allocations and keeps the program: when
`simEnd()` was called with `top = p`, then whatever `top`, `stackTop` and
`stopFlags` have become since, `restart()` sets `top` back to `p`; and
`restart()` leaves `execBase`, the region base, both tables and their counts as
they were. -/
theorem restart_after_simEnd (c : Context) (top stackTop : Ptr) (flags : Nat) :
    ({ c.simEnd with
        linearAllocator := top, stackTop := stackTop, stopFlags := flags }
      : Context).restart.linearAllocator = c.linearAllocator ∧
    c.restart.linearAllocatorExecuteBase = c.linearAllocatorExecuteBase ∧
    c.restart.linearAllocatorBase = c.linearAllocatorBase ∧
    c.restart.globalVariables = c.globalVariables ∧
    c.restart.functions = c.functions ∧
    c.restart.totalVariables = c.totalVariables ∧
    c.restart.totalFunctions = c.totalFunctions :=
  ⟨rfl, rfl, rfl, rfl, rfl, rfl, rfl⟩

/-! ## `throw_error` and `getException` -/

/-- C4: after `throw_error(m)` the throw stop flag is set and `getException()`
returns `m`; a later `throw_error` replaces the earlier message. -/
theorem throw_error_records (c : Context) (m m2 : CStr) :
    (c.throw_error m).stopFlags &&& EvalFlags.stopForThrow ≠ 0 ∧
    (c.throw_error m).getException = m ∧
    ((c.throw_error m).throw_error m2).getException = m2 ∧
    ((c.throw_error m).throw_error m2).stopFlags &&& EvalFlags.stopForThrow ≠ 0 :=
  ⟨or_throw_and_throw_ne_zero _, getException_throw_error _ _,
    getException_throw_error _ _, or_throw_and_throw_ne_zero _⟩

/-- C5: `throw_error` does no unwinding: the context after the call is the one
before it with only `exception` and `stopFlags` replaced, so `stackTop`,
`invokeStackTop`, the region pointers and the tables are untouched; and in
`stopFlags` the break, return and terminate bits are the ones from before. -/
theorem throw_error_frame (c : Context) (m : CStr) :
    c.throw_error m =
      { c with exception := m, stopFlags := (c.throw_error m).stopFlags } ∧
    (c.throw_error m).stackTop = c.stackTop ∧
    (c.throw_error m).invokeStackTop = c.invokeStackTop ∧
    (c.throw_error m).linearAllocatorBase = c.linearAllocatorBase ∧
    (c.throw_error m).linearAllocatorExecuteBase = c.linearAllocatorExecuteBase ∧
    (c.throw_error m).linearAllocator = c.linearAllocator ∧
    (c.throw_error m).globalVariables = c.globalVariables ∧
    (c.throw_error m).functions = c.functions ∧
    (c.throw_error m).totalVariables = c.totalVariables ∧
    (c.throw_error m).totalFunctions = c.totalFunctions ∧
    (c.throw_error m).stopFlags &&& EvalFlags.stopForBreak
      = c.stopFlags &&& EvalFlags.stopForBreak ∧
    (c.throw_error m).stopFlags &&& EvalFlags.stopForReturn
      = c.stopFlags &&& EvalFlags.stopForReturn ∧
    (c.throw_error m).stopFlags &&& EvalFlags.stopForTerminate
      = c.stopFlags &&& EvalFlags.stopForTerminate := by
  refine ⟨rfl, rfl, rfl, rfl, rfl, rfl, rfl, rfl, rfl, rfl, ?_, ?_, ?_⟩
  · exact or_two_pow_and_other c.stopFlags 2 0 (by decide)
  · exact or_two_pow_and_other c.stopFlags 2 1 (by decide)
  · exact or_two_pow_and_other c.stopFlags 2 3 (by decide)

/-- C6: `getException()` returns null whenever the throw flag is clear, whatever
the other flags and the stored message are, and the stored `exception` pointer
when the throw flag is set; after `restart()` it returns null although the old
message is still stored.  Being a `const` member it is a function of the context
and cannot change it. -/
theorem getException_reads (c : Context) :
    (c.stopFlags &&& EvalFlags.stopForThrow = 0 → c.getException = none) ∧
    (c.stopFlags &&& EvalFlags.stopForThrow ≠ 0 → c.getException = c.exception) ∧
    c.restart.getException = none ∧
    c.restart.exception = c.exception := by
  refine ⟨?_, ?_, ?_, rfl⟩
  · intro h; simp [Context.getException, h]
  · intro h; simp [Context.getException, h]
  · simp [Context.getException, Context.restart]

/-- Witness for C6: a context with break, return and terminate set and a stale
message answers null; one with the throw flag also set answers its message. -/
theorem getException_reads_witness :
    (staleContext.stopFlags &&& EvalFlags.stopForThrow = 0 ∧
      staleContext.exception = some "stale" ∧ staleContext.getException = none) ∧
    (thrownContext.stopFlags &&& EvalFlags.stopForThrow ≠ 0 ∧
      thrownContext.getException = some "boom") :=
  ⟨⟨by decide, rfl, (getException_reads staleContext).1 (by decide)⟩,
    ⟨by decide, (getException_reads thrownContext).2.1 (by decide)⟩⟩

/-- C7, as stated, fails: `throw_error` with a null message on a fresh context
gives a reachable state whose throw flag is set while `getException()` returns
null. -/
theorem flag_hygiene_null_message :
    Reachable (fun _ => True) (freshContext.throw_error none) ∧
    (freshContext.throw_error none).stopFlags &&& EvalFlags.stopForThrow ≠ 0 ∧
    (freshContext.throw_error none).getException = none :=
  ⟨Reachable.throw_error _ none (Reachable.fresh freshContext (by decide)) trivial,
    by decide, by decide⟩

/-- C7, amended: in every context reachable from a fresh one by `throw_error`
with a non-null message, by `restart` and by the evaluation of the nodes of
`simulate.h` (their writes to the stop flags and the exception, and any step that
writes neither), the throw flag is zero if and only if `getException()` returns
null. -/
theorem flag_hygiene (c : Context) (h : Reachable (fun message => message ≠ none) c) :
    c.stopFlags &&& EvalFlags.stopForThrow = 0 ↔ c.getException = none := by
  constructor
  · intro h0; simp [Context.getException, h0]
  · intro hg
    by_contra hf
    have hex := reachable_exception_of_throw c h hf
    simp [Context.getException, hf] at hg
    exact hex hg

/-- Witness for C7: a fresh context that threw "boom", was restarted, threw
"again" and then ran a `return` is reachable, and there the throw flag is set and
`getException()` is not null. -/
theorem flag_hygiene_witness :
    Reachable (fun message => message ≠ none)
      (NodeWrite.setReturn.apply
        (((freshContext.throw_error (some "boom")).restart).throw_error (some "again"))) ∧
    ((NodeWrite.setReturn.apply
        (((freshContext.throw_error (some "boom")).restart).throw_error
          (some "again"))).stopFlags &&& EvalFlags.stopForThrow = 0 ↔
      (NodeWrite.setReturn.apply
        (((freshContext.throw_error (some "boom")).restart).throw_error
          (some "again"))).getException = none) ∧
    (NodeWrite.setReturn.apply
        (((freshContext.throw_error (some "boom")).restart).throw_error
          (some "again"))).getException = some "again" :=
  have hr : Reachable (fun message => message ≠ none)
      (NodeWrite.setReturn.apply
        (((freshContext.throw_error (some "boom")).restart).throw_error (some "again"))) :=
    Reachable.node _ _
      (Reachable.throw_error _ _
        (Reachable.restart _
          (Reachable.throw_error _ _ (Reachable.fresh freshContext (by decide)) (by simp)))
        (by simp))
  ⟨hr, flag_hygiene _ hr, by decide⟩

/-! ## The region invariant -/

/-- C8: the region invariant `base ≤ execBase ≤ top` is preserved by `simEnd()`,
by `restart()` and by `throw_error(m)`; and from any state with `base ≤ top`,
`simEnd()` gives `execBase = top` (and with it the invariant). -/
theorem regionInv_preserved (c : Context) (m : CStr) :
    (c.regionInv → c.simEnd.regionInv ∧ c.restart.regionInv ∧ (c.throw_error m).regionInv) ∧
    (c.linearAllocatorBase ≤ c.linearAllocator →
      c.simEnd.linearAllocatorExecuteBase = c.simEnd.linearAllocator ∧ c.simEnd.regionInv) := by
  constructor
  · intro h
    obtain ⟨h1, h2⟩ := h
    refine ⟨⟨?_, ?_⟩, ⟨?_, ?_⟩, ⟨?_, ?_⟩⟩
    · exact le_trans h1 h2
    · exact le_refl _
    · exact h1
    · exact le_refl _
    · exact h1
    · exact h2
  · intro h
    exact ⟨rfl, h, le_refl _⟩

/-- Witness for C8: a context in setup, with `base = execBase < top`, has the
invariant and keeps it through the three operations. -/
theorem regionInv_preserved_witness :
    setupContext.regionInv ∧
    setupContext.linearAllocatorBase ≤ setupContext.linearAllocator ∧
    (setupContext.simEnd.regionInv ∧ setupContext.restart.regionInv ∧
      (setupContext.throw_error (some "boom")).regionInv) ∧
    setupContext.simEnd.linearAllocatorExecuteBase = setupContext.simEnd.linearAllocator :=
  ⟨by decide, by decide,
    (regionInv_preserved setupContext (some "boom")).1 (by decide),
    ((regionInv_preserved setupContext (some "boom")).2 (by decide)).1⟩

/-! ## `getVariable` -/

/-- C9, as stated, fails in a build without assertions: the sample context has two
globals, and with the `assert` compiled out the indices 2 and -1 fail no
assertion; `getVariable` goes on to read `globalVariables[index]`, outside the
table. -/
theorem getVariable_unchecked_without_assert :
    sampleContext.totalVariables = 2 ∧
    sampleContext.globalVariables.length = 2 ∧
    sampleContext.getVariable true 2 = Except.error Fault.outOfBounds ∧
    sampleContext.getVariable true (-1) = Except.error Fault.outOfBounds ∧
    sampleContext.getVariable true 2
      ≠ Except.error (Fault.assertion "variable index out of range") ∧
    sampleContext.getVariable true (-1)
      ≠ Except.error (Fault.assertion "variable index out of range") := by
  refine ⟨rfl, rfl, rfl, rfl, ?_, ?_⟩
  · intro h
    have h2 : (Except.error Fault.outOfBounds : Except Fault Cell)
        = Except.error (Fault.assertion "variable index out of range") := h
    injection h2 with h3
    cases h3
  · intro h
    have h2 : (Except.error Fault.outOfBounds : Except Fault Cell)
        = Except.error (Fault.assertion "variable index out of range") := h
    injection h2 with h3
    cases h3

/-- C9, amended: the bounds test of `getVariable` is an `assert`.  In a context
whose table holds `totalVariables` descriptors, every index `i` with
`0 ≤ i < totalVariables` returns the value cell of the `i`-th descriptor, in both
builds.  With assertions compiled in, every other index (negative or
`≥ totalVariables`) fails the assertion whatever the table holds, so no descriptor
is read.  With assertions compiled out there is no test: the result is the value
of `globalVariables[i]` for every index the table holds, also one
`≥ totalVariables`, and a read outside the table for every other index; no index
fails an assertion.  Being a `const` member, `getVariable` is a function of the
context and cannot change it. -/
theorem getVariable_bounds_checked (c : Context)
    (h : c.totalVariables ≤ c.globalVariables.length) :
    (∀ (ndebug : Bool) (i : Int), 0 ≤ i → i < c.totalVariables →
      ∃ g, c.globalVariables[i.toNat]? = some g ∧
        c.getVariable ndebug i = Except.ok g.value) ∧
    (∀ i : Int, i < 0 ∨ c.totalVariables ≤ i → ∀ table : List GlobalVariable,
      ({ c with globalVariables := table } : Context).getVariable false i
        = Except.error (Fault.assertion "variable index out of range")) ∧
    (∀ (i : Int) (g : GlobalVariable), 0 ≤ i → c.globalVariables[i.toNat]? = some g →
      c.getVariable true i = Except.ok g.value) ∧
    (∀ i : Int, i < 0 ∨ (c.globalVariables.length : Int) ≤ i →
      c.getVariable true i = Except.error Fault.outOfBounds) := by
  refine ⟨?_, ?_, ?_, ?_⟩
  · intro ndebug i h0 hlt
    have hlen : i.toNat < c.globalVariables.length := by omega
    refine ⟨c.globalVariables[i.toNat], List.getElem?_eq_getElem hlen, ?_⟩
    have hcond : i ≥ 0 ∧ i < c.totalVariables := ⟨h0, hlt⟩
    have hge : i ≥ 0 := h0
    simp [Context.getVariable, hcond, hge, List.getElem?_eq_getElem hlen]
  · intro i hi table
    have hcond : ¬ (i ≥ 0 ∧ i < c.totalVariables) := by omega
    unfold Context.getVariable
    rw [if_pos ⟨rfl, hcond⟩]
  · intro i g h0 hg
    have hge : i ≥ 0 := h0
    unfold Context.getVariable
    rw [if_neg (by simp), if_pos hge, hg]
  · intro i hi
    unfold Context.getVariable
    rw [if_neg (by simp)]
    by_cases hge : i ≥ 0
    · rw [if_pos hge]
      have hnone : c.globalVariables[i.toNat]? = none := by
        apply List.getElem?_eq_none
        omega
      rw [hnone]
    · rw [if_neg hge]

/-- Witness for C9: the sample context has two globals; index 1 reads the cell 7
of the second one in both builds, the indices -1 and 2 fail the assertion when it
is compiled in, and without it index 2 is a read past the table. -/
theorem getVariable_bounds_checked_witness :
    sampleContext.totalVariables ≤ sampleContext.globalVariables.length ∧
    (∃ g, sampleContext.globalVariables[(1 : Int).toNat]? = some g ∧
      sampleContext.getVariable false 1 = Except.ok g.value) ∧
    sampleContext.getVariable false 1 = Except.ok 7 ∧
    sampleContext.getVariable true 1 = Except.ok 7 ∧
    sampleContext.getVariable false (-1)
      = Except.error (Fault.assertion "variable index out of range") ∧
    sampleContext.getVariable false 2
      = Except.error (Fault.assertion "variable index out of range") ∧
    sampleContext.getVariable true 2 = Except.error Fault.outOfBounds :=
  ⟨by decide,
    (getVariable_bounds_checked sampleContext (by decide)).1 false 1 (by decide) (by decide),
    rfl, rfl,
    (getVariable_bounds_checked sampleContext (by decide)).2.1 (-1) (by decide)
      sampleContext.globalVariables,
    (getVariable_bounds_checked sampleContext (by decide)).2.1 2 (by decide)
      sampleContext.globalVariables,
    (getVariable_bounds_checked sampleContext (by decide)).2.2.2 2 (by decide)⟩

/-! ## The index node -/

/-- C10, as stated, fails in its last part: with range 4294967295 the negative
signed index -2 reads as 4294967294, which is below the range, so `SimNode_At`
does not reject it: it returns the address `4096 + 4294967294 * 1` and sets no
flag. -/
theorem at_negative_index_accepted :
    cast_int32_t_to (cast_int32_t_from (-2)) = -2 ∧
    (SimNode_At.compute (SimNode_ConstValue (cast_ptr_from 4096))
        (SimNode_ConstValue (cast_int32_t_from (-2))) 1 4294967295 sampleMachine).1
      = 4096 + 4294967294 ∧
    (SimNode_At.compute (SimNode_ConstValue (cast_ptr_from 4096))
        (SimNode_ConstValue (cast_int32_t_from (-2))) 1 4294967295
        sampleMachine).2.context.stopFlags = 0 ∧
    ¬ SimNode_At.rejected
      (SimNode_At.compute (SimNode_ConstValue (cast_ptr_from 4096))
        (SimNode_ConstValue (cast_int32_t_from (-2))) 1 4294967295 sampleMachine) := by
  refine ⟨by decide, by decide, by decide, ?_⟩
  intro h
  exact h.2.1 (by decide)

/-- C10, amended: when neither child raises a stop flag, `SimNode_At` sets the
throw flag with message "index out of range" and returns null if and only if the
index, read as an unsigned 32-bit integer, is `≥ range`; in particular `i = range`
is rejected, and every negative signed index is rejected when `range ≤ 2^31`. -/
theorem at_bounds_check (value index : SimNode) (stride range : Nat) (m : Machine)
    (hv : (value.evalPtr m).2.context.stopFlags = 0)
    (hi : (index.eval (value.evalPtr m).2).2.context.stopFlags = 0) :
    (SimNode_At.rejected (SimNode_At.compute value index stride range m) ↔
      SimNode_At.idx value index m ≥ range) ∧
    (SimNode_At.idx value index m = range →
      SimNode_At.rejected (SimNode_At.compute value index stride range m)) ∧
    (range ≤ 2 ^ 31 → cast_int32_t_to (index.eval (value.evalPtr m).2).1 < 0 →
      SimNode_At.rejected (SimNode_At.compute value index stride range m)) := by
  have hiff := SimNode_At.rejected_iff value index stride range m hv hi
  refine ⟨hiff, ?_, ?_⟩
  · intro he
    exact hiff.2 (by omega)
  · intro hr hneg
    have h31 := cast_uint32_t_to_of_negative _ hneg
    exact hiff.2 (by unfold SimNode_At.idx; omega)

/-- Witness for C10: an array of range 3 and stride 4 at address 4096, indexed
with `i = 3`: no child raises a flag and the index is rejected. -/
theorem at_bounds_check_witness :
    ((SimNode_ConstValue (cast_ptr_from 4096)).evalPtr sampleMachine).2.context.stopFlags = 0 ∧
    ((SimNode_ConstValue (cast_int32_t_from 3)).eval
      ((SimNode_ConstValue (cast_ptr_from 4096)).evalPtr sampleMachine).2).2.context.stopFlags
        = 0 ∧
    SimNode_At.idx (SimNode_ConstValue (cast_ptr_from 4096))
      (SimNode_ConstValue (cast_int32_t_from 3)) sampleMachine = 3 ∧
    SimNode_At.rejected
      (SimNode_At.compute (SimNode_ConstValue (cast_ptr_from 4096))
        (SimNode_ConstValue (cast_int32_t_from 3)) 4 3 sampleMachine) :=
  ⟨rfl, rfl, by decide,
    (at_bounds_check (SimNode_ConstValue (cast_ptr_from 4096))
      (SimNode_ConstValue (cast_int32_t_from 3)) 4 3 sampleMachine rfl rfl).2.1 (by decide)⟩

/-- C11, as stated, fails: with stride 2147483648 and range 3 the index 2 is in
range, but the `uint32_t` product `2 * 2147483648` wraps to 0, so `SimNode_At`
returns the base address 4096 and not `4096 + 4294967296`. -/
theorem at_product_wraps :
    SimNode_At.idx (SimNode_ConstValue (cast_ptr_from 4096))
      (SimNode_ConstValue (cast_int32_t_from 2)) sampleMachine = 2 ∧
    (SimNode_At.compute (SimNode_ConstValue (cast_ptr_from 4096))
        (SimNode_ConstValue (cast_int32_t_from 2)) 2147483648 3 sampleMachine).1 = 4096 ∧
    (SimNode_At.compute (SimNode_ConstValue (cast_ptr_from 4096))
        (SimNode_ConstValue (cast_int32_t_from 2)) 2147483648 3 sampleMachine).1
      ≠ 4096 + 2 * 2147483648 := by
  refine ⟨by decide, by decide, by decide⟩

/-- C11, amended: when neither child raises a stop flag and the index `i`, read as
`uint32_t`, is below `range`, `SimNode_At` returns `base + (i*stride mod 2^32)`
and leaves the machine as the index child left it, with no stop flag set; the
address is `base + i*stride` whenever `i*stride < 2^32`, in particular whenever
`range*stride ≤ 2^32`.  A signed index `i ≥ 0` reads as `i`. -/
theorem at_address (value index : SimNode) (stride range : Nat) (m : Machine)
    (hv : (value.evalPtr m).2.context.stopFlags = 0)
    (hi : (index.eval (value.evalPtr m).2).2.context.stopFlags = 0)
    (hlt : SimNode_At.idx value index m < range) :
    SimNode_At.compute value index stride range m =
      ((value.evalPtr m).1 + ((SimNode_At.idx value index m * stride % 2 ^ 32 : Nat) : Int),
        (index.eval (value.evalPtr m).2).2) ∧
    (SimNode_At.compute value index stride range m).2.context.stopFlags = 0 ∧
    (SimNode_At.idx value index m * stride < 2 ^ 32 →
      (SimNode_At.compute value index stride range m).1 =
        (value.evalPtr m).1 + ((SimNode_At.idx value index m * stride : Nat) : Int)) ∧
    (range * stride ≤ 2 ^ 32 →
      (SimNode_At.compute value index stride range m).1 =
        (value.evalPtr m).1 + ((SimNode_At.idx value index m * stride : Nat) : Int)) ∧
    (0 ≤ cast_int32_t_to (index.eval (value.evalPtr m).2).1 →
      (SimNode_At.idx value index m : Int)
        = cast_int32_t_to (index.eval (value.evalPtr m).2).1) := by
  have hc := SimNode_At.compute_of_lt value index stride range m hv hi hlt
  have hexact : SimNode_At.idx value index m * stride < 2 ^ 32 →
      (SimNode_At.compute value index stride range m).1 =
        (value.evalPtr m).1 + ((SimNode_At.idx value index m * stride : Nat) : Int) := by
    intro hsmall
    rw [hc, Nat.mod_eq_of_lt hsmall]
  refine ⟨hc, ?_, hexact, ?_, ?_⟩
  · rw [hc]; exact hi
  · intro hrs
    apply hexact
    have h1 : (SimNode_At.idx value index m + 1) * stride ≤ range * stride :=
      Nat.mul_le_mul_right stride hlt
    rcases Nat.eq_zero_or_pos stride with hs | hs
    · rw [hs]; simp
    · have h2 : (SimNode_At.idx value index m + 1) * stride
          = SimNode_At.idx value index m * stride + stride := Nat.succ_mul _ _
      omega
  · intro hnn
    exact cast_uint32_t_to_of_nonneg _ hnn

/-- Witness for C11: an array of range 3 and stride 4 at address 4096, indexed
with `i = 2`: the address is `4096 + 8`. -/
theorem at_address_witness :
    SimNode_At.idx (SimNode_ConstValue (cast_ptr_from 4096))
      (SimNode_ConstValue (cast_int32_t_from 2)) sampleMachine < 3 ∧
    (SimNode_At.compute (SimNode_ConstValue (cast_ptr_from 4096))
        (SimNode_ConstValue (cast_int32_t_from 2)) 4 3 sampleMachine).1
      = ((SimNode_ConstValue (cast_ptr_from 4096)).evalPtr sampleMachine).1
        + ((SimNode_At.idx (SimNode_ConstValue (cast_ptr_from 4096))
            (SimNode_ConstValue (cast_int32_t_from 2)) sampleMachine * 4 : Nat) : Int) ∧
    (SimNode_At.compute (SimNode_ConstValue (cast_ptr_from 4096))
        (SimNode_ConstValue (cast_int32_t_from 2)) 4 3 sampleMachine).1 = 4096 + 8 :=
  ⟨by decide,
    (at_address (SimNode_ConstValue (cast_ptr_from 4096))
      (SimNode_ConstValue (cast_int32_t_from 2)) 4 3 sampleMachine rfl rfl
      (by decide)).2.2.2.1 (by decide),
    by decide⟩

/-! ## Field and pointer nodes -/

/-- C12: when its child sets no stop flag, `SimNode_PtrFieldDeref` returns
`base + offset` and leaves the machine (so no flag set) if the base is non-null,
and on a null base returns null with the throw flag set and the message
"dereferencing null pointer".  `SimNode_PtrFieldDerefR2V` does the same on null,
with a zero cell from `eval` and null from `evalPtr`, whatever memory holds and
whatever the type parameter is; it reads memory, at `base + offset`, only when
the base is non-null. -/
theorem ptrFieldDeref_null_check (T : ValueType) (value : SimNode) (offset : Nat)
    (m : Machine) (h0 : (value.evalPtr m).2.context.stopFlags = 0) :
    ((value.evalPtr m).1 ≠ nullptr →
      SimNode_PtrFieldDeref.compute value offset m
        = ((value.evalPtr m).1 + (offset : Int), (value.evalPtr m).2) ∧
      (SimNode_PtrFieldDeref.compute value offset m).2.context.stopFlags = 0 ∧
      SimNode_PtrFieldDerefR2V.eval T value offset m
        = ((value.evalPtr m).2.loadValue T ((value.evalPtr m).1 + (offset : Int)),
            (value.evalPtr m).2) ∧
      SimNode_PtrFieldDerefR2V.evalPtr value offset m
        = ((value.evalPtr m).2.loadPtr ((value.evalPtr m).1 + (offset : Int)),
            (value.evalPtr m).2)) ∧
    ((value.evalPtr m).1 = nullptr →
      SimNode_PtrFieldDeref.compute value offset m
        = (nullptr, (value.evalPtr m).2.thrown nullPointerMessage) ∧
      SimNode_PtrFieldDerefR2V.eval T value offset m
        = (_mm_setzero_ps, (value.evalPtr m).2.thrown nullPointerMessage) ∧
      SimNode_PtrFieldDerefR2V.evalPtr value offset m
        = (nullptr, (value.evalPtr m).2.thrown nullPointerMessage) ∧
      ((value.evalPtr m).2.thrown nullPointerMessage).context.stopFlags
        &&& EvalFlags.stopForThrow ≠ 0 ∧
      ((value.evalPtr m).2.thrown nullPointerMessage).context.getException
        = some "dereferencing null pointer" ∧
      ((value.evalPtr m).2.thrown nullPointerMessage).memory = (value.evalPtr m).2.memory) := by
  constructor
  · intro hp
    refine ⟨?_, ?_, ?_, ?_⟩
    · simp [SimNode_PtrFieldDeref.compute, h0, hp]
    · simp [SimNode_PtrFieldDeref.compute, h0, hp]
    · simp [SimNode_PtrFieldDerefR2V.eval, h0, hp]
    · simp [SimNode_PtrFieldDerefR2V.evalPtr, h0, hp]
  · intro hp
    refine ⟨?_, ?_, ?_, or_throw_and_throw_ne_zero _, getException_throw_error _ _, rfl⟩
    · simp [SimNode_PtrFieldDeref.compute, h0, hp, Machine.thrown, nullPointerMessage]
    · simp [SimNode_PtrFieldDerefR2V.eval, h0, hp, Machine.thrown, nullPointerMessage]
    · simp [SimNode_PtrFieldDerefR2V.evalPtr, h0, hp, Machine.thrown, nullPointerMessage]

/-- Witness for C12: on the null constant the node throws; on the address 4096
with offset 0 it returns 4096 and the `int32_t` read gives the 42 stored there. -/
theorem ptrFieldDeref_null_check_witness :
    ((SimNode_ConstValue 0).evalPtr valueMachine).2.context.stopFlags = 0 ∧
    ((SimNode_ConstValue 0).evalPtr valueMachine).1 = nullptr ∧
    SimNode_PtrFieldDeref.compute (SimNode_ConstValue 0) 8 valueMachine
      = (nullptr, ((SimNode_ConstValue 0).evalPtr valueMachine).2.thrown nullPointerMessage) ∧
    ((SimNode_ConstValue (cast_ptr_from 4096)).evalPtr valueMachine).1 ≠ nullptr ∧
    (SimNode_PtrFieldDerefR2V.eval int32Type (SimNode_ConstValue (cast_ptr_from 4096)) 0
      valueMachine).1 = 42 :=
  ⟨rfl, by decide,
    ((ptrFieldDeref_null_check int32Type (SimNode_ConstValue 0) 8 valueMachine rfl).2
      (by decide)).1,
    by decide,
    by
      rw [((ptrFieldDeref_null_check int32Type (SimNode_ConstValue (cast_ptr_from 4096)) 0
        valueMachine rfl).1 (by decide)).2.2.1]
      decide⟩

/-- C13, as stated, fails: `SimNode_FieldDeref` on a null base (the null
constant, offset 8) yields the address 8 and sets no throw flag; nothing is
thrown. -/
theorem fieldDeref_null_base_no_throw :
    ((SimNode_ConstValue 0).evalPtr sampleMachine).1 = nullptr ∧
    (SimNode_FieldDeref.compute (SimNode_ConstValue 0) 8 sampleMachine).1 = 8 ∧
    (SimNode_FieldDeref.compute (SimNode_ConstValue 0) 8 sampleMachine).2.context.stopFlags
      &&& EvalFlags.stopForThrow = 0 ∧
    (SimNode_FieldDeref.compute (SimNode_ConstValue 0) 8
      sampleMachine).2.context.getException = none := by
  refine ⟨by decide, by decide, by decide, by decide⟩

/-- C13, amended: the plain field access `SimNode_FieldDeref` does not test its
base: it yields the child's pointer plus the offset and leaves the machine as the
child left it, so it writes neither the stop flags nor the exception; on a null
base it yields the address `offset`. -/
theorem fieldDeref_no_check (value : SimNode) (offset : Nat) (m : Machine) :
    SimNode_FieldDeref.compute value offset m
      = ((value.evalPtr m).1 + (offset : Int), (value.evalPtr m).2) ∧
    (SimNode_FieldDeref.compute value offset m).2.context.stopFlags
      = (value.evalPtr m).2.context.stopFlags ∧
    (SimNode_FieldDeref.compute value offset m).2.context.exception
      = (value.evalPtr m).2.context.exception ∧
    ((SimNode_FieldDeref value offset).evalPtr m).1
      = (if (value.evalPtr m).1 = nullptr then (offset : Int)
          else (value.evalPtr m).1 + (offset : Int)) := by
  refine ⟨rfl, rfl, rfl, ?_⟩
  show (value.evalPtr m).1 + (offset : Int) = _
  split
  · next h => rw [h]; simp
  · rfl

/-- C14, as stated, fails in its last part: a plain field access on a throwing
base hands `SimNode_SafeFieldDeref` the non-null base 4096 with the throw flag
set, and the node yields null, not `4096 + 8`. -/
theorem safeFieldDeref_flag_gives_null :
    sampleMachine.context.stopFlags = 0 ∧
    (strayPointerNode.evalPtr sampleMachine).1 = 4096 ∧
    (strayPointerNode.evalPtr sampleMachine).2.context.stopFlags ≠ 0 ∧
    (SimNode_SafeFieldDeref.compute strayPointerNode 8 sampleMachine).1 = nullptr ∧
    (SimNode_SafeFieldDeref.compute strayPointerNode 8 sampleMachine).1 ≠ 4096 + 8 := by
  refine ⟨by decide, by decide, by decide, by decide, by decide⟩

/-- C14, amended: `SimNode_SafeFieldDeref` yields null when the base is null,
leaving the machine as the child left it (so it neither sets the throw flag nor
changes the exception field), and yields `base + offset` when the base is
non-null and no stop flag is set after the child; with a stop flag set it yields
null. -/
theorem safeFieldDeref_null_safe (value : SimNode) (offset : Nat) (m : Machine) :
    (SimNode_SafeFieldDeref.compute value offset m).2 = (value.evalPtr m).2 ∧
    ((value.evalPtr m).1 = nullptr →
      (SimNode_SafeFieldDeref.compute value offset m).1 = nullptr) ∧
    ((value.evalPtr m).1 ≠ nullptr → (value.evalPtr m).2.context.stopFlags = 0 →
      (SimNode_SafeFieldDeref.compute value offset m).1
        = (value.evalPtr m).1 + (offset : Int)) ∧
    ((value.evalPtr m).2.context.stopFlags ≠ 0 →
      (SimNode_SafeFieldDeref.compute value offset m).1 = nullptr) := by
  refine ⟨?_, ?_, ?_, ?_⟩
  · unfold SimNode_SafeFieldDeref.compute
    by_cases hf : (value.evalPtr m).2.context.stopFlags = 0 <;> simp [hf]
  · intro hp
    unfold SimNode_SafeFieldDeref.compute
    by_cases hf : (value.evalPtr m).2.context.stopFlags = 0 <;> simp [hf, hp]
  · intro hp hf
    simp [SimNode_SafeFieldDeref.compute, hf, hp]
  · intro hf
    simp [SimNode_SafeFieldDeref.compute, hf]

/-- Witness for C14: the null constant gives null with no flag and no exception;
the address 4096 with offset 8 gives 4104. -/
theorem safeFieldDeref_null_safe_witness :
    (((SimNode_ConstValue 0).evalPtr sampleMachine).1 = nullptr ∧
      (SimNode_SafeFieldDeref.compute (SimNode_ConstValue 0) 8 sampleMachine).1 = nullptr ∧
      (SimNode_SafeFieldDeref.compute (SimNode_ConstValue 0) 8
        sampleMachine).2.context.getException = none) ∧
    (((SimNode_ConstValue (cast_ptr_from 4096)).evalPtr sampleMachine).1 ≠ nullptr ∧
      ((SimNode_ConstValue (cast_ptr_from 4096)).evalPtr sampleMachine).2.context.stopFlags
        = 0 ∧
      (SimNode_SafeFieldDeref.compute (SimNode_ConstValue (cast_ptr_from 4096)) 8
        sampleMachine).1
        = ((SimNode_ConstValue (cast_ptr_from 4096)).evalPtr sampleMachine).1 + ((8 : Nat) : Int)) :=
  ⟨⟨by decide,
      (safeFieldDeref_null_safe (SimNode_ConstValue 0) 8 sampleMachine).2.1 (by decide),
      by decide⟩,
    ⟨by decide, rfl,
      (safeFieldDeref_null_safe (SimNode_ConstValue (cast_ptr_from 4096)) 8
        sampleMachine).2.2.1 (by decide) rfl⟩⟩

/-- C15, as stated, fails in its first part: a plain field access on a throwing
base hands `SimNode_Ptr2Ref` the non-null pointer 4096 with the throw flag set,
and the node returns null instead of that pointer. -/
theorem ptr2Ref_flag_gives_null :
    sampleMachine.context.stopFlags = 0 ∧
    (strayPointerNode.evalPtr sampleMachine).1 = 4096 ∧
    (strayPointerNode.evalPtr sampleMachine).2.context.stopFlags ≠ 0 ∧
    (SimNode_Ptr2Ref.compute strayPointerNode sampleMachine).1 = nullptr ∧
    (SimNode_Ptr2Ref.compute strayPointerNode sampleMachine).1
      ≠ (strayPointerNode.evalPtr sampleMachine).1 := by
  refine ⟨by decide, by decide, by decide, by decide, by decide⟩

/-- C15, amended: when the child raised no stop flag, `SimNode_Ptr2Ref` returns
the child's pointer unchanged and leaves the machine (so no flag is set) if that
pointer is non-null, and if it is null returns null with the throw flag set and
the message "dereferencing null pointer". -/
theorem ptr2Ref_null_check (subexpr : SimNode) (m : Machine)
    (h0 : (subexpr.evalPtr m).2.context.stopFlags = 0) :
    ((subexpr.evalPtr m).1 ≠ nullptr →
      SimNode_Ptr2Ref.compute subexpr m = ((subexpr.evalPtr m).1, (subexpr.evalPtr m).2) ∧
      (SimNode_Ptr2Ref.compute subexpr m).2.context.stopFlags = 0) ∧
    ((subexpr.evalPtr m).1 = nullptr →
      SimNode_Ptr2Ref.compute subexpr m
        = (nullptr, (subexpr.evalPtr m).2.thrown nullPointerMessage) ∧
      (SimNode_Ptr2Ref.compute subexpr m).2.context.stopFlags
        &&& EvalFlags.stopForThrow ≠ 0 ∧
      (SimNode_Ptr2Ref.compute subexpr m).2.context.getException
        = some "dereferencing null pointer") := by
  constructor
  · intro hp
    constructor
    · simp [SimNode_Ptr2Ref.compute, h0, hp]
    · simp [SimNode_Ptr2Ref.compute, h0, hp]
  · intro hp
    have hc : SimNode_Ptr2Ref.compute subexpr m
        = (nullptr, (subexpr.evalPtr m).2.thrown nullPointerMessage) := by
      simp [SimNode_Ptr2Ref.compute, h0, hp, Machine.thrown, nullPointerMessage]
    rw [hc]
    exact ⟨rfl, or_throw_and_throw_ne_zero _, getException_throw_error _ _⟩

/-- Witness for C15: the address 4096 passes through; the null constant throws. -/
theorem ptr2Ref_null_check_witness :
    ((SimNode_ConstValue (cast_ptr_from 4096)).evalPtr sampleMachine).2.context.stopFlags = 0 ∧
    ((SimNode_ConstValue (cast_ptr_from 4096)).evalPtr sampleMachine).1 ≠ nullptr ∧
    (SimNode_Ptr2Ref.compute (SimNode_ConstValue (cast_ptr_from 4096)) sampleMachine).1
      = 4096 ∧
    ((SimNode_ConstValue 0).evalPtr sampleMachine).1 = nullptr ∧
    (SimNode_Ptr2Ref.compute (SimNode_ConstValue 0) sampleMachine).2.context.getException
      = some "dereferencing null pointer" :=
  ⟨rfl, by decide,
    by
      rw [((ptr2Ref_null_check (SimNode_ConstValue (cast_ptr_from 4096)) sampleMachine rfl).1
        (by decide)).1]
      decide,
    by decide,
    ((ptr2Ref_null_check (SimNode_ConstValue 0) sampleMachine rfl).2 (by decide)).2.2⟩

/-! ## Null coalescing -/

/-- C16, as stated, fails in its first part: a plain field access on a throwing
base gives the non-null pointer `a = 4096` with the throw flag set; the `int32_t`
42 is stored at `a`, but `SimNode_NullCoalescing<int32_t>` returns the zero cell,
not 42, and `SimNode_NullCoalescingRef` returns null, not `a`. -/
theorem nullCoalescing_flag_gives_zero :
    valueMachine.context.stopFlags = 0 ∧
    (strayPointerNode.evalPtr valueMachine).1 = 4096 ∧
    (strayPointerNode.evalPtr valueMachine).2.context.stopFlags ≠ 0 ∧
    (strayPointerNode.evalPtr valueMachine).2.loadValue int32Type 4096 = 42 ∧
    ((SimNode_NullCoalescing int32Type strayPointerNode
      (SimNode_ConstValue 7)).eval valueMachine).1 = 0 ∧
    (SimNode_NullCoalescingRef.compute strayPointerNode
      (SimNode_ConstValue 7) valueMachine).1 = nullptr := by
  refine ⟨by decide, by decide, by decide, by decide, by decide, by decide⟩

/-- C16, amended: `SimNode_NullCoalescing<T>` evaluates the pointer `a`; when no
stop flag is set after it, a non-null `a` gives the value stored at `a`, the same
for every default node `b` and with the machine as `a` left it (so `b` is not
evaluated), and a null `a` gives the value of `b`.  `eval` and the seven typed
paths make the same choice, each with its own read and its own path of `b`, and
`SimNode_NullCoalescingRef` returns `a` if non-null and `b`'s pointer
otherwise. -/
theorem nullCoalescing_choice (T : ValueType) (a b : SimNode) (m : Machine)
    (h0 : (a.evalPtr m).2.context.stopFlags = 0) :
    ((a.evalPtr m).1 ≠ nullptr → ∀ b2 : SimNode,
      (SimNode_NullCoalescing T a b2).eval m
        = ((a.evalPtr m).2.loadValue T (a.evalPtr m).1, (a.evalPtr m).2) ∧
      (SimNode_NullCoalescing T a b2).evalPtr m
        = ((a.evalPtr m).2.loadPtr (a.evalPtr m).1, (a.evalPtr m).2) ∧
      (SimNode_NullCoalescing T a b2).evalBool m
        = ((a.evalPtr m).2.loadBool (a.evalPtr m).1, (a.evalPtr m).2) ∧
      (SimNode_NullCoalescing T a b2).evalFloat m
        = ((a.evalPtr m).2.loadFloat (a.evalPtr m).1, (a.evalPtr m).2) ∧
      (SimNode_NullCoalescing T a b2).evalInt m
        = ((a.evalPtr m).2.loadInt (a.evalPtr m).1, (a.evalPtr m).2) ∧
      (SimNode_NullCoalescing T a b2).evalUInt m
        = ((a.evalPtr m).2.loadUInt (a.evalPtr m).1, (a.evalPtr m).2) ∧
      (SimNode_NullCoalescing T a b2).evalInt64 m
        = ((a.evalPtr m).2.loadInt64 (a.evalPtr m).1, (a.evalPtr m).2) ∧
      (SimNode_NullCoalescing T a b2).evalUInt64 m
        = ((a.evalPtr m).2.loadUInt64 (a.evalPtr m).1, (a.evalPtr m).2) ∧
      SimNode_NullCoalescingRef.compute a b2 m = ((a.evalPtr m).1, (a.evalPtr m).2)) ∧
    ((a.evalPtr m).1 = nullptr →
      (SimNode_NullCoalescing T a b).eval m = b.eval (a.evalPtr m).2 ∧
      (SimNode_NullCoalescing T a b).evalPtr m = b.evalPtr (a.evalPtr m).2 ∧
      (SimNode_NullCoalescing T a b).evalBool m = b.evalBool (a.evalPtr m).2 ∧
      (SimNode_NullCoalescing T a b).evalFloat m = b.evalFloat (a.evalPtr m).2 ∧
      (SimNode_NullCoalescing T a b).evalInt m = b.evalInt (a.evalPtr m).2 ∧
      (SimNode_NullCoalescing T a b).evalUInt m = b.evalUInt (a.evalPtr m).2 ∧
      (SimNode_NullCoalescing T a b).evalInt64 m = b.evalInt64 (a.evalPtr m).2 ∧
      (SimNode_NullCoalescing T a b).evalUInt64 m = b.evalUInt64 (a.evalPtr m).2 ∧
      SimNode_NullCoalescingRef.compute a b m = b.evalPtr (a.evalPtr m).2) := by
  constructor
  · intro hp b2
    refine ⟨?_, ?_, ?_, ?_, ?_, ?_, ?_, ?_, ?_⟩
    · exact SimNode_NullCoalescing.evalTyped_of_ptr _mm_setzero_ps
        (fun m p => m.loadValue T p) SimNode.eval a b2 m h0 hp
    · exact SimNode_NullCoalescing.evalTyped_of_ptr _ _ _ a b2 m h0 hp
    · exact SimNode_NullCoalescing.evalTyped_of_ptr _ _ _ a b2 m h0 hp
    · exact SimNode_NullCoalescing.evalTyped_of_ptr _ _ _ a b2 m h0 hp
    · exact SimNode_NullCoalescing.evalTyped_of_ptr _ _ _ a b2 m h0 hp
    · exact SimNode_NullCoalescing.evalTyped_of_ptr _ _ _ a b2 m h0 hp
    · exact SimNode_NullCoalescing.evalTyped_of_ptr _ _ _ a b2 m h0 hp
    · exact SimNode_NullCoalescing.evalTyped_of_ptr _ _ _ a b2 m h0 hp
    · simp [SimNode_NullCoalescingRef.compute, h0, hp]
  · intro hp
    refine ⟨?_, ?_, ?_, ?_, ?_, ?_, ?_, ?_, ?_⟩
    · exact SimNode_NullCoalescing.evalTyped_of_null _mm_setzero_ps
        (fun m p => m.loadValue T p) SimNode.eval a b m h0 hp
    · exact SimNode_NullCoalescing.evalTyped_of_null _ _ _ a b m h0 hp
    · exact SimNode_NullCoalescing.evalTyped_of_null _ _ _ a b m h0 hp
    · exact SimNode_NullCoalescing.evalTyped_of_null _ _ _ a b m h0 hp
    · exact SimNode_NullCoalescing.evalTyped_of_null _ _ _ a b m h0 hp
    · exact SimNode_NullCoalescing.evalTyped_of_null _ _ _ a b m h0 hp
    · exact SimNode_NullCoalescing.evalTyped_of_null _ _ _ a b m h0 hp
    · exact SimNode_NullCoalescing.evalTyped_of_null _ _ _ a b m h0 hp
    · simp [SimNode_NullCoalescingRef.compute, h0, hp]

/-- Witness for C16: with `a = 4096`, where 42 is stored, the result is 42 even
when the default node would throw; with `a` null the result is the default 7. -/
theorem nullCoalescing_choice_witness :
    ((SimNode_ConstValue (cast_ptr_from 4096)).evalPtr valueMachine).2.context.stopFlags = 0 ∧
    ((SimNode_ConstValue (cast_ptr_from 4096)).evalPtr valueMachine).1 ≠ nullptr ∧
    ((SimNode_NullCoalescing int32Type (SimNode_ConstValue (cast_ptr_from 4096))
      throwingNode).eval valueMachine).1 = 42 ∧
    ((SimNode_NullCoalescing int32Type (SimNode_ConstValue (cast_ptr_from 4096))
      throwingNode).eval valueMachine).2.context.stopFlags = 0 ∧
    ((SimNode_ConstValue 0).evalPtr valueMachine).1 = nullptr ∧
    (SimNode_NullCoalescing int32Type (SimNode_ConstValue 0) (SimNode_ConstValue 7)).eval
      valueMachine = (SimNode_ConstValue 7).eval ((SimNode_ConstValue 0).evalPtr valueMachine).2 :=
  ⟨rfl, by decide,
    by
      rw [((nullCoalescing_choice int32Type (SimNode_ConstValue (cast_ptr_from 4096))
        throwingNode valueMachine rfl).1 (by decide) throwingNode).1]
      decide,
    by
      rw [((nullCoalescing_choice int32Type (SimNode_ConstValue (cast_ptr_from 4096))
        throwingNode valueMachine rfl).1 (by decide) throwingNode).1]
      rfl,
    by decide,
    ((nullCoalescing_choice int32Type (SimNode_ConstValue 0) (SimNode_ConstValue 7)
      valueMachine rfl).2 (by decide)).1⟩

/-! ## Short-circuit `and` and `or` -/

/-- C17: with a left operand that evaluates to false, `Sim_BoolAnd` returns false
and the machine exactly as the left operand left it, the same for every right-hand
node, so the right-hand node is not evaluated; with a left operand that is true
and sets no stop flag the result is the right-hand node's boolean value. -/
theorem boolAnd_short_circuit (l r : SimNode) (m : Machine) :
    ((l.evalBool m).1 = false → ∀ r2 : SimNode,
      Sim_BoolAnd.compute l r2 m = (false, (l.evalBool m).2)) ∧
    ((l.evalBool m).1 = true → (l.evalBool m).2.context.stopFlags = 0 →
      Sim_BoolAnd.compute l r m = r.evalBool (l.evalBool m).2) := by
  constructor
  · intro hl r2
    simp [Sim_BoolAnd.compute, hl]
  · intro hl h0
    simp [Sim_BoolAnd.compute, hl, h0]

/-- Witness for C17: `false && diverge()` is false with no flag set, although the
right-hand node throws when evaluated; `true && true` is the right-hand value. -/
theorem boolAnd_short_circuit_witness :
    ((throwingNode.evalBool sampleMachine).2.context.stopFlags
      &&& EvalFlags.stopForThrow ≠ 0) ∧
    ((SimNode_ConstValue 0).evalBool sampleMachine).1 = false ∧
    Sim_BoolAnd.compute (SimNode_ConstValue 0) throwingNode sampleMachine
      = (false, ((SimNode_ConstValue 0).evalBool sampleMachine).2) ∧
    (Sim_BoolAnd.compute (SimNode_ConstValue 0) throwingNode
      sampleMachine).2.context.stopFlags = 0 ∧
    Sim_BoolAnd.compute (SimNode_ConstValue 1) (SimNode_ConstValue 1) sampleMachine
      = (SimNode_ConstValue 1).evalBool ((SimNode_ConstValue 1).evalBool sampleMachine).2 :=
  ⟨by decide, by decide,
    (boolAnd_short_circuit (SimNode_ConstValue 0) throwingNode sampleMachine).1 (by decide)
      throwingNode,
    by decide,
    (boolAnd_short_circuit (SimNode_ConstValue 1) (SimNode_ConstValue 1) sampleMachine).2
      (by decide) rfl⟩

/-- C18: with a left operand that evaluates to true, `Sim_BoolOr` returns true and
the machine exactly as the left operand left it, the same for every right-hand
node, so the right-hand node is not evaluated; with a left operand that is false
and sets no stop flag the result is the right-hand node's boolean value; with a
left operand that is false and leaves a stop flag set the result is false, again
the same for every right-hand node. -/
theorem boolOr_short_circuit (l r : SimNode) (m : Machine) :
    ((l.evalBool m).1 = true → ∀ r2 : SimNode,
      Sim_BoolOr.compute l r2 m = (true, (l.evalBool m).2)) ∧
    ((l.evalBool m).1 = false → (l.evalBool m).2.context.stopFlags = 0 →
      Sim_BoolOr.compute l r m = r.evalBool (l.evalBool m).2) ∧
    ((l.evalBool m).1 = false → (l.evalBool m).2.context.stopFlags ≠ 0 → ∀ r2 : SimNode,
      Sim_BoolOr.compute l r2 m = (false, (l.evalBool m).2)) := by
  refine ⟨?_, ?_, ?_⟩
  · intro hl r2
    simp [Sim_BoolOr.compute, hl]
  · intro hl h0
    simp [Sim_BoolOr.compute, hl, h0]
  · intro hl h0 r2
    simp [Sim_BoolOr.compute, hl, h0]

/-- Witness for C18: `true || diverge()` is true with no flag set; `false || true`
is the right-hand value; and a left operand that throws gives false with the
right-hand node unevaluated. -/
theorem boolOr_short_circuit_witness :
    ((SimNode_ConstValue 1).evalBool sampleMachine).1 = true ∧
    Sim_BoolOr.compute (SimNode_ConstValue 1) throwingNode sampleMachine
      = (true, ((SimNode_ConstValue 1).evalBool sampleMachine).2) ∧
    (Sim_BoolOr.compute (SimNode_ConstValue 1) throwingNode
      sampleMachine).2.context.stopFlags = 0 ∧
    Sim_BoolOr.compute (SimNode_ConstValue 0) (SimNode_ConstValue 1) sampleMachine
      = (SimNode_ConstValue 1).evalBool ((SimNode_ConstValue 0).evalBool sampleMachine).2 ∧
    ((throwingNode.evalBool sampleMachine).1 = false ∧
      (throwingNode.evalBool sampleMachine).2.context.stopFlags ≠ 0 ∧
      Sim_BoolOr.compute throwingNode (SimNode_ConstValue 1) sampleMachine
        = (false, (throwingNode.evalBool sampleMachine).2)) :=
  ⟨by decide,
    (boolOr_short_circuit (SimNode_ConstValue 1) throwingNode sampleMachine).1 (by decide)
      throwingNode,
    by decide,
    (boolOr_short_circuit (SimNode_ConstValue 0) (SimNode_ConstValue 1) sampleMachine).2.1
      (by decide) rfl,
    ⟨by decide, by decide,
      (boolOr_short_circuit throwingNode (SimNode_ConstValue 1) sampleMachine).2.2
        (by decide) (by decide) (SimNode_ConstValue 1)⟩⟩

/-! ## The for-loop node: the record of calls -/

namespace SimNode_ForWithIterator

theorem firstAll_calls (sources : Nat → Iterator) (n : Nat) (ts : List Nat)
    (hts : ∀ t ∈ ts, t < n) (st : ForState) (needLoop : Bool) :
    ∃ l, (firstAll sources ts st needLoop).1.calls = st.calls ++ l ∧
      ∀ e ∈ l, IterCall.beforeClose n e := by
  induction ts generalizing st needLoop with
  | nil => exact ⟨[], by simp [firstAll], by simp⟩
  | cons t ts ih =>
    have ht : t < n := hts t (List.mem_cons_self _ _)
    have hts2 : ∀ u ∈ ts, u < n := fun u hu => hts u (List.mem_cons_of_mem _ hu)
    unfold firstAll
    simp only
    split
    · exact ⟨[IterCall.first t], rfl, by simpa [IterCall.beforeClose] using ht⟩
    · obtain ⟨l, hl, hall⟩ := ih hts2
        { st with
          machine := ((sources t).first st.machine (st.ph t)).2.1
          ph := Function.update st.ph t ((sources t).first st.machine (st.ph t)).2.2
          calls := st.calls ++ [IterCall.first t] }
        (((sources t).first st.machine (st.ph t)).1 && needLoop)
      refine ⟨IterCall.first t :: l, ?_, ?_⟩
      · rw [hl]; simp
      · intro e he
        rcases List.mem_cons.1 he with h | h
        · rw [h]; exact ht
        · exact hall e h

theorem nextAll_calls (sources : Nat → Iterator) (n : Nat) (ts : List Nat)
    (hts : ∀ t ∈ ts, t < n) (st : ForState) :
    ∃ l, (nextAll sources ts st).1.calls = st.calls ++ l ∧
      ∀ e ∈ l, IterCall.beforeClose n e := by
  induction ts generalizing st with
  | nil => exact ⟨[], by simp [nextAll], by simp⟩
  | cons t ts ih =>
    have ht : t < n := hts t (List.mem_cons_self _ _)
    have hts2 : ∀ u ∈ ts, u < n := fun u hu => hts u (List.mem_cons_of_mem _ hu)
    unfold nextAll
    simp only
    split
    · exact ⟨[IterCall.next t], rfl, by simpa [IterCall.beforeClose] using ht⟩
    · split
      · exact ⟨[IterCall.next t], rfl, by simpa [IterCall.beforeClose] using ht⟩
      · obtain ⟨l, hl, hall⟩ := ih hts2
          { st with
            machine := ((sources t).next st.machine (st.ph t)).2.1
            ph := Function.update st.ph t ((sources t).next st.machine (st.ph t)).2.2
            calls := st.calls ++ [IterCall.next t] }
        refine ⟨IterCall.next t :: l, ?_, ?_⟩
        · rw [hl]; simp
        · intro e he
          rcases List.mem_cons.1 he with h | h
          · rw [h]; exact ht
          · exact hall e h

theorem loop_calls (node : SimNode_ForWithIterator) (sources : Nat → Iterator)
    (pi : Nat → Ptr) (fuel : Nat) (st st2 : ForState)
    (h : loop node sources pi fuel st = some st2) :
    ∃ l, st2.calls = st.calls ++ l ∧ ∀ e ∈ l, IterCall.beforeClose node.total e := by
  induction fuel generalizing st with
  | zero => simp [loop] at h
  | succ fuel ih =>
    unfold loop at h
    simp only at h
    split at h
    · cases h
      exact ⟨[], by simp, by simp⟩
    · obtain ⟨l, hl, hall⟩ := nextAll_calls sources node.total (List.range node.total)
        (fun t ht => List.mem_range.1 ht)
        { st with
          machine := (node.body.eval
            (writeSlots pi st.ph (List.range node.total) st.machine)).2
          calls := st.calls ++ [IterCall.body]
          bodyInputs := st.bodyInputs
            ++ [writeSlots pi st.ph (List.range node.total) st.machine] }
      have hall2 : ∀ e ∈ IterCall.body :: l, IterCall.beforeClose node.total e := by
        intro e he
        rcases List.mem_cons.1 he with h1 | h1
        · rw [h1]; trivial
        · exact hall e h1
      split at h
      · cases h
        exact ⟨IterCall.body :: l, by rw [hl]; simp, hall2⟩
      · obtain ⟨l2, hl2, hall3⟩ := ih _ h
        refine ⟨(IterCall.body :: l) ++ l2, ?_, ?_⟩
        · rw [hl2, hl]; simp
        · intro e he
          rcases List.mem_append.1 he with h1 | h1
          · exact hall2 e h1
          · exact hall3 e h1

theorem closeAll_calls (sources : Nat → Iterator) (ts : List Nat) (st : ForState) :
    (closeAll sources ts st).calls = st.calls ++ ts.map IterCall.close := by
  induction ts generalizing st with
  | nil => simp [closeAll]
  | cons t ts ih =>
    unfold closeAll
    simp only
    rw [ih]
    simp

theorem loopend_calls (node : SimNode_ForWithIterator) (sources : Nat → Iterator)
    (st : ForState) :
    (loopend node sources st).calls
      = st.calls ++ (List.range node.total).map IterCall.close :=
  closeAll_calls sources (List.range node.total) st

theorem count_close_of_phases (n : Nat) (l : List IterCall)
    (hl : ∀ e ∈ l, IterCall.beforeClose n e) (t : Nat)
    (hfirst : IterCall.first t ∈ l ++ (List.range n).map IterCall.close) :
    (l ++ (List.range n).map IterCall.close).count (IterCall.close t) = 1 := by
  have htn : t < n := by
    rcases List.mem_append.1 hfirst with h | h
    · exact hl _ h
    · simp at h
  have hnot : IterCall.close t ∉ l := fun hm => hl _ hm
  have hnodup : ((List.range n).map IterCall.close).Nodup :=
    (List.nodup_range n).map (fun a b hab => by injection hab)
  have hmem : IterCall.close t ∈ (List.range n).map IterCall.close :=
    List.mem_map.2 ⟨t, List.mem_range.2 htn, rfl⟩
  rw [List.count_append, List.count_eq_zero.2 hnot, List.count_eq_one_of_mem hnodup hmem]

theorem eval_calls (node : SimNode_ForWithIterator) (iteratorAt : Cell → Iterator)
    (junk : Nat → IteratorContext) (fuel : Nat) (m : Machine) (r : Cell × ForState)
    (h : eval node iteratorAt junk fuel m = some r) :
    r.2.calls = [] ∨
    ∃ l, r.2.calls = l ++ (List.range node.total).map IterCall.close ∧
      ∀ e ∈ l, IterCall.beforeClose node.total e := by
  unfold eval at h
  simp only at h
  split at h
  · cases h
    exact Or.inl rfl
  · next cells hcells =>
    right
    obtain ⟨l, hl, hall⟩ := firstAll_calls (fun t => iteratorAt (cells t)) node.total
      (List.range node.total) (fun t ht => List.mem_range.1 ht)
      { machine := (evalSources node (List.range node.total) m (fun _ => 0)).1
        ph := junk, calls := [], bodyInputs := [] } true
    simp only [List.nil_append] at hl
    split at h
    · cases h
      exact ⟨l, by rw [loopend_calls, hl], hall⟩
    · split at h
      · cases h
        exact ⟨l, by rw [loopend_calls, hl], hall⟩
      · split at h
        · cases h
        · next st hst =>
          cases h
          obtain ⟨l2, hl2, hall2⟩ := loop_calls node _ _ fuel _ st hst
          refine ⟨l ++ l2, by rw [loopend_calls, hl2, hl], ?_⟩
          intro e he
          rcases List.mem_append.1 he with h1 | h1
          · exact hall e h1
          · exact hall2 e h1

end SimNode_ForWithIterator

/-! ## Memory: reads after writes -/

theorem loadLE_storeLE_at (memory : Int → Nat) (p : Int) (n v : Nat) (j k : Nat)
    (hjk : k + j ≤ n) :
    loadLE (storeLE memory p n v) (p + (k : Int)) j = v / 256 ^ k % 256 ^ j := by
  induction j generalizing k with
  | zero => simp [loadLE, Nat.mod_one]
  | succ j ih =>
    unfold loadLE
    have hbyte : storeLE memory p n v (p + (k : Int)) = v / 256 ^ k % 256 := by
      unfold storeLE
      have hc : p ≤ p + (k : Int) ∧ p + (k : Int) < p + (n : Int) := by omega
      rw [if_pos hc]
      have hk : (p + (k : Int) - p).toNat = k := by simp
      rw [hk]
    have hnext := ih (k + 1) (by omega)
    have hp : p + (k : Int) + 1 = p + ((k + 1 : Nat) : Int) := by push_cast; ring
    rw [hbyte, hp, hnext, Nat.mod_mod]
    rw [pow_succ' 256 j, Nat.mod_mul, pow_succ, Nat.div_div_eq_div_mul]

theorem loadLE_storeLE_same (memory : Int → Nat) (p : Int) (n v : Nat) :
    loadLE (storeLE memory p n v) p n = v % 256 ^ n := by
  have h := loadLE_storeLE_at memory p n v n 0 (by omega)
  simpa using h

namespace SimNode_ForWithIterator

end SimNode_ForWithIterator

/-! ## The for-loop node over enumerating iterators -/

namespace SimNode_ForWithIterator

theorem nextAll_bodyInputs (sources : Nat → Iterator) (ts : List Nat) (st : ForState) :
    (nextAll sources ts st).1.bodyInputs = st.bodyInputs := by
  induction ts generalizing st with
  | nil => rfl
  | cons a ts ih =>
    unfold nextAll
    simp only
    split
    · rfl
    · split
      · rfl
      · rw [ih]

theorem closeAll_bodyInputs (sources : Nat → Iterator) (ts : List Nat) (st : ForState) :
    (closeAll sources ts st).bodyInputs = st.bodyInputs := by
  induction ts generalizing st with
  | nil => rfl
  | cons a ts ih =>
    unfold closeAll
    simp only
    rw [ih]

theorem loopend_bodyInputs (node : SimNode_ForWithIterator) (sources : Nat → Iterator)
    (st : ForState) : (loopend node sources st).bodyInputs = st.bodyInputs :=
  closeAll_bodyInputs sources (List.range node.total) st

end SimNode_ForWithIterator

namespace SimNode_ForWithIterator

end SimNode_ForWithIterator

namespace SimNode_ForWithIterator

theorem loop_fuel_succ (node : SimNode_ForWithIterator) (sources : Nat → Iterator)
    (pi : Nat → Ptr) (fuel : Nat) (st st2 : ForState)
    (h : loop node sources pi fuel st = some st2) :
    loop node sources pi (fuel + 1) st = some st2 := by
  induction fuel generalizing st with
  | zero => simp [loop] at h
  | succ fuel ih =>
    rw [loop] at h ⊢
    simp only at h ⊢
    split
    · next hflag => rw [if_pos hflag] at h; exact h
    · next hflag =>
      rw [if_neg hflag] at h
      split
      · next hexit => rw [if_pos hexit] at h; exact h
      · next hexit =>
        rw [if_neg hexit] at h
        exact ih _ h

theorem loop_fuel_mono (node : SimNode_ForWithIterator) (sources : Nat → Iterator)
    (pi : Nat → Ptr) (fuel fuel2 : Nat) (hle : fuel ≤ fuel2) (st st2 : ForState)
    (h : loop node sources pi fuel st = some st2) :
    loop node sources pi fuel2 st = some st2 := by
  induction hle with
  | refl => exact h
  | step _ ih => exact loop_fuel_succ node sources pi _ st st2 ih

theorem eval_fuel_mono (node : SimNode_ForWithIterator) (iteratorAt : Cell → Iterator)
    (junk : Nat → IteratorContext) (fuel fuel2 : Nat) (hle : fuel ≤ fuel2) (m : Machine)
    (r : Cell × ForState) (h : eval node iteratorAt junk fuel m = some r) :
    eval node iteratorAt junk fuel2 m = some r := by
  unfold eval at h ⊢
  simp only at h ⊢
  split
  · next hnone => rw [hnone] at h; exact h
  · next cells hcells =>
    rw [hcells] at h
    simp only at h
    split
    · next hjump => rw [if_pos hjump] at h; exact h
    · next hjump =>
      rw [if_neg hjump] at h
      split
      · next hneed => rw [if_pos hneed] at h; exact h
      · next hneed =>
        rw [if_neg hneed] at h
        cases hl : loop node (fun t => iteratorAt (cells t)) (slot node m) fuel
            (firstAll (fun t => iteratorAt (cells t)) (List.range node.total)
              { machine := (evalSources node (List.range node.total) m (fun _ => 0)).1
                ph := junk, calls := [], bodyInputs := [] } true).1 with
        | none => rw [hl] at h; cases h
        | some st =>
          rw [hl] at h
          rw [loop_fuel_mono node _ _ fuel fuel2 hle _ st hl]
          exact h

end SimNode_ForWithIterator

/-! ## The for-loop node: lockstep and closure -/

theorem cast_ptr_roundtrip (p : Int) (h0 : 0 ≤ p) (h1 : p < 2 ^ 64) :
    cast_ptr_to (cast_ptr_from p) = p := by
  unfold cast_ptr_to cast_ptr_from
  have h2 : (p % 2 ^ 64).toNat % 2 ^ 64 = (p % 2 ^ 64).toNat := by omega
  rw [h2]
  show (((p % 2 ^ 64).toNat : Nat) : Int) = p
  omega

theorem cast_int32_t_roundtrip (v : Int) (h0 : -2 ^ 31 ≤ v) (h1 : v < 2 ^ 31) :
    cast_int32_t_to (cast_int32_t_from v) = v := by
  unfold cast_int32_t_from
  by_cases hlt : (v % 2 ^ 32).toNat % 2 ^ 32 < 2 ^ 31
  · have hpos : cast_int32_t_to (v % 2 ^ 32).toNat
        = (((v % 2 ^ 32).toNat % 2 ^ 32 : Nat) : Int) := if_pos hlt
    omega
  · have hneg : cast_int32_t_to (v % 2 ^ 32).toNat
        = (((v % 2 ^ 32).toNat % 2 ^ 32 : Nat) : Int) - 2 ^ 32 := if_neg hlt
    omega

theorem cast_uint32_t_roundtrip (v : Nat) (h1 : v < 2 ^ 32) :
    cast_uint32_t_to (cast_uint32_t_from v) = v := by
  unfold cast_uint32_t_to cast_uint32_t_from
  omega

theorem cast_int64_t_roundtrip (v : Int) (h0 : -2 ^ 63 ≤ v) (h1 : v < 2 ^ 63) :
    cast_int64_t_to (cast_int64_t_from v) = v := by
  unfold cast_int64_t_from
  by_cases hlt : (v % 2 ^ 64).toNat % 2 ^ 64 < 2 ^ 63
  · have hpos : cast_int64_t_to (v % 2 ^ 64).toNat
        = (((v % 2 ^ 64).toNat % 2 ^ 64 : Nat) : Int) := if_pos hlt
    omega
  · have hneg : cast_int64_t_to (v % 2 ^ 64).toNat
        = (((v % 2 ^ 64).toNat % 2 ^ 64 : Nat) : Int) - 2 ^ 64 := if_neg hlt
    omega

theorem cast_uint64_t_roundtrip (v : Nat) (h1 : v < 2 ^ 64) :
    cast_uint64_t_to (cast_uint64_t_from v) = v := by
  unfold cast_uint64_t_to cast_uint64_t_from
  omega

theorem cast_float_roundtrip (v : Nat) (h1 : v < 2 ^ 32) :
    cast_float_to (cast_float_from v) = v := by
  unfold cast_float_to cast_float_from
  omega

theorem cast_bool_roundtrip (b : Bool) : cast_bool_to (cast_bool_from b) = b := by
  cases b <;> rfl

/-! ## `break` and `return` -/

theorem or_two_pow_or_self (x k : Nat) : (x ||| 2 ^ k) ||| 2 ^ k = x ||| 2 ^ k := by
  rw [Nat.or_assoc, Nat.or_self]

theorem Machine.loadCell_storeCell_mod (m : Machine) (p : Int) (c : Nat) :
    (m.storeCell p c).loadCell p = c % 2 ^ 128 := by
  unfold Machine.loadCell Machine.storeCell
  simp only
  rw [loadLE_storeLE_same]
  norm_num

/-- C28: `SimNode_Break` sets the break flag and nothing else: the machine after
it is the one before with only `stopFlags` replaced by `stopFlags | stopForBreak`,
so the exception field, `stackTop` and all of memory (the frame contents) are
unchanged, and the return, throw and terminate bits are the ones from before; it
returns a zero cell, and evaluating it twice leaves the same state as once. -/
theorem break_sets_only_break (m : Machine) :
    (SimNode_Break.eval m).1 = _mm_setzero_ps ∧
    (SimNode_Break.eval m).2 =
      { m with
        context :=
          { m.context with stopFlags := m.context.stopFlags ||| EvalFlags.stopForBreak } } ∧
    (SimNode_Break.eval m).2.context.stopFlags &&& EvalFlags.stopForBreak ≠ 0 ∧
    (SimNode_Break.eval m).2.context.stopFlags &&& EvalFlags.stopForReturn
      = m.context.stopFlags &&& EvalFlags.stopForReturn ∧
    (SimNode_Break.eval m).2.context.stopFlags &&& EvalFlags.stopForThrow
      = m.context.stopFlags &&& EvalFlags.stopForThrow ∧
    (SimNode_Break.eval m).2.context.stopFlags &&& EvalFlags.stopForTerminate
      = m.context.stopFlags &&& EvalFlags.stopForTerminate ∧
    (SimNode_Break.eval m).2.context.exception = m.context.exception ∧
    (SimNode_Break.eval m).2.context.stackTop = m.context.stackTop ∧
    (SimNode_Break.eval m).2.memory = m.memory ∧
    SimNode_Break.eval (SimNode_Break.eval m).2 = SimNode_Break.eval m := by
  refine ⟨rfl, rfl, ?_, ?_, ?_, ?_, rfl, rfl, rfl, ?_⟩
  · show (m.context.stopFlags ||| 2 ^ 0) &&& 2 ^ 0 ≠ 0
    rw [or_two_pow_and_self]; decide
  · exact or_two_pow_and_other m.context.stopFlags 0 1 (by decide)
  · exact or_two_pow_and_other m.context.stopFlags 0 2 (by decide)
  · exact or_two_pow_and_other m.context.stopFlags 0 3 (by decide)
  · show ((_mm_setzero_ps : Cell), ({ m with context := { m.context with
        stopFlags := (m.context.stopFlags ||| 2 ^ 0) ||| 2 ^ 0 } } : Machine))
      = (_mm_setzero_ps, { m with context := { m.context with
        stopFlags := m.context.stopFlags ||| 2 ^ 0 } })
    rw [or_two_pow_or_self]

theorem SimNode_Return.eval_some (s : SimNode) (m : Machine) :
    SimNode_Return.eval (some s) m =
      (_mm_setzero_ps,
        { (s.eval m).2.storeCell (s.eval m).2.context.stackTop (s.eval m).1 with
          context :=
            { (s.eval m).2.context with
              stopFlags := (s.eval m).2.context.stopFlags ||| EvalFlags.stopForReturn } }) :=
  rfl

/-- C27: `SimNode_Return` with a subexpression evaluates it, writes its cell into
the result cell of the prologue at `stackTop` (reading that cell back gives the
128 bits written), sets the return flag while keeping the break, throw and
terminate bits and the rest of the context, and returns a zero cell; with no
subexpression it sets the return flag and leaves memory, so the result cell,
unchanged. -/
theorem return_writes_result (s : SimNode) (m : Machine) :
    (SimNode_Return.eval (some s) m).1 = _mm_setzero_ps ∧
    (SimNode_Return.eval (some s) m).2.memory
      = ((s.eval m).2.storeCell (s.eval m).2.context.abiResult (s.eval m).1).memory ∧
    (SimNode_Return.eval (some s) m).2.loadCell (s.eval m).2.context.stackTop
      = (s.eval m).1 % 2 ^ 128 ∧
    (SimNode_Return.eval (some s) m).2.context =
      { (s.eval m).2.context with
        stopFlags := (s.eval m).2.context.stopFlags ||| EvalFlags.stopForReturn } ∧
    (SimNode_Return.eval (some s) m).2.context.stopFlags &&& EvalFlags.stopForReturn ≠ 0 ∧
    (SimNode_Return.eval (some s) m).2.context.stopFlags &&& EvalFlags.stopForBreak
      = (s.eval m).2.context.stopFlags &&& EvalFlags.stopForBreak ∧
    (SimNode_Return.eval (some s) m).2.context.stopFlags &&& EvalFlags.stopForThrow
      = (s.eval m).2.context.stopFlags &&& EvalFlags.stopForThrow ∧
    (SimNode_Return.eval (some s) m).2.context.stopFlags &&& EvalFlags.stopForTerminate
      = (s.eval m).2.context.stopFlags &&& EvalFlags.stopForTerminate ∧
    SimNode_Return.eval none m =
      (_mm_setzero_ps,
        { m with
          context :=
            { m.context with
              stopFlags := m.context.stopFlags ||| EvalFlags.stopForReturn } }) ∧
    (SimNode_Return.eval none m).2.memory = m.memory ∧
    (SimNode_Return.eval none m).2.loadCell m.context.stackTop
      = m.loadCell m.context.stackTop := by
  refine ⟨rfl, rfl, ?_, rfl, ?_, ?_, ?_, ?_, rfl, rfl, rfl⟩
  · exact Machine.loadCell_storeCell_mod (s.eval m).2 (s.eval m).2.context.stackTop (s.eval m).1
  · show ((s.eval m).2.context.stopFlags ||| 2 ^ 1) &&& 2 ^ 1 ≠ 0
    rw [or_two_pow_and_self]; decide
  · exact or_two_pow_and_other _ 1 0 (by decide)
  · exact or_two_pow_and_other _ 1 2 (by decide)
  · exact or_two_pow_and_other _ 1 3 (by decide)

/-- C24: return of a throwing expression.  When the subexpression of
`SimNode_Return` yields a zero cell and leaves the throw flag set with message
`msg`, then after the return node the frame's result cell is the zero cell, which
decodes as the integer 0, the throw flag is still set, `getException()` returns
`msg`, and the flags are those of the subexpression with the return flag added;
the exception field is not written. -/
theorem return_keeps_throw (s : SimNode) (m : Machine) (msg : CStr)
    (hzero : (s.eval m).1 = _mm_setzero_ps)
    (hthrow : (s.eval m).2.context.stopFlags &&& EvalFlags.stopForThrow ≠ 0)
    (hmsg : (s.eval m).2.context.getException = msg) :
    (SimNode_Return.eval (some s) m).2.loadCell
        (SimNode_Return.eval (some s) m).2.context.abiResult = _mm_setzero_ps ∧
    cast_int32_t_to ((SimNode_Return.eval (some s) m).2.loadCell
        (SimNode_Return.eval (some s) m).2.context.abiResult) = 0 ∧
    (SimNode_Return.eval (some s) m).2.context.stopFlags &&& EvalFlags.stopForThrow ≠ 0 ∧
    (SimNode_Return.eval (some s) m).2.context.getException = msg ∧
    (SimNode_Return.eval (some s) m).2.context.stopFlags &&& EvalFlags.stopForReturn ≠ 0 ∧
    (SimNode_Return.eval (some s) m).2.context.stopFlags
      = (s.eval m).2.context.stopFlags ||| EvalFlags.stopForReturn ∧
    (SimNode_Return.eval (some s) m).2.context.exception
      = (s.eval m).2.context.exception := by
  have hcell : (SimNode_Return.eval (some s) m).2.loadCell
      (SimNode_Return.eval (some s) m).2.context.abiResult = _mm_setzero_ps := by
    have h : (SimNode_Return.eval (some s) m).2.loadCell
        (SimNode_Return.eval (some s) m).2.context.abiResult = (s.eval m).1 % 2 ^ 128 :=
      Machine.loadCell_storeCell_mod (s.eval m).2 (s.eval m).2.context.stackTop (s.eval m).1
    rw [h, hzero]
    exact Nat.zero_mod _
  have hkeep : ((s.eval m).2.context.stopFlags ||| EvalFlags.stopForReturn)
      &&& EvalFlags.stopForThrow
      = (s.eval m).2.context.stopFlags &&& EvalFlags.stopForThrow :=
    or_two_pow_and_other _ 1 2 (by decide)
  have hflag : (SimNode_Return.eval (some s) m).2.context.stopFlags
      &&& EvalFlags.stopForThrow ≠ 0 := by
    show ((s.eval m).2.context.stopFlags ||| EvalFlags.stopForReturn)
      &&& EvalFlags.stopForThrow ≠ 0
    rw [hkeep]; exact hthrow
  refine ⟨hcell, ?_, hflag, ?_, ?_, rfl, rfl⟩
  · rw [hcell]; decide
  · have hex : (s.eval m).2.context.exception = msg := by
      simpa [Context.getException, hthrow] using hmsg
    have hgoal : (SimNode_Return.eval (some s) m).2.context.getException
        = (SimNode_Return.eval (some s) m).2.context.exception := by
      simp only [Context.getException, hflag, ne_eq, not_false_eq_true, if_true]
    rw [hgoal]
    exact hex
  · show ((s.eval m).2.context.stopFlags ||| 2 ^ 1) &&& 2 ^ 1 ≠ 0
    rw [or_two_pow_and_self]; decide

/-- Witness for C24: `return 10 / a` with `a = 0`: the division throws "divide by
zero" and yields a zero cell; after the return node the result cell is zero, the
throw and return flags are set, and `getException()` is "divide by zero". -/
theorem return_keeps_throw_witness :
    (divideByZeroNode.eval sampleMachine).1 = _mm_setzero_ps ∧
    (divideByZeroNode.eval sampleMachine).2.context.stopFlags
      &&& EvalFlags.stopForThrow ≠ 0 ∧
    (divideByZeroNode.eval sampleMachine).2.context.getException
      = some "divide by zero" ∧
    (SimNode_Return.eval (some divideByZeroNode) sampleMachine).2.context.getException
      = some "divide by zero" ∧
    (SimNode_Return.eval (some divideByZeroNode) sampleMachine).2.context.stopFlags
      = EvalFlags.stopForThrow ||| EvalFlags.stopForReturn :=
  ⟨by decide, by decide, by decide,
    (return_keeps_throw divideByZeroNode sampleMachine (some "divide by zero")
      (by decide) (by decide) (by decide)).2.2.2.1,
    by decide⟩

/-! ## `makeNodeUnroll` -/

/-- C25: `makeNodeUnroll(count, ...)` instantiates the node at exactly arity
`count` for every `count` with `1 ≤ count ≤ MAX_FOR_ITERATORS = 16`, and for every
`count ≤ 0` or `≥ 17` constructs no node: the assertion fails, and in a build
without assertions the result is null. -/
theorem makeNodeUnroll_arity (ndebug : Bool) (count : Int) :
    (1 ≤ count → count ≤ (MAX_FOR_ITERATORS : Int) →
      Context.makeNodeUnroll ndebug count = Except.ok (some count.toNat)) ∧
    (count ≤ 0 ∨ 17 ≤ count →
      Context.makeNodeUnroll false count
        = Except.error (Fault.assertion "we should not even be here") ∧
      Context.makeNodeUnroll true count = Except.ok none) := by
  constructor
  · intro h1 h16
    have h16b : count ≤ 16 := h16
    interval_cases count <;> rfl
  · intro h
    have hne : ∀ k : Int, 1 ≤ k → k ≤ 16 → ¬ count = k := by
      intro k hk1 hk16 he
      omega
    constructor
    · unfold Context.makeNodeUnroll
      rw [if_neg (hne 1 (by decide) (by decide)), if_neg (hne 2 (by decide) (by decide)),
        if_neg (hne 3 (by decide) (by decide)), if_neg (hne 4 (by decide) (by decide)),
        if_neg (hne 5 (by decide) (by decide)), if_neg (hne 6 (by decide) (by decide)),
        if_neg (hne 7 (by decide) (by decide)), if_neg (hne 8 (by decide) (by decide)),
        if_neg (hne 9 (by decide) (by decide)), if_neg (hne 10 (by decide) (by decide)),
        if_neg (hne 11 (by decide) (by decide)), if_neg (hne 12 (by decide) (by decide)),
        if_neg (hne 13 (by decide) (by decide)), if_neg (hne 14 (by decide) (by decide)),
        if_neg (hne 15 (by decide) (by decide)), if_neg (hne 16 (by decide) (by decide))]
      rfl
    · unfold Context.makeNodeUnroll
      rw [if_neg (hne 1 (by decide) (by decide)), if_neg (hne 2 (by decide) (by decide)),
        if_neg (hne 3 (by decide) (by decide)), if_neg (hne 4 (by decide) (by decide)),
        if_neg (hne 5 (by decide) (by decide)), if_neg (hne 6 (by decide) (by decide)),
        if_neg (hne 7 (by decide) (by decide)), if_neg (hne 8 (by decide) (by decide)),
        if_neg (hne 9 (by decide) (by decide)), if_neg (hne 10 (by decide) (by decide)),
        if_neg (hne 11 (by decide) (by decide)), if_neg (hne 12 (by decide) (by decide)),
        if_neg (hne 13 (by decide) (by decide)), if_neg (hne 14 (by decide) (by decide)),
        if_neg (hne 15 (by decide) (by decide)), if_neg (hne 16 (by decide) (by decide))]
      rfl

/-- Witness for C25: the counts 1, 2 and 16 give a node of that arity; 0, 17 and
-3 fail the assertion. -/
theorem makeNodeUnroll_arity_witness :
    Context.makeNodeUnroll false 1 = Except.ok (some 1) ∧
    Context.makeNodeUnroll false 2 = Except.ok (some (2 : Int).toNat) ∧
    Context.makeNodeUnroll false 16 = Except.ok (some 16) ∧
    Context.makeNodeUnroll false 0
      = Except.error (Fault.assertion "we should not even be here") ∧
    Context.makeNodeUnroll false 17
      = Except.error (Fault.assertion "we should not even be here") ∧
    Context.makeNodeUnroll false (-3)
      = Except.error (Fault.assertion "we should not even be here") :=
  ⟨rfl, (makeNodeUnroll_arity false 2).1 (by decide) (by decide), rfl,
    ((makeNodeUnroll_arity false 0).2 (Or.inl (by decide))).1,
    ((makeNodeUnroll_arity false 17).2 (Or.inr (by decide))).1,
    ((makeNodeUnroll_arity false (-3)).2 (Or.inl (by decide))).1⟩

/-! ## Pointer nodes under a stop flag -/

/-- C26, as stated, fails for `SimNode_FieldDeref`: its child (a pointer-field
dereference of null) returns null and leaves the throw flag set, and the node's
`evalPtr` with offset 4096 returns the address 4096, not null. -/
theorem fieldDeref_flag_not_null :
    (throwingNode.evalPtr sampleMachine).1 = nullptr ∧
    (throwingNode.evalPtr sampleMachine).2.context.stopFlags ≠ 0 ∧
    ((SimNode_FieldDeref throwingNode 4096).evalPtr sampleMachine).1 = 4096 ∧
    ((SimNode_FieldDeref throwingNode 4096).evalPtr sampleMachine).1 ≠ nullptr := by
  refine ⟨by decide, by decide, by decide, by decide⟩

/-- C26, amended: if a stop flag is set once the child has been evaluated, then
`SimNode_PtrFieldDeref`, `SimNode_SafeFieldDeref`, `SimNode_SafeFieldDerefPtr`,
`SimNode_Ptr2Ref` and `SimNode_NullCoalescingRef` return null for every offset
and leave the machine as the child left it, and so does `SimNode_At` for a flag
after either child; `SimNode_FieldDeref` has no exception point and returns the
child's pointer plus the offset, so with a child that returns null it returns the
address `offset`. -/
theorem pointer_nodes_null_on_flag (value other : SimNode) (offset stride range : Nat)
    (m : Machine) :
    ((value.evalPtr m).2.context.stopFlags ≠ 0 →
      SimNode_PtrFieldDeref.compute value offset m = (nullptr, (value.evalPtr m).2) ∧
      SimNode_SafeFieldDeref.compute value offset m = (nullptr, (value.evalPtr m).2) ∧
      SimNode_SafeFieldDerefPtr.compute value offset m = (nullptr, (value.evalPtr m).2) ∧
      SimNode_Ptr2Ref.compute value m = (nullptr, (value.evalPtr m).2) ∧
      SimNode_NullCoalescingRef.compute value other m = (nullptr, (value.evalPtr m).2) ∧
      SimNode_At.compute value other stride range m = (nullptr, (value.evalPtr m).2)) ∧
    ((value.evalPtr m).2.context.stopFlags = 0 →
      (other.eval (value.evalPtr m).2).2.context.stopFlags ≠ 0 →
      SimNode_At.compute value other stride range m
        = (nullptr, (other.eval (value.evalPtr m).2).2)) ∧
    SimNode_FieldDeref.compute value offset m
      = ((value.evalPtr m).1 + (offset : Int), (value.evalPtr m).2) ∧
    ((value.evalPtr m).1 = nullptr →
      (SimNode_FieldDeref.compute value offset m).1 = (offset : Int)) := by
  refine ⟨?_, ?_, rfl, ?_⟩
  · intro hf
    refine ⟨?_, ?_, ?_, ?_, ?_, ?_⟩
    · simp [SimNode_PtrFieldDeref.compute, hf]
    · simp [SimNode_SafeFieldDeref.compute, hf]
    · simp [SimNode_SafeFieldDerefPtr.compute, hf]
    · simp [SimNode_Ptr2Ref.compute, hf]
    · simp [SimNode_NullCoalescingRef.compute, hf]
    · simp [SimNode_At.compute, hf]
  · intro h0 hf
    simp [SimNode_At.compute, h0, hf]
  · intro hp
    show (value.evalPtr m).1 + (offset : Int) = (offset : Int)
    rw [hp]
    simp

/-- Witness for C26: over the throwing child, the five checked nodes and
`SimNode_At` return null. -/
theorem pointer_nodes_null_on_flag_witness :
    (throwingNode.evalPtr sampleMachine).2.context.stopFlags ≠ 0 ∧
    SimNode_SafeFieldDeref.compute throwingNode 8 sampleMachine
      = (nullptr, (throwingNode.evalPtr sampleMachine).2) ∧
    SimNode_At.compute throwingNode (SimNode_ConstValue 0) 4 3 sampleMachine
      = (nullptr, (throwingNode.evalPtr sampleMachine).2) ∧
    (throwingNode.evalPtr sampleMachine).1 = nullptr ∧
    (SimNode_FieldDeref.compute throwingNode 8 sampleMachine).1 = ((8 : Nat) : Int) :=
  ⟨by decide,
    ((pointer_nodes_null_on_flag throwingNode (SimNode_ConstValue 0) 8 4 3 sampleMachine).1
      (by decide)).2.1,
    ((pointer_nodes_null_on_flag throwingNode (SimNode_ConstValue 0) 8 4 3 sampleMachine).1
      (by decide)).2.2.2.2.2,
    by decide,
    (pointer_nodes_null_on_flag throwingNode (SimNode_ConstValue 0) 8 4 3 sampleMachine).2.2.2
      (by decide)⟩

/-! ## Binary operator nodes -/

/-- C23: the binary operator nodes evaluate the left operand first and the right
operand on the machine the left one leaves.  If a stop flag is set after the left
operand, the result is the typed zero and the machine the left operand left, the
same for every right operand and every policy (neither is used); if one is set
after the right operand, the result is the typed zero and the machine the right
operand left, the same for every policy; otherwise the policy is applied to the
left and right values.  The typed zero is `(CTYPE) 0` for `IMPLEMENT_OP2_POLICY`,
`false` for `IMPLEMENT_OP2_BOOL_POLICY` and a zeroed cell for
`IMPLEMENT_OP2_EVAL_POLICY`. -/
theorem op2_stop_flags {α : Type} (P : TypedPath α)
    (policy : α → α → Machine → α × Machine)
    (boolPolicy : α → α → Machine → Bool × Machine)
    (cellPolicy : Cell → Cell → Machine → Cell × Machine) (l r : SimNode) (m : Machine) :
    ((P.get l m).2.context.stopFlags ≠ 0 →
      ∀ (r2 : SimNode) (policy2 : α → α → Machine → α × Machine)
        (boolPolicy2 : α → α → Machine → Bool × Machine),
        IMPLEMENT_OP2_POLICY.compute P policy2 l r2 m = (P.zero, (P.get l m).2) ∧
        IMPLEMENT_OP2_BOOL_POLICY.compute P boolPolicy2 l r2 m = (false, (P.get l m).2)) ∧
    ((l.eval m).2.context.stopFlags ≠ 0 →
      ∀ (r2 : SimNode) (cellPolicy2 : Cell → Cell → Machine → Cell × Machine),
        IMPLEMENT_OP2_EVAL_POLICY.eval cellPolicy2 l r2 m
          = (_mm_setzero_ps, (l.eval m).2)) ∧
    ((P.get l m).2.context.stopFlags = 0 →
      (P.get r (P.get l m).2).2.context.stopFlags ≠ 0 →
      ∀ (policy2 : α → α → Machine → α × Machine)
        (boolPolicy2 : α → α → Machine → Bool × Machine),
        IMPLEMENT_OP2_POLICY.compute P policy2 l r m
          = (P.zero, (P.get r (P.get l m).2).2) ∧
        IMPLEMENT_OP2_BOOL_POLICY.compute P boolPolicy2 l r m
          = (false, (P.get r (P.get l m).2).2)) ∧
    ((l.eval m).2.context.stopFlags = 0 →
      (r.eval (l.eval m).2).2.context.stopFlags ≠ 0 →
      ∀ cellPolicy2 : Cell → Cell → Machine → Cell × Machine,
        IMPLEMENT_OP2_EVAL_POLICY.eval cellPolicy2 l r m
          = (_mm_setzero_ps, (r.eval (l.eval m).2).2)) ∧
    ((P.get l m).2.context.stopFlags = 0 →
      (P.get r (P.get l m).2).2.context.stopFlags = 0 →
      IMPLEMENT_OP2_POLICY.compute P policy l r m
        = policy (P.get l m).1 (P.get r (P.get l m).2).1 (P.get r (P.get l m).2).2 ∧
      IMPLEMENT_OP2_BOOL_POLICY.compute P boolPolicy l r m
        = boolPolicy (P.get l m).1 (P.get r (P.get l m).2).1 (P.get r (P.get l m).2).2) ∧
    ((l.eval m).2.context.stopFlags = 0 →
      (r.eval (l.eval m).2).2.context.stopFlags = 0 →
      IMPLEMENT_OP2_EVAL_POLICY.eval cellPolicy l r m
        = cellPolicy (l.eval m).1 (r.eval (l.eval m).2).1 (r.eval (l.eval m).2).2) ∧
    (TypedPath.int.zero = 0 ∧ TypedPath.uint.zero = 0 ∧ TypedPath.int64.zero = 0 ∧
      TypedPath.uint64.zero = 0 ∧ TypedPath.float.zero = 0) := by
  refine ⟨?_, ?_, ?_, ?_, ?_, ?_, ⟨rfl, rfl, rfl, rfl, rfl⟩⟩
  · intro hf r2 policy2 boolPolicy2
    constructor
    · simp [IMPLEMENT_OP2_POLICY.compute, hf]
    · simp [IMPLEMENT_OP2_BOOL_POLICY.compute, hf]
  · intro hf r2 cellPolicy2
    simp [IMPLEMENT_OP2_EVAL_POLICY.eval, hf]
  · intro h0 hf policy2 boolPolicy2
    constructor
    · simp [IMPLEMENT_OP2_POLICY.compute, h0, hf]
    · simp [IMPLEMENT_OP2_BOOL_POLICY.compute, h0, hf]
  · intro h0 hf cellPolicy2
    simp [IMPLEMENT_OP2_EVAL_POLICY.eval, h0, hf]
  · intro h0 h1
    constructor
    · simp [IMPLEMENT_OP2_POLICY.compute, h0, h1]
    · simp [IMPLEMENT_OP2_BOOL_POLICY.compute, h0, h1]
  · intro h0 h1
    simp [IMPLEMENT_OP2_EVAL_POLICY.eval, h0, h1]

/-- Witness for C23: with a left operand that throws, `int32_t` addition returns 0
and the machine the left operand left, whatever the right operand; with a right
operand that throws it returns 0 as well; and `40 + 2` applies the policy. -/
theorem op2_stop_flags_witness :
    (TypedPath.int.get throwingNode sampleMachine).2.context.stopFlags ≠ 0 ∧
    IMPLEMENT_OP2_POLICY.compute TypedPath.int SimPolicy_int32_t.Add throwingNode
        (SimNode_ConstValue 1) sampleMachine
      = (TypedPath.int.zero, (TypedPath.int.get throwingNode sampleMachine).2) ∧
    IMPLEMENT_OP2_POLICY.compute TypedPath.int SimPolicy_int32_t.Add (SimNode_ConstValue 1)
        throwingNode sampleMachine
      = (TypedPath.int.zero,
          (TypedPath.int.get throwingNode
            (TypedPath.int.get (SimNode_ConstValue 1) sampleMachine).2).2) ∧
    (IMPLEMENT_OP2_POLICY.compute TypedPath.int SimPolicy_int32_t.Add
        (SimNode_ConstValue (cast_int32_t_from 40)) (SimNode_ConstValue (cast_int32_t_from 2))
        sampleMachine).1 = 42 :=
  ⟨by decide,
    ((op2_stop_flags TypedPath.int SimPolicy_int32_t.Add (fun _ _ mm => (false, mm))
      (fun _ _ mm => (0, mm)) throwingNode (SimNode_ConstValue 1) sampleMachine).1
      (by decide) (SimNode_ConstValue 1) SimPolicy_int32_t.Add (fun _ _ mm => (false, mm))).1,
    ((op2_stop_flags TypedPath.int SimPolicy_int32_t.Add (fun _ _ mm => (false, mm))
      (fun _ _ mm => (0, mm)) (SimNode_ConstValue 1) throwingNode sampleMachine).2.2.1
      rfl (by decide) SimPolicy_int32_t.Add (fun _ _ mm => (false, mm))).1,
    by
      rw [((op2_stop_flags TypedPath.int SimPolicy_int32_t.Add (fun _ _ mm => (false, mm))
        (fun _ _ mm => (0, mm)) (SimNode_ConstValue (cast_int32_t_from 40))
        (SimNode_ConstValue (cast_int32_t_from 2)) sampleMachine).2.2.2.2.1 rfl rfl).1]
      decide⟩

/-! ## Typed paths and `eval` -/

/-- C22, as stated, fails for `evalInt` of `SimNode_GetLocal`: for the local at
offset 32, `eval` boxes the address 8405024 and `cast<int32_t>::to` of that cell
is 8405024, while `evalInt` fails its `assert(0)` and, in a build without
assertions, returns 0. -/
theorem getLocal_evalInt_disagrees :
    ((YZG_PTR_NODE (SimNode_GetLocal.compute 32)).eval sampleMachine).1
      = cast_ptr_from 8405024 ∧
    cast_int32_t_to ((YZG_PTR_NODE (SimNode_GetLocal.compute 32)).eval sampleMachine).1
      = 8405024 ∧
    SimNode_GetLocal.evalInt false sampleMachine
      = Except.error (Fault.assertion "we should not even be here") ∧
    SimNode_GetLocal.evalInt true sampleMachine = Except.ok (0, sampleMachine) ∧
    (0 : Int) ≠ cast_int32_t_to
      ((YZG_PTR_NODE (SimNode_GetLocal.compute 32)).eval sampleMachine).1 := by
  refine ⟨by decide, by decide, rfl, rfl, by decide⟩

/-- C22, amended: every typed path of `SimNode_ConstValue`, `SimNode_GetArgument`
and `SimNode_Call` is `cast<T>::to` of `eval` with the same resulting machine; the
path `eval##TYPE` that `YZG_NODE(TYPE,CTYPE)` generates is `compute`, `eval` is
`cast<CTYPE>::from` of it, and the two agree through `cast<CTYPE>::to` wherever
the cast round-trips, which it does on every representable value; `evalInt` of
`SimNode_GetLocal`, `SimNode_GetLocalRef`, `SimNode_Ptr2Ref` and
`SimNode_NullCoalescingRef` is a stub that does not follow `eval`: with assertions
compiled in it fails `assert(0)`; with assertions compiled out it leaves the
context as it is and returns 0 for `SimNode_GetLocal`, `SimNode_Ptr2Ref` and
`SimNode_NullCoalescingRef`, and for `SimNode_GetLocalRef` the `int32_t` read
through the pointer stored in the local. -/
theorem typed_paths_agree {α : Type} (P : TypedPath α)
    (hget : ∀ (n : SimNode) (f : Machine → α × Machine), P.get (P.set n f) = f)
    (heval : ∀ (n : SimNode) (f : Machine → α × Machine), (P.set n f).eval = n.eval)
    (compute : Machine → α × Machine) (value : Cell) (index : Int)
    (callEval : Machine → Cell × Machine) (stackTop : Nat) (m : Machine) :
    (∀ n : SimNode,
      n = SimNode_ConstValue value ∨ n = SimNode_GetArgument index ∨ n = SimNode_Call callEval →
      n.evalPtr m = (cast_ptr_to (n.eval m).1, (n.eval m).2) ∧
      n.evalBool m = (cast_bool_to (n.eval m).1, (n.eval m).2) ∧
      n.evalFloat m = (cast_float_to (n.eval m).1, (n.eval m).2) ∧
      n.evalInt m = (cast_int32_t_to (n.eval m).1, (n.eval m).2) ∧
      n.evalUInt m = (cast_uint32_t_to (n.eval m).1, (n.eval m).2) ∧
      n.evalInt64 m = (cast_int64_t_to (n.eval m).1, (n.eval m).2) ∧
      n.evalUInt64 m = (cast_uint64_t_to (n.eval m).1, (n.eval m).2)) ∧
    P.get (YZG_NODE P compute) m = compute m ∧
    (YZG_NODE P compute).eval m = (P.castFrom (compute m).1, (compute m).2) ∧
    (P.castTo (P.castFrom (compute m).1) = (compute m).1 →
      P.get (YZG_NODE P compute) m
        = (P.castTo ((YZG_NODE P compute).eval m).1, ((YZG_NODE P compute).eval m).2)) ∧
    ((∀ p : Int, 0 ≤ p → p < 2 ^ 64 →
        TypedPath.ptr.castTo (TypedPath.ptr.castFrom p) = p) ∧
      (∀ v : Int, -2 ^ 31 ≤ v → v < 2 ^ 31 →
        TypedPath.int.castTo (TypedPath.int.castFrom v) = v) ∧
      (∀ v : Nat, v < 2 ^ 32 → TypedPath.uint.castTo (TypedPath.uint.castFrom v) = v) ∧
      (∀ v : Int, -2 ^ 63 ≤ v → v < 2 ^ 63 →
        TypedPath.int64.castTo (TypedPath.int64.castFrom v) = v) ∧
      (∀ v : Nat, v < 2 ^ 64 → TypedPath.uint64.castTo (TypedPath.uint64.castFrom v) = v) ∧
      (∀ v : Nat, v < 2 ^ 32 → TypedPath.float.castTo (TypedPath.float.castFrom v) = v) ∧
      (∀ b : Bool, TypedPath.bool.castTo (TypedPath.bool.castFrom b) = b)) ∧
    (SimNode_GetLocal.evalInt false m
        = Except.error (Fault.assertion "we should not even be here") ∧
      SimNode_GetLocalRef.evalInt stackTop false m
        = Except.error (Fault.assertion "like that?") ∧
      SimNode_Ptr2Ref.evalInt false m
        = Except.error (Fault.assertion "we should not even be here!") ∧
      SimNode_NullCoalescingRef.evalInt false m
        = Except.error (Fault.assertion "we should not even be here!")) ∧
    (SimNode_GetLocal.evalInt true m = Except.ok (0, m) ∧
      SimNode_GetLocalRef.evalInt stackTop true m
        = Except.ok
            (m.loadInt (SimNode_GetLocalRef.compute stackTop m).1, m) ∧
      SimNode_Ptr2Ref.evalInt true m = Except.ok (0, m) ∧
      SimNode_NullCoalescingRef.evalInt true m = Except.ok (0, m)) := by
  have h1 : P.get (YZG_NODE P compute) m = compute m := by
    unfold YZG_NODE
    rw [hget]
  have h2 : (YZG_NODE P compute).eval m = (P.castFrom (compute m).1, (compute m).2) := by
    unfold YZG_NODE
    rw [heval]
    rfl
  refine ⟨?_, h1, h2, ?_, ?_, ⟨rfl, rfl, rfl, rfl⟩, ⟨rfl, rfl, rfl, rfl⟩⟩
  · intro n hn
    rcases hn with h | h | h <;> subst h <;> exact ⟨rfl, rfl, rfl, rfl, rfl, rfl, rfl⟩
  · intro hr
    rw [h1, h2]
    simp only [hr]
  · exact ⟨cast_ptr_roundtrip, cast_int32_t_roundtrip, cast_uint32_t_roundtrip,
      cast_int64_t_roundtrip, cast_uint64_t_roundtrip, cast_float_roundtrip,
      cast_bool_roundtrip⟩

/-- Witness for C22: the `int32_t` node `40 + 2` computes 42 on its typed path and
`eval` followed by `cast<int32_t>::to` gives the same; the pointer node of a local
agrees on `evalPtr`; and without assertions `evalInt` of `SimNode_GetLocalRef` on a
local that holds the pointer 4096 returns the 42 stored there, while the cast of
its `eval` is 4096. -/
theorem typed_paths_agree_witness :
    SimNode_GetLocalRef.evalInt 32 true refLocalMachine = Except.ok (42, refLocalMachine) ∧
    cast_int32_t_to ((YZG_PTR_NODE (SimNode_GetLocalRef.compute 32)).eval refLocalMachine).1
      = 4096 ∧
    (TypedPath.int.get fortyTwoNode sampleMachine).1 = 42 ∧
    TypedPath.int.get fortyTwoNode sampleMachine
      = (TypedPath.int.castTo (fortyTwoNode.eval sampleMachine).1,
          (fortyTwoNode.eval sampleMachine).2) ∧
    (SimNode_ConstValue 7).evalInt sampleMachine
      = (cast_int32_t_to ((SimNode_ConstValue 7).eval sampleMachine).1,
          ((SimNode_ConstValue 7).eval sampleMachine).2) ∧
    TypedPath.ptr.get (YZG_NODE TypedPath.ptr (SimNode_GetLocal.compute 32)) sampleMachine
      = (TypedPath.ptr.castTo
            ((YZG_NODE TypedPath.ptr (SimNode_GetLocal.compute 32)).eval sampleMachine).1,
          ((YZG_NODE TypedPath.ptr (SimNode_GetLocal.compute 32)).eval sampleMachine).2) :=
  ⟨by
      rw [(typed_paths_agree TypedPath.int (fun _ _ => rfl) (fun _ _ => rfl)
        (fun mm => (0, mm)) 7 0 (fun mm => (0, mm)) 32 refLocalMachine).2.2.2.2.2.2.2.1]
      have hv : refLocalMachine.loadInt (SimNode_GetLocalRef.compute 32 refLocalMachine).1
          = 42 := by decide
      rw [hv],
    by decide,
    by decide,
    (typed_paths_agree TypedPath.int (fun _ _ => rfl) (fun _ _ => rfl)
      (IMPLEMENT_OP2_POLICY.compute TypedPath.int SimPolicy_int32_t.Add
        (SimNode_ConstValue (cast_int32_t_from 40)) (SimNode_ConstValue (cast_int32_t_from 2)))
      7 0 (fun mm => (0, mm)) 32 sampleMachine).2.2.2.1 (by decide),
    ((typed_paths_agree TypedPath.int (fun _ _ => rfl) (fun _ _ => rfl)
      (fun mm => (0, mm)) 7 0 (fun mm => (0, mm)) 32 sampleMachine).1
      (SimNode_ConstValue 7) (Or.inl rfl)).2.2.2.1,
    (typed_paths_agree TypedPath.ptr (fun _ _ => rfl) (fun _ _ => rfl)
      (SimNode_GetLocal.compute 32) 7 0 (fun mm => (0, mm)) 32 sampleMachine).2.2.2.1
      (by decide)⟩

/-! ## The for-loop node: flags on return, and the calls of `first` -/

theorem and_clear_break_and_break (x : Nat) :
    (x &&& (2 ^ 32 - 1 - EvalFlags.stopForBreak)) &&& EvalFlags.stopForBreak = 0 := by
  rw [Nat.and_assoc]
  have h : (2 ^ 32 - 1 - EvalFlags.stopForBreak) &&& EvalFlags.stopForBreak = 0 := by decide
  rw [h, Nat.and_zero]

theorem and_clear_break_and_return (x : Nat) :
    (x &&& (2 ^ 32 - 1 - EvalFlags.stopForBreak)) &&& EvalFlags.stopForReturn
      = x &&& EvalFlags.stopForReturn := by
  rw [Nat.and_assoc]
  have h : (2 ^ 32 - 1 - EvalFlags.stopForBreak) &&& EvalFlags.stopForReturn
      = EvalFlags.stopForReturn := by decide
  rw [h]

theorem and_clear_break_and_terminate (x : Nat) :
    (x &&& (2 ^ 32 - 1 - EvalFlags.stopForBreak)) &&& EvalFlags.stopForTerminate
      = x &&& EvalFlags.stopForTerminate := by
  rw [Nat.and_assoc]
  have h : (2 ^ 32 - 1 - EvalFlags.stopForBreak) &&& EvalFlags.stopForTerminate
      = EvalFlags.stopForTerminate := by decide
  rw [h]

namespace SimNode_ForWithIterator

theorem eval_eq_atLoopend (node : SimNode_ForWithIterator) (iteratorAt : Cell → Iterator)
    (junk : Nat → IteratorContext) (fuel : Nat) (m m1 : Machine) (cells : Nat → Cell)
    (hsrc : evalSources node (List.range node.total) m (fun _ => 0) = (m1, some cells)) :
    eval node iteratorAt junk fuel m
      = (atLoopend node (fun t => iteratorAt (cells t)) (slot node m) junk fuel m1).map
          (fun st => (_mm_setzero_ps, loopend node (fun t => iteratorAt (cells t)) st)) := by
  unfold eval atLoopend
  simp only [hsrc]
  split
  · rfl
  · split
    · rfl
    · cases loop node (fun t => iteratorAt (cells t)) (slot node m) fuel
        (firstAll (fun t => iteratorAt (cells t)) (List.range node.total)
          { machine := m1, ph := junk, calls := [], bodyInputs := [] } true).1 <;> rfl

theorem closeAll_stopFlags (sources : Nat → Iterator) (ts : List Nat)
    (hclose : ∀ t ∈ ts, ∀ (mm : Machine) (itc : IteratorContext),
      ((sources t).close mm itc).1.context.stopFlags = mm.context.stopFlags)
    (st : ForState) :
    (closeAll sources ts st).machine.context.stopFlags = st.machine.context.stopFlags := by
  induction ts generalizing st with
  | nil => rfl
  | cons a ts ih =>
    unfold closeAll
    simp only
    rw [ih (fun t ht => hclose t (List.mem_cons_of_mem _ ht))]
    exact hclose a (List.mem_cons_self _ _) st.machine (st.ph a)

theorem loopend_stopFlags (node : SimNode_ForWithIterator) (sources : Nat → Iterator)
    (st : ForState) :
    (loopend node sources st).machine.context.stopFlags
      = (closeAll sources (List.range node.total) st).machine.context.stopFlags
        &&& (2 ^ 32 - 1 - EvalFlags.stopForBreak) :=
  rfl

end SimNode_ForWithIterator

/-- C21: a break does not escape the for-loop.  Whenever the node reaches its
iterator phase (the sources raised no flag) and arrives at `loopend` in the state
`stExit`, it returns a zero cell with the break flag clear; the return, throw and
terminate bits on return are those left by the calls of `close`, and so, `close`
being unable to throw (it leaves `stopFlags` alone), exactly those that were set
when the loop exited. -/
theorem for_clears_break (node : SimNode_ForWithIterator) (iteratorAt : Cell → Iterator)
    (junk : Nat → IteratorContext) (fuel : Nat) (m m1 : Machine) (cells : Nat → Cell)
    (stExit : ForState)
    (hsrc : SimNode_ForWithIterator.evalSources node (List.range node.total) m (fun _ => 0)
      = (m1, some cells))
    (hexit : SimNode_ForWithIterator.atLoopend node (fun t => iteratorAt (cells t))
      (SimNode_ForWithIterator.slot node m) junk fuel m1 = some stExit) :
    SimNode_ForWithIterator.eval node iteratorAt junk fuel m
      = some (_mm_setzero_ps,
          SimNode_ForWithIterator.loopend node (fun t => iteratorAt (cells t)) stExit) ∧
    (SimNode_ForWithIterator.loopend node (fun t => iteratorAt (cells t))
      stExit).machine.context.stopFlags &&& EvalFlags.stopForBreak = 0 ∧
    ((∀ t < node.total, ∀ (mm : Machine) (itc : IteratorContext),
        ((iteratorAt (cells t)).close mm itc).1.context.stopFlags = mm.context.stopFlags) →
      (SimNode_ForWithIterator.loopend node (fun t => iteratorAt (cells t))
          stExit).machine.context.stopFlags &&& EvalFlags.stopForReturn
        = stExit.machine.context.stopFlags &&& EvalFlags.stopForReturn ∧
      (SimNode_ForWithIterator.loopend node (fun t => iteratorAt (cells t))
          stExit).machine.context.stopFlags &&& EvalFlags.stopForThrow
        = stExit.machine.context.stopFlags &&& EvalFlags.stopForThrow ∧
      (SimNode_ForWithIterator.loopend node (fun t => iteratorAt (cells t))
          stExit).machine.context.stopFlags &&& EvalFlags.stopForTerminate
        = stExit.machine.context.stopFlags &&& EvalFlags.stopForTerminate) := by
  refine ⟨?_, ?_, ?_⟩
  · rw [SimNode_ForWithIterator.eval_eq_atLoopend node iteratorAt junk fuel m m1 cells hsrc,
      hexit]
    rfl
  · rw [SimNode_ForWithIterator.loopend_stopFlags]
    exact and_clear_break_and_break _
  · intro hclose
    have hc := SimNode_ForWithIterator.closeAll_stopFlags (fun t => iteratorAt (cells t))
      (List.range node.total) (fun t ht => hclose t (List.mem_range.1 ht)) stExit
    rw [SimNode_ForWithIterator.loopend_stopFlags, hc]
    exact ⟨and_clear_break_and_return _, and_clear_break_and_throw _,
      and_clear_break_and_terminate _⟩

namespace SimNode_ForWithIterator

theorem firstAll_answers (sources : Nat → Iterator) (ts : List Nat) (st : ForState)
    (needLoop : Bool) :
    (firstAll sources ts st needLoop).1.calls
      = st.calls ++ (ts.take (firstAnswers sources ts st).length).map IterCall.first ∧
    (firstAll sources ts st needLoop).2.1
      = (needLoop && (firstAnswers sources ts st).all id) ∧
    ((firstAll sources ts st needLoop).2.2 = false →
      (firstAnswers sources ts st).length = ts.length) ∧
    ((firstAll sources ts st needLoop).2.2 = true →
      (firstAll sources ts st needLoop).1.machine.context.stopFlags ≠ 0) ∧
    (firstAll sources ts st needLoop).1.bodyInputs = st.bodyInputs ∧
    (firstAnswers sources ts st).length ≤ ts.length := by
  induction ts generalizing st needLoop with
  | nil =>
    refine ⟨by simp [firstAll, firstAnswers], by simp [firstAll, firstAnswers],
      fun _ => rfl, ?_, rfl, Nat.le_refl _⟩
    intro h
    simp [firstAll] at h
  | cons a ts ih =>
    by_cases hf : ((sources a).first st.machine (st.ph a)).2.1.context.stopFlags = 0
    · have hstep : firstAll sources (a :: ts) st needLoop
          = firstAll sources ts
              { st with
                machine := ((sources a).first st.machine (st.ph a)).2.1
                ph := Function.update st.ph a ((sources a).first st.machine (st.ph a)).2.2
                calls := st.calls ++ [IterCall.first a] }
              (((sources a).first st.machine (st.ph a)).1 && needLoop) := by
        simp [firstAll, hf]
      have hans : firstAnswers sources (a :: ts) st
          = ((sources a).first st.machine (st.ph a)).1 ::
            firstAnswers sources ts
              { st with
                machine := ((sources a).first st.machine (st.ph a)).2.1
                ph := Function.update st.ph a ((sources a).first st.machine (st.ph a)).2.2
                calls := st.calls ++ [IterCall.first a] } := by
        simp [firstAnswers, hf]
      obtain ⟨h1, h2, h3, h4, h5, h6⟩ := ih
        { st with
          machine := ((sources a).first st.machine (st.ph a)).2.1
          ph := Function.update st.ph a ((sources a).first st.machine (st.ph a)).2.2
          calls := st.calls ++ [IterCall.first a] }
        (((sources a).first st.machine (st.ph a)).1 && needLoop)
      rw [hstep, hans]
      refine ⟨?_, ?_, ?_, h4, h5, ?_⟩
      · rw [h1]
        simp
      · rw [h2]
        simp only [List.all_cons, id]
        cases ((sources a).first st.machine (st.ph a)).1 <;> cases needLoop <;> simp
      · intro hj
        simp only [List.length_cons]
        rw [h3 hj]
      · simp only [List.length_cons]
        omega
    · have hstep : firstAll sources (a :: ts) st needLoop
          = ({ st with
                machine := ((sources a).first st.machine (st.ph a)).2.1
                ph := Function.update st.ph a ((sources a).first st.machine (st.ph a)).2.2
                calls := st.calls ++ [IterCall.first a] },
              ((sources a).first st.machine (st.ph a)).1 && needLoop, true) := by
        simp [firstAll, hf]
      have hans : firstAnswers sources (a :: ts) st
          = [((sources a).first st.machine (st.ph a)).1] := by
        simp [firstAnswers, hf]
      rw [hstep, hans]
      refine ⟨by simp, ?_, ?_, fun _ => hf, rfl, by simp⟩
      · simp only [List.all_cons, List.all_nil, id, Bool.and_true]
        cases ((sources a).first st.machine (st.ph a)).1 <;> cases needLoop <;> rfl
      · intro h
        cases h

theorem nextAll_inLoop (sources : Nat → Iterator) (ts : List Nat) (st : ForState) :
    ∃ l, (nextAll sources ts st).1.calls = st.calls ++ l ∧ ∀ e ∈ l, IterCall.inLoop e := by
  induction ts generalizing st with
  | nil => exact ⟨[], by simp [nextAll], by simp⟩
  | cons t ts ih =>
    unfold nextAll
    simp only
    split
    · exact ⟨[IterCall.next t], rfl, by simp [IterCall.inLoop]⟩
    · split
      · exact ⟨[IterCall.next t], rfl, by simp [IterCall.inLoop]⟩
      · obtain ⟨l, hl, hall⟩ := ih
          { st with
            machine := ((sources t).next st.machine (st.ph t)).2.1
            ph := Function.update st.ph t ((sources t).next st.machine (st.ph t)).2.2
            calls := st.calls ++ [IterCall.next t] }
        refine ⟨IterCall.next t :: l, ?_, ?_⟩
        · rw [hl]; simp
        · intro e he
          rcases List.mem_cons.1 he with h | h
          · rw [h]; trivial
          · exact hall e h

theorem loop_inLoop (node : SimNode_ForWithIterator) (sources : Nat → Iterator)
    (pi : Nat → Ptr) (fuel : Nat) (st st2 : ForState)
    (h : loop node sources pi fuel st = some st2) :
    ∃ l, st2.calls = st.calls ++ l ∧ ∀ e ∈ l, IterCall.inLoop e := by
  induction fuel generalizing st with
  | zero => simp [loop] at h
  | succ fuel ih =>
    unfold loop at h
    simp only at h
    split at h
    · cases h
      exact ⟨[], by simp, by simp⟩
    · obtain ⟨l, hl, hall⟩ := nextAll_inLoop sources (List.range node.total)
        { st with
          machine := (node.body.eval
            (writeSlots pi st.ph (List.range node.total) st.machine)).2
          calls := st.calls ++ [IterCall.body]
          bodyInputs := st.bodyInputs
            ++ [writeSlots pi st.ph (List.range node.total) st.machine] }
      have hall2 : ∀ e ∈ IterCall.body :: l, IterCall.inLoop e := by
        intro e he
        rcases List.mem_cons.1 he with h1 | h1
        · rw [h1]; trivial
        · exact hall e h1
      split at h
      · cases h
        exact ⟨IterCall.body :: l, by rw [hl]; simp, hall2⟩
      · obtain ⟨l2, hl2, hall3⟩ := ih _ h
        refine ⟨(IterCall.body :: l) ++ l2, ?_, ?_⟩
        · rw [hl2, hl]; simp
        · intro e he
          rcases List.mem_append.1 he with h1 | h1
          · exact hall2 e h1
          · exact hall3 e h1

end SimNode_ForWithIterator

namespace SimNode_ForWithIterator

theorem atLoopend_calls (node : SimNode_ForWithIterator) (sources : Nat → Iterator)
    (pi : Nat → Ptr) (junk : Nat → IteratorContext) (fuel : Nat) (m1 : Machine)
    (stExit : ForState) (hexit : atLoopend node sources pi junk fuel m1 = some stExit) :
    (∃ l, stExit.calls
        = (List.range (firstAnswers sources (List.range node.total)
            (start m1 junk)).length).map IterCall.first ++ l ∧
      ∀ e ∈ l, IterCall.inLoop e) ∧
    (((firstAll sources (List.range node.total) (start m1 junk) true).2.2 = true ∨
        (firstAll sources (List.range node.total) (start m1 junk) true).2.1 = false) →
      stExit = (firstAll sources (List.range node.total) (start m1 junk) true).1 ∧
      stExit.calls
        = (List.range (firstAnswers sources (List.range node.total)
            (start m1 junk)).length).map IterCall.first ∧
      stExit.bodyInputs = []) := by
  obtain ⟨h1, _, _, _, h5, h6⟩ :=
    firstAll_answers sources (List.range node.total) (start m1 junk) true
  have hcalls : (firstAll sources (List.range node.total) (start m1 junk) true).1.calls
      = (List.range (firstAnswers sources (List.range node.total)
          (start m1 junk)).length).map IterCall.first := by
    rw [h1, List.take_range, Nat.min_eq_left (by simpa using h6)]
    rfl
  have hunf : atLoopend node sources pi junk fuel m1
      = if (firstAll sources (List.range node.total) (start m1 junk) true).2.2 = true then
          some (firstAll sources (List.range node.total) (start m1 junk) true).1
        else if (!(firstAll sources (List.range node.total) (start m1 junk) true).2.1) = true then
          some (firstAll sources (List.range node.total) (start m1 junk) true).1
        else loop node sources pi fuel
          (firstAll sources (List.range node.total) (start m1 junk) true).1 := rfl
  have hskip : (firstAll sources (List.range node.total) (start m1 junk) true).2.2 = true ∨
      (firstAll sources (List.range node.total) (start m1 junk) true).2.1 = false →
      stExit = (firstAll sources (List.range node.total) (start m1 junk) true).1 := by
    intro hcase
    rw [hunf] at hexit
    rcases hcase with hj | hn
    · rw [if_pos hj] at hexit
      exact (Option.some.inj hexit).symm
    · by_cases hj : (firstAll sources (List.range node.total) (start m1 junk) true).2.2 = true
      · rw [if_pos hj] at hexit
        exact (Option.some.inj hexit).symm
      · rw [if_neg hj, if_pos (by rw [hn]; rfl)] at hexit
        exact (Option.some.inj hexit).symm
  constructor
  · by_cases hcase : (firstAll sources (List.range node.total) (start m1 junk) true).2.2 = true ∨
        (firstAll sources (List.range node.total) (start m1 junk) true).2.1 = false
    · refine ⟨[], ?_, by simp⟩
      rw [hskip hcase, hcalls]
      simp
    · have hj : ¬ (firstAll sources (List.range node.total) (start m1 junk) true).2.2 = true :=
        fun h => hcase (Or.inl h)
      have hn : ¬ (firstAll sources (List.range node.total) (start m1 junk) true).2.1 = false :=
        fun h => hcase (Or.inr h)
      rw [hunf] at hexit
      rw [if_neg hj, if_neg (by simpa using hn)] at hexit
      obtain ⟨l, hl, hall⟩ := loop_inLoop node sources pi fuel _ stExit hexit
      exact ⟨l, by rw [hl, hcalls], hall⟩
  · intro hcase
    have hst := hskip hcase
    refine ⟨hst, by rw [hst, hcalls], ?_⟩
    rw [hst, h5]
    rfl

end SimNode_ForWithIterator

/-- C30, as stated, fails: with an empty first sequence, `first` on iterator 0
answers false, and `first` is still called on iterator 1 before the closes. -/
theorem for_first_after_false :
    SimNode_ForWithIterator.firstAnswers (fun t => emptyFirstIteratorAt (lockstepCells t))
      (List.range lockstepNode.total)
      (SimNode_ForWithIterator.start sampleMachine lockstepJunk) = [false, true] ∧
    (SimNode_ForWithIterator.eval lockstepNode emptyFirstIteratorAt lockstepJunk 2
        sampleMachine).map (fun r => r.2.calls)
      = some [IterCall.first 0, IterCall.first 1, IterCall.close 0, IterCall.close 1] := by
  refine ⟨by decide, by decide⟩

/-- C30, amended: once the sources have given the iterators, `first` is called on
the iterators in index order, on slots `0 .. j-1`, and on no iterator after that
phase.  A stop flag after a call of `first` sends the node to the close phase at
once, with no `first` on a later iterator; a `first` that answers false does not:
while no flag trips, `first` is called on all `total` iterators.  In both cases,
a tripped flag or a false answer, the body is never evaluated. -/
theorem for_first_phase (node : SimNode_ForWithIterator) (iteratorAt : Cell → Iterator)
    (junk : Nat → IteratorContext) (fuel : Nat) (m m1 : Machine) (cells : Nat → Cell)
    (stExit : ForState)
    (hsrc : SimNode_ForWithIterator.evalSources node (List.range node.total) m (fun _ => 0)
      = (m1, some cells))
    (hexit : SimNode_ForWithIterator.atLoopend node (fun t => iteratorAt (cells t))
      (SimNode_ForWithIterator.slot node m) junk fuel m1 = some stExit) :
    (SimNode_ForWithIterator.firstAnswers (fun t => iteratorAt (cells t))
        (List.range node.total) (SimNode_ForWithIterator.start m1 junk)).length
      ≤ node.total ∧
    (∃ l, stExit.calls
        = (List.range (SimNode_ForWithIterator.firstAnswers (fun t => iteratorAt (cells t))
            (List.range node.total)
            (SimNode_ForWithIterator.start m1 junk)).length).map IterCall.first ++ l ∧
      ∀ e ∈ l, IterCall.inLoop e) ∧
    ((SimNode_ForWithIterator.firstAll (fun t => iteratorAt (cells t))
        (List.range node.total) (SimNode_ForWithIterator.start m1 junk) true).2.2 = false →
      (SimNode_ForWithIterator.firstAnswers (fun t => iteratorAt (cells t))
        (List.range node.total) (SimNode_ForWithIterator.start m1 junk)).length
        = node.total) ∧
    ((SimNode_ForWithIterator.firstAll (fun t => iteratorAt (cells t))
        (List.range node.total) (SimNode_ForWithIterator.start m1 junk) true).2.2 = true →
      (SimNode_ForWithIterator.firstAll (fun t => iteratorAt (cells t))
        (List.range node.total)
        (SimNode_ForWithIterator.start m1 junk) true).1.machine.context.stopFlags ≠ 0 ∧
      stExit.calls
        = (List.range (SimNode_ForWithIterator.firstAnswers (fun t => iteratorAt (cells t))
            (List.range node.total)
            (SimNode_ForWithIterator.start m1 junk)).length).map IterCall.first ∧
      stExit.bodyInputs = []) ∧
    (false ∈ SimNode_ForWithIterator.firstAnswers (fun t => iteratorAt (cells t))
        (List.range node.total) (SimNode_ForWithIterator.start m1 junk) →
      stExit.calls
        = (List.range (SimNode_ForWithIterator.firstAnswers (fun t => iteratorAt (cells t))
            (List.range node.total)
            (SimNode_ForWithIterator.start m1 junk)).length).map IterCall.first ∧
      stExit.bodyInputs = []) ∧
    (SimNode_ForWithIterator.eval node iteratorAt junk fuel m).map (fun r => r.2.calls)
      = some (stExit.calls ++ (List.range node.total).map IterCall.close) ∧
    (SimNode_ForWithIterator.eval node iteratorAt junk fuel m).map
        (fun r => r.2.bodyInputs) = some stExit.bodyInputs := by
  obtain ⟨_, h2, h3, h4, _, h6⟩ :=
    SimNode_ForWithIterator.firstAll_answers (fun t => iteratorAt (cells t))
      (List.range node.total) (SimNode_ForWithIterator.start m1 junk) true
  obtain ⟨hc1, hc2⟩ := SimNode_ForWithIterator.atLoopend_calls node
    (fun t => iteratorAt (cells t)) (SimNode_ForWithIterator.slot node m) junk fuel m1
    stExit hexit
  refine ⟨by simpa using h6, hc1, ?_, ?_, ?_, ?_, ?_⟩
  · intro hj
    rw [h3 hj]
    simp
  · intro hj
    exact ⟨h4 hj, (hc2 (Or.inl hj)).2⟩
  · intro hfalse
    have hall : (SimNode_ForWithIterator.firstAnswers (fun t => iteratorAt (cells t))
        (List.range node.total) (SimNode_ForWithIterator.start m1 junk)).all id = false := by
      rw [List.all_eq_false]
      exact ⟨false, hfalse, by simp⟩
    have hn : (SimNode_ForWithIterator.firstAll (fun t => iteratorAt (cells t))
        (List.range node.total) (SimNode_ForWithIterator.start m1 junk) true).2.1 = false := by
      rw [h2, hall]
      rfl
    exact (hc2 (Or.inr hn)).2
  · rw [SimNode_ForWithIterator.eval_eq_atLoopend node iteratorAt junk fuel m m1 cells hsrc,
      hexit]
    show some (SimNode_ForWithIterator.loopend node (fun t => iteratorAt (cells t))
      stExit).calls = _
    rw [SimNode_ForWithIterator.loopend_calls]
  · rw [SimNode_ForWithIterator.eval_eq_atLoopend node iteratorAt junk fuel m m1 cells hsrc,
      hexit]
    show some (SimNode_ForWithIterator.loopend node (fun t => iteratorAt (cells t))
      stExit).bodyInputs = _
    rw [SimNode_ForWithIterator.loopend_bodyInputs]

/-- Witness for C30: when `first` on iterator 0 throws, the only call of `first`
is that one, the node goes to the close phase with the throw flag set, and the
body is never evaluated. -/
theorem for_first_phase_witness :
    SimNode_ForWithIterator.evalSources lockstepNode (List.range lockstepNode.total)
        sampleMachine (fun _ => 0) = (sampleMachine, some lockstepCells) ∧
    SimNode_ForWithIterator.firstAnswers (fun t => throwingFirstIteratorAt (lockstepCells t))
      (List.range lockstepNode.total)
      (SimNode_ForWithIterator.start sampleMachine lockstepJunk) = [false] ∧
    ∃ stExit,
      SimNode_ForWithIterator.atLoopend lockstepNode
        (fun t => throwingFirstIteratorAt (lockstepCells t))
        (SimNode_ForWithIterator.slot lockstepNode sampleMachine) lockstepJunk 2
        sampleMachine = some stExit ∧
      stExit.calls = [IterCall.first 0] ∧
      stExit.bodyInputs = [] ∧
      (SimNode_ForWithIterator.eval lockstepNode throwingFirstIteratorAt lockstepJunk 2
          sampleMachine).map (fun r => r.2.calls)
        = some (stExit.calls ++ (List.range lockstepNode.total).map IterCall.close) ∧
      (SimNode_ForWithIterator.eval lockstepNode throwingFirstIteratorAt lockstepJunk 2
          sampleMachine).map (fun r => r.2.bodyInputs) = some stExit.bodyInputs := by
  have hans : SimNode_ForWithIterator.firstAnswers
      (fun t => throwingFirstIteratorAt (lockstepCells t))
      (List.range lockstepNode.total)
      (SimNode_ForWithIterator.start sampleMachine lockstepJunk) = [false] := by decide
  obtain ⟨stExit, hexit⟩ := Option.isSome_iff_exists.1
    (show (SimNode_ForWithIterator.atLoopend lockstepNode
      (fun t => throwingFirstIteratorAt (lockstepCells t))
      (SimNode_ForWithIterator.slot lockstepNode sampleMachine) lockstepJunk 2
      sampleMachine).isSome = true by decide)
  have h := for_first_phase lockstepNode throwingFirstIteratorAt lockstepJunk 2 sampleMachine
    sampleMachine lockstepCells stExit rfl hexit
  have hfalse := h.2.2.2.2.1 (by rw [hans]; simp)
  rw [hans] at hfalse
  exact ⟨rfl, hans, stExit, hexit, hfalse.1, hfalse.2, h.2.2.2.2.2.1, h.2.2.2.2.2.2⟩

/-- Witness for C21: the arity-2 loop over A and B whose body is a `break`.  The
loop exits with the break flag set, and the node returns a zero cell with the
break flag clear and the other three bits as they were at the exit. -/
theorem for_clears_break_witness :
    SimNode_ForWithIterator.evalSources breakingNode (List.range breakingNode.total)
        sampleMachine (fun _ => 0) = (sampleMachine, some lockstepCells) ∧
    (SimNode_ForWithIterator.atLoopend breakingNode
        (fun t => lockstepIteratorAt (lockstepCells t))
        (SimNode_ForWithIterator.slot breakingNode sampleMachine) lockstepJunk 2
        sampleMachine).map (fun st => st.machine.context.stopFlags)
      = some EvalFlags.stopForBreak ∧
    ∃ stExit,
      SimNode_ForWithIterator.atLoopend breakingNode
        (fun t => lockstepIteratorAt (lockstepCells t))
        (SimNode_ForWithIterator.slot breakingNode sampleMachine) lockstepJunk 2
        sampleMachine = some stExit ∧
      SimNode_ForWithIterator.eval breakingNode lockstepIteratorAt lockstepJunk 2
          sampleMachine
        = some (_mm_setzero_ps,
            SimNode_ForWithIterator.loopend breakingNode
              (fun t => lockstepIteratorAt (lockstepCells t)) stExit) ∧
      (SimNode_ForWithIterator.loopend breakingNode
        (fun t => lockstepIteratorAt (lockstepCells t))
        stExit).machine.context.stopFlags &&& EvalFlags.stopForBreak = 0 ∧
      (SimNode_ForWithIterator.loopend breakingNode
          (fun t => lockstepIteratorAt (lockstepCells t))
          stExit).machine.context.stopFlags &&& EvalFlags.stopForReturn
        = stExit.machine.context.stopFlags &&& EvalFlags.stopForReturn ∧
      (SimNode_ForWithIterator.loopend breakingNode
          (fun t => lockstepIteratorAt (lockstepCells t))
          stExit).machine.context.stopFlags &&& EvalFlags.stopForThrow
        = stExit.machine.context.stopFlags &&& EvalFlags.stopForThrow ∧
      (SimNode_ForWithIterator.loopend breakingNode
          (fun t => lockstepIteratorAt (lockstepCells t))
          stExit).machine.context.stopFlags &&& EvalFlags.stopForTerminate
        = stExit.machine.context.stopFlags &&& EvalFlags.stopForTerminate := by
  obtain ⟨stExit, hexit⟩ := Option.isSome_iff_exists.1
    (show (SimNode_ForWithIterator.atLoopend breakingNode
      (fun t => lockstepIteratorAt (lockstepCells t))
      (SimNode_ForWithIterator.slot breakingNode sampleMachine) lockstepJunk 2
      sampleMachine).isSome = true by decide)
  have h := for_clears_break breakingNode lockstepIteratorAt lockstepJunk 2 sampleMachine
    sampleMachine lockstepCells stExit rfl hexit
  exact ⟨rfl, by decide, stExit, hexit, h.1, h.2.1, h.2.2 (fun _ _ _ _ => rfl)⟩

/-- C29, on the failing input: an arity-2 loop whose iterator 0 throws in `first`.
The flag check after that call jumps to `loopend`, which closes both iterators:
`close` is called on iterator 1, on which `first` was never called, with the
uninitialised `ph[1]`. -/
theorem for_closes_unfirsted :
    (SimNode_ForWithIterator.eval lockstepNode throwingFirstIteratorAt lockstepJunk 2
        sampleMachine).map (fun r => r.2.calls)
      = some [IterCall.first 0, IterCall.close 0, IterCall.close 1] ∧
    (SimNode_ForWithIterator.eval lockstepNode throwingFirstIteratorAt lockstepJunk 2
        sampleMachine).map (fun r => r.2.ph 1) = some (lockstepJunk 1) ∧
    (SimNode_ForWithIterator.eval lockstepNode throwingFirstIteratorAt lockstepJunk 2
        sampleMachine).map (fun r => r.2.machine.context.stopFlags)
      = some EvalFlags.stopForThrow := by
  refine ⟨by decide, by decide, by decide⟩

/-! ## The for-loop node: `next` after the body -/

/-- C31, on the failing inputs: the arity-2 loop over A and B with a body that
throws, and the same loop with a `break` as body.  The body is evaluated once and
leaves a stop flag set; `next` is then called on iterator 0, which advances to
its second element, before the closes. -/
theorem for_next_after_flagged_body :
    (SimNode_ForWithIterator.eval throwingBodyNode lockstepIteratorAt lockstepJunk 2
        sampleMachine).map (fun r => r.2.calls)
      = some [IterCall.first 0, IterCall.first 1, IterCall.body, IterCall.next 0,
          IterCall.close 0, IterCall.close 1] ∧
    (SimNode_ForWithIterator.eval throwingBodyNode lockstepIteratorAt lockstepJunk 2
        sampleMachine).map
        (fun r => r.2.bodyInputs.map
          (fun mj => (throwingBodyNode.body.eval mj).2.context.stopFlags))
      = some [EvalFlags.stopForThrow] ∧
    (SimNode_ForWithIterator.eval throwingBodyNode lockstepIteratorAt lockstepJunk 2
        sampleMachine).map (fun r => r.2.ph 0) = some { value := 2, tail := 1 } ∧
    (SimNode_ForWithIterator.eval breakingNode lockstepIteratorAt lockstepJunk 2
        sampleMachine).map (fun r => r.2.calls)
      = some [IterCall.first 0, IterCall.first 1, IterCall.body, IterCall.next 0,
          IterCall.close 0, IterCall.close 1] ∧
    (SimNode_ForWithIterator.eval breakingNode lockstepIteratorAt lockstepJunk 2
        sampleMachine).map
        (fun r => r.2.bodyInputs.map
          (fun mj => (breakingNode.body.eval mj).2.context.stopFlags))
      = some [EvalFlags.stopForBreak] := by
  refine ⟨by decide, by decide, by decide, by decide, by decide⟩

/-! ## The safe pointer-field node -/

/-- C34, on the failing input: base pointer 4096 and constant offset 8, with the
pointer 4660 stored at byte address 4104 and the pointer 22136 at byte address
4160.  `SimNode_SafeFieldDeref` with offset 8 computes the address 4104, and
`SimNode_SafeFieldDerefPtr` returns the pointer stored at 4096 + 8 * 8 = 4160,
not the one at 4104. -/
theorem safeFieldDerefPtr_offset_scaled :
    ((SimNode_SafeFieldDeref (SimNode_ConstValue 4096) 8).evalPtr pointerFieldMachine).1
      = 4104 ∧
    pointerFieldMachine.loadPtr 4104 = 4660 ∧
    pointerFieldMachine.loadPtr 4160 = 22136 ∧
    ((SimNode_SafeFieldDerefPtr (SimNode_ConstValue 4096) 8).evalPtr pointerFieldMachine).1
      = 22136 ∧
    ((SimNode_SafeFieldDerefPtr (SimNode_ConstValue 4096) 8).evalPtr
      pointerFieldMachine).2.context.stopFlags = 0 := by
  refine ⟨by decide, by decide, by decide, by decide, by decide⟩

/-! ## Compound assignment -/

/-- C32: the compound assignment nodes evaluate the left operand once through
`evalPtr`, then the right operand once on the machine the left one left, then
apply the policy to the pointer, the right value and the machine the right operand
left, and return the typed zero (`CTYPE()`, or a zeroed cell).  If a stop flag is
set after the left operand the result is the typed zero and the machine the left
operand left, for every right operand and policy (neither is used); if one is set
after the right operand it is the typed zero and the machine the right operand
left, for every policy: the node writes nothing to the pointee. -/
theorem op2_set_in_place {α : Type} (P : TypedPath α)
    (policy : Ptr → α → Machine → Machine) (cellPolicy : Ptr → Cell → Machine → Machine)
    (l r : SimNode) (m : Machine) :
    ((l.evalPtr m).2.context.stopFlags ≠ 0 →
      ∀ (r2 : SimNode) (policy2 : Ptr → α → Machine → Machine)
        (cellPolicy2 : Ptr → Cell → Machine → Machine),
        IMPLEMENT_OP2_SET_POLICY.compute P policy2 l r2 m = (P.zero, (l.evalPtr m).2) ∧
        IMPLEMENT_OP2_EVAL_SET_POLICY.eval cellPolicy2 l r2 m
          = (_mm_setzero_ps, (l.evalPtr m).2)) ∧
    ((l.evalPtr m).2.context.stopFlags = 0 →
      (P.get r (l.evalPtr m).2).2.context.stopFlags ≠ 0 →
      ∀ policy2 : Ptr → α → Machine → Machine,
        IMPLEMENT_OP2_SET_POLICY.compute P policy2 l r m
          = (P.zero, (P.get r (l.evalPtr m).2).2)) ∧
    ((l.evalPtr m).2.context.stopFlags = 0 →
      (r.eval (l.evalPtr m).2).2.context.stopFlags ≠ 0 →
      ∀ cellPolicy2 : Ptr → Cell → Machine → Machine,
        IMPLEMENT_OP2_EVAL_SET_POLICY.eval cellPolicy2 l r m
          = (_mm_setzero_ps, (r.eval (l.evalPtr m).2).2)) ∧
    ((l.evalPtr m).2.context.stopFlags = 0 →
      (P.get r (l.evalPtr m).2).2.context.stopFlags = 0 →
      IMPLEMENT_OP2_SET_POLICY.compute P policy l r m
        = (P.zero,
            policy (l.evalPtr m).1 (P.get r (l.evalPtr m).2).1 (P.get r (l.evalPtr m).2).2)) ∧
    ((l.evalPtr m).2.context.stopFlags = 0 →
      (r.eval (l.evalPtr m).2).2.context.stopFlags = 0 →
      IMPLEMENT_OP2_EVAL_SET_POLICY.eval cellPolicy l r m
        = (_mm_setzero_ps,
            cellPolicy (l.evalPtr m).1 (r.eval (l.evalPtr m).2).1
              (r.eval (l.evalPtr m).2).2)) ∧
    (IMPLEMENT_OP2_EVAL_SET_POLICY cellPolicy l r).eval m
      = IMPLEMENT_OP2_EVAL_SET_POLICY.eval cellPolicy l r m := by
  refine ⟨?_, ?_, ?_, ?_, ?_, rfl⟩
  · intro hl r2 policy2 cellPolicy2
    constructor
    · simp [IMPLEMENT_OP2_SET_POLICY.compute, hl]
    · simp [IMPLEMENT_OP2_EVAL_SET_POLICY.eval, hl]
  · intro hl hr policy2
    simp [IMPLEMENT_OP2_SET_POLICY.compute, hl, hr]
  · intro hl hr cellPolicy2
    simp [IMPLEMENT_OP2_EVAL_SET_POLICY.eval, hl, hr]
  · intro hl hr
    simp [IMPLEMENT_OP2_SET_POLICY.compute, hl, hr]
  · intro hl hr
    simp [IMPLEMENT_OP2_EVAL_SET_POLICY.eval, hl, hr]

/-- Witness for C32: `*p += 8` on the `int32_t` 42 at address 4096 leaves 50
there and returns 0; with a left operand that throws, the 42 stays. -/
theorem op2_set_in_place_witness :
    ((SimNode_ConstValue 4096).evalPtr valueMachine).2.context.stopFlags = 0 ∧
    (TypedPath.int.get (SimNode_ConstValue 8)
      ((SimNode_ConstValue 4096).evalPtr valueMachine).2).2.context.stopFlags = 0 ∧
    IMPLEMENT_OP2_SET_POLICY.compute TypedPath.int SimPolicy_int32_t.SetAdd
        (SimNode_ConstValue 4096) (SimNode_ConstValue 8) valueMachine
      = (0, SimPolicy_int32_t.SetAdd 4096 8 valueMachine) ∧
    valueMachine.loadInt 4096 = 42 ∧
    (SimPolicy_int32_t.SetAdd 4096 8 valueMachine).loadInt 4096 = 50 ∧
    (throwingNode.evalPtr valueMachine).2.context.stopFlags ≠ 0 ∧
    IMPLEMENT_OP2_SET_POLICY.compute TypedPath.int SimPolicy_int32_t.SetAdd
        throwingNode (SimNode_ConstValue 8) valueMachine
      = (0, (throwingNode.evalPtr valueMachine).2) ∧
    (throwingNode.evalPtr valueMachine).2.loadInt 4096 = 42 :=
  ⟨rfl, rfl,
    (op2_set_in_place TypedPath.int SimPolicy_int32_t.SetAdd (fun _ _ mm => mm)
      (SimNode_ConstValue 4096) (SimNode_ConstValue 8) valueMachine).2.2.2.1 rfl rfl,
    by decide, by decide, by decide,
    ((op2_set_in_place TypedPath.int SimPolicy_int32_t.SetAdd (fun _ _ mm => mm)
      throwingNode (SimNode_ConstValue 8) valueMachine).1 (by decide)
      (SimNode_ConstValue 8) SimPolicy_int32_t.SetAdd (fun _ _ mm => mm)).1,
    by decide⟩

/-! ## Copy nodes -/

theorem loadLE_lt (memory : Int → Nat) (p : Int) (n : Nat) : loadLE memory p n < 256 ^ n := by
  induction n generalizing p with
  | zero => simp [loadLE]
  | succ n ih =>
    unfold loadLE
    have h1 := ih (p + 1)
    have h2 : memory p % 256 < 256 := Nat.mod_lt _ (by decide)
    rw [Nat.pow_succ]
    omega

theorem storeLE_outside (memory : Int → Nat) (p q : Int) (n v : Nat)
    (h : q < p ∨ p + (n : Int) ≤ q) : storeLE memory p n v q = memory q := by
  unfold storeLE
  have hc : ¬ (p ≤ q ∧ q < p + (n : Int)) := by omega
  rw [if_neg hc]

/-- C33: assignment and stop flags.  `SimNode_CopyValue<T>` and
`SimNode_CopyRefValueT<T>` evaluate the destination pointer and then the source on
the machine the destination left.  With a stop flag after the destination the
node returns zero with the machine the destination left, for every source (which
is not evaluated); with one after the source it returns zero with the machine the
source left; in both cases the node writes nothing.  Otherwise the context is the
one the source left, the `sizeof(T)` bytes at the destination read back as the
source value (the low `sizeof(T)` bytes of the source cell, or the `sizeof(T)`
bytes at the source pointer), and every byte outside them is unchanged.  `eval`
returns a zero cell and `evalPtr` null in every case. -/
theorem copy_atomic (T : ValueType) (l r : SimNode) (m : Machine) :
    ((l.evalPtr m).2.context.stopFlags ≠ 0 →
      ∀ r2 : SimNode,
        SimNode_CopyValue.eval T l r2 m = (_mm_setzero_ps, (l.evalPtr m).2) ∧
        SimNode_CopyValue.evalPtr T l r2 m = (nullptr, (l.evalPtr m).2) ∧
        SimNode_CopyRefValueT.eval T l r2 m = (_mm_setzero_ps, (l.evalPtr m).2)) ∧
    ((l.evalPtr m).2.context.stopFlags = 0 →
      (r.eval (l.evalPtr m).2).2.context.stopFlags ≠ 0 →
      SimNode_CopyValue.eval T l r m = (_mm_setzero_ps, (r.eval (l.evalPtr m).2).2) ∧
      SimNode_CopyValue.evalPtr T l r m = (nullptr, (r.eval (l.evalPtr m).2).2)) ∧
    ((l.evalPtr m).2.context.stopFlags = 0 →
      (r.evalPtr (l.evalPtr m).2).2.context.stopFlags ≠ 0 →
      SimNode_CopyRefValueT.eval T l r m
        = (_mm_setzero_ps, (r.evalPtr (l.evalPtr m).2).2)) ∧
    ((l.evalPtr m).2.context.stopFlags = 0 →
      (r.eval (l.evalPtr m).2).2.context.stopFlags = 0 →
      SimNode_CopyValue.evalPtr T l r m
        = (nullptr, (SimNode_CopyValue.eval T l r m).2) ∧
      (SimNode_CopyValue.eval T l r m).2.context = (r.eval (l.evalPtr m).2).2.context ∧
      loadLE (SimNode_CopyValue.eval T l r m).2.memory (l.evalPtr m).1 T.sizeOf
        = (r.eval (l.evalPtr m).2).1 % 256 ^ T.sizeOf ∧
      ∀ q : Ptr, q < (l.evalPtr m).1 ∨ (l.evalPtr m).1 + (T.sizeOf : Int) ≤ q →
        (SimNode_CopyValue.eval T l r m).2.memory q
          = (r.eval (l.evalPtr m).2).2.memory q) ∧
    ((l.evalPtr m).2.context.stopFlags = 0 →
      (r.evalPtr (l.evalPtr m).2).2.context.stopFlags = 0 →
      (SimNode_CopyRefValueT.eval T l r m).2.context
        = (r.evalPtr (l.evalPtr m).2).2.context ∧
      loadLE (SimNode_CopyRefValueT.eval T l r m).2.memory (l.evalPtr m).1 T.sizeOf
        = loadLE (r.evalPtr (l.evalPtr m).2).2.memory (r.evalPtr (l.evalPtr m).2).1
            T.sizeOf ∧
      ∀ q : Ptr, q < (l.evalPtr m).1 ∨ (l.evalPtr m).1 + (T.sizeOf : Int) ≤ q →
        (SimNode_CopyRefValueT.eval T l r m).2.memory q
          = (r.evalPtr (l.evalPtr m).2).2.memory q) ∧
    (SimNode_CopyValue T l r).eval m = SimNode_CopyValue.eval T l r m ∧
    (SimNode_CopyValue T l r).evalPtr m = SimNode_CopyValue.evalPtr T l r m ∧
    (SimNode_CopyRefValueT T l r).eval m = SimNode_CopyRefValueT.eval T l r m ∧
    ((SimNode_CopyValue T l r).eval m).1 = _mm_setzero_ps ∧
    ((SimNode_CopyValue T l r).evalPtr m).1 = nullptr ∧
    ((SimNode_CopyRefValueT T l r).eval m).1 = _mm_setzero_ps ∧
    ((SimNode_CopyRefValueT T l r).evalPtr m).1 = nullptr := by
  have hv : (SimNode_CopyValue.eval T l r m).1 = _mm_setzero_ps := by
    unfold SimNode_CopyValue.eval
    simp only
    split
    · rfl
    · split <;> rfl
  have hp : (SimNode_CopyValue.evalPtr T l r m).1 = nullptr := by
    unfold SimNode_CopyValue.evalPtr
    simp only
    split
    · rfl
    · split <;> rfl
  have hr : (SimNode_CopyRefValueT.eval T l r m).1 = _mm_setzero_ps := by
    unfold SimNode_CopyRefValueT.eval
    simp only
    split
    · rfl
    · split <;> rfl
  refine ⟨?_, ?_, ?_, ?_, ?_, rfl, rfl, rfl, hv, hp, hr, ?_⟩
  · intro hl r2
    refine ⟨?_, ?_, ?_⟩
    · simp [SimNode_CopyValue.eval, hl]
    · simp [SimNode_CopyValue.evalPtr, hl]
    · simp [SimNode_CopyRefValueT.eval, hl]
  · intro hl hs
    constructor
    · simp [SimNode_CopyValue.eval, hl, hs]
    · simp [SimNode_CopyValue.evalPtr, hl, hs]
  · intro hl hs
    simp [SimNode_CopyRefValueT.eval, hl, hs]
  · intro hl hs
    have he : SimNode_CopyValue.eval T l r m
        = (_mm_setzero_ps,
            (r.eval (l.evalPtr m).2).2.storeValue T (l.evalPtr m).1
              (r.eval (l.evalPtr m).2).1) := by
      simp [SimNode_CopyValue.eval, hl, hs]
    have hq : SimNode_CopyValue.evalPtr T l r m
        = (nullptr,
            (r.eval (l.evalPtr m).2).2.storeValue T (l.evalPtr m).1
              (r.eval (l.evalPtr m).2).1) := by
      simp [SimNode_CopyValue.evalPtr, hl, hs]
    rw [he, hq]
    refine ⟨rfl, rfl, ?_, ?_⟩
    · exact loadLE_storeLE_same _ _ _ _
    · intro q hq2
      exact storeLE_outside _ _ _ _ _ hq2
  · intro hl hs
    have he : SimNode_CopyRefValueT.eval T l r m
        = (_mm_setzero_ps,
            (r.evalPtr (l.evalPtr m).2).2.storeValue T (l.evalPtr m).1
              (loadLE (r.evalPtr (l.evalPtr m).2).2.memory (r.evalPtr (l.evalPtr m).2).1
                T.sizeOf)) := by
      simp [SimNode_CopyRefValueT.eval, hl, hs]
    rw [he]
    refine ⟨rfl, ?_, ?_⟩
    · show loadLE (storeLE _ _ _ _) _ _ = _
      rw [loadLE_storeLE_same]
      exact Nat.mod_eq_of_lt (loadLE_lt _ _ _)
    · intro q hq2
      exact storeLE_outside _ _ _ _ _ hq2
  · show cast_ptr_to (SimNode_CopyRefValueT.eval T l r m).1 = nullptr
    rw [hr]
    rfl

/-- Witness for C33: copying the cell 7 as an `int32_t` to address 4096 leaves 7
there and the neighbouring byte untouched; with a destination that throws, the
42 at 4096 stays and the node returns a zero cell. -/
theorem copy_atomic_witness :
    ((SimNode_ConstValue 4096).evalPtr valueMachine).2.context.stopFlags = 0 ∧
    ((SimNode_ConstValue 7).eval
      ((SimNode_ConstValue 4096).evalPtr valueMachine).2).2.context.stopFlags = 0 ∧
    loadLE (SimNode_CopyValue.eval int32Type (SimNode_ConstValue 4096) (SimNode_ConstValue 7)
      valueMachine).2.memory 4096 4 = 7 ∧
    (throwingNode.evalPtr valueMachine).2.context.stopFlags ≠ 0 ∧
    SimNode_CopyValue.eval int32Type throwingNode (SimNode_ConstValue 7) valueMachine
      = (_mm_setzero_ps, (throwingNode.evalPtr valueMachine).2) ∧
    (throwingNode.evalPtr valueMachine).2.loadInt 4096 = 42 :=
  ⟨rfl, rfl,
    ((copy_atomic int32Type (SimNode_ConstValue 4096) (SimNode_ConstValue 7)
      valueMachine).2.2.2.1 rfl rfl).2.2.1,
    by decide,
    ((copy_atomic int32Type throwingNode (SimNode_ConstValue 7) valueMachine).1 (by decide)
      (SimNode_ConstValue 7)).1,
    by decide⟩

/-! ## The first error wins -/

/-- C35: the first error wins.  If the child of `SimNode_At` (its base),
`SimNode_PtrFieldDeref`, `SimNode_PtrFieldDerefR2V` or `SimNode_Ptr2Ref` leaves a
stop flag set, the node returns null (a zero cell from `eval`) with the machine
the child left, so without a call of `throw_error`, and `getException()`
afterwards is what it was after the child; for `SimNode_At` this holds for every
index child, which is not evaluated.  If the base of `SimNode_At` leaves no flag
and its index child leaves one, the node returns null with the machine the index
child left. -/
theorem first_error_wins (T : ValueType) (value index : SimNode)
    (offset stride range : Nat) (m : Machine) :
    ((value.evalPtr m).2.context.stopFlags ≠ 0 →
      (∀ index2 : SimNode,
        SimNode_At.compute value index2 stride range m = (nullptr, (value.evalPtr m).2)) ∧
      SimNode_PtrFieldDeref.compute value offset m = (nullptr, (value.evalPtr m).2) ∧
      SimNode_PtrFieldDerefR2V.eval T value offset m
        = (_mm_setzero_ps, (value.evalPtr m).2) ∧
      SimNode_PtrFieldDerefR2V.evalPtr value offset m = (nullptr, (value.evalPtr m).2) ∧
      SimNode_Ptr2Ref.compute value m = (nullptr, (value.evalPtr m).2) ∧
      (SimNode_At.compute value index stride range m).2.context.getException
        = (value.evalPtr m).2.context.getException ∧
      (SimNode_PtrFieldDeref.compute value offset m).2.context.getException
        = (value.evalPtr m).2.context.getException ∧
      (SimNode_PtrFieldDerefR2V.eval T value offset m).2.context.getException
        = (value.evalPtr m).2.context.getException ∧
      (SimNode_PtrFieldDerefR2V.evalPtr value offset m).2.context.getException
        = (value.evalPtr m).2.context.getException ∧
      (SimNode_Ptr2Ref.compute value m).2.context.getException
        = (value.evalPtr m).2.context.getException) ∧
    ((value.evalPtr m).2.context.stopFlags = 0 →
      (index.eval (value.evalPtr m).2).2.context.stopFlags ≠ 0 →
      SimNode_At.compute value index stride range m
        = (nullptr, (index.eval (value.evalPtr m).2).2) ∧
      (SimNode_At.compute value index stride range m).2.context.getException
        = (index.eval (value.evalPtr m).2).2.context.getException) := by
  constructor
  · intro hf
    have h1 : ∀ index2 : SimNode,
        SimNode_At.compute value index2 stride range m = (nullptr, (value.evalPtr m).2) := by
      intro index2
      simp [SimNode_At.compute, hf]
    have h2 : SimNode_PtrFieldDeref.compute value offset m
        = (nullptr, (value.evalPtr m).2) := by
      simp [SimNode_PtrFieldDeref.compute, hf]
    have h3 : SimNode_PtrFieldDerefR2V.eval T value offset m
        = (_mm_setzero_ps, (value.evalPtr m).2) := by
      simp [SimNode_PtrFieldDerefR2V.eval, hf]
    have h4 : SimNode_PtrFieldDerefR2V.evalPtr value offset m
        = (nullptr, (value.evalPtr m).2) := by
      simp [SimNode_PtrFieldDerefR2V.evalPtr, hf]
    have h5 : SimNode_Ptr2Ref.compute value m = (nullptr, (value.evalPtr m).2) := by
      simp [SimNode_Ptr2Ref.compute, hf]
    refine ⟨h1, h2, h3, h4, h5, ?_, ?_, ?_, ?_, ?_⟩
    · rw [h1 index]
    · rw [h2]
    · rw [h3]
    · rw [h4]
    · rw [h5]
  · intro h0 hf
    have h1 : SimNode_At.compute value index stride range m
        = (nullptr, (index.eval (value.evalPtr m).2).2) := by
      simp [SimNode_At.compute, h0, hf]
    exact ⟨h1, by rw [h1]⟩

/-- Witness for C35: over the child `10 / 0`, which throws "divide by zero" and
yields a null pointer, the index node with an index beyond its range and the
pointer nodes all return null and `getException()` still returns
"divide by zero". -/
theorem first_error_wins_witness :
    (divideByZeroNode.evalPtr sampleMachine).2.context.stopFlags ≠ 0 ∧
    (divideByZeroNode.evalPtr sampleMachine).2.context.getException
      = some "divide by zero" ∧
    (SimNode_At.compute divideByZeroNode (SimNode_ConstValue 7) 4 3
      sampleMachine).2.context.getException = some "divide by zero" ∧
    (SimNode_PtrFieldDeref.compute divideByZeroNode 8
      sampleMachine).2.context.getException = some "divide by zero" ∧
    (SimNode_Ptr2Ref.compute divideByZeroNode sampleMachine).1 = nullptr ∧
    (SimNode_Ptr2Ref.compute divideByZeroNode
      sampleMachine).2.context.getException = some "divide by zero" := by
  have h := (first_error_wins int32Type divideByZeroNode (SimNode_ConstValue 7) 8 4 3
    sampleMachine).1 (by decide)
  have hmsg : (divideByZeroNode.evalPtr sampleMachine).2.context.getException
      = some "divide by zero" := by decide
  refine ⟨by decide, hmsg, ?_, ?_, ?_, ?_⟩
  · rw [h.2.2.2.2.2.1, hmsg]
  · rw [h.2.2.2.2.2.2.1, hmsg]
  · rw [h.2.2.2.2.1]
  · rw [h.2.2.2.2.2.2.2.2.2, hmsg]

/-! ## The for-loop node: termination -/

namespace SimNode_ForWithIterator

theorem nextAll_rank (sources : Nat → Iterator) (rank : IteratorContext → Nat) (t : Nat)
    (hnext : ∀ m itc, ((sources t).next m itc).1 = true →
      rank ((sources t).next m itc).2.2 < rank itc)
    (ts : List Nat) (st : ForState) (hgo : (nextAll sources ts st).2 = false) :
    rank ((nextAll sources ts st).1.ph t) ≤ rank (st.ph t) ∧
    (t ∈ ts → rank ((nextAll sources ts st).1.ph t) < rank (st.ph t)) := by
  induction ts generalizing st with
  | nil => exact ⟨le_refl _, fun h => absurd h (List.not_mem_nil t)⟩
  | cons a ts ih =>
    unfold nextAll at hgo ⊢
    simp only at hgo ⊢
    by_cases hans : ((sources a).next st.machine (st.ph a)).1 = true
    · have hn : ¬ ((!((sources a).next st.machine (st.ph a)).1) = true) := by simp [hans]
      rw [if_neg hn] at hgo ⊢
      by_cases hflag : ((sources a).next st.machine (st.ph a)).2.1.context.stopFlags ≠ 0
      · rw [if_pos hflag] at hgo
        cases hgo
      · rw [if_neg hflag] at hgo ⊢
        obtain ⟨ih1, ih2⟩ := ih _ hgo
        by_cases hta : t = a
        · subst hta
          have hlt := hnext st.machine (st.ph t) hans
          have hph : rank (Function.update st.ph t
              ((sources t).next st.machine (st.ph t)).2.2 t) < rank (st.ph t) := by
            rw [Function.update_same]
            exact hlt
          exact ⟨le_of_lt (lt_of_le_of_lt ih1 hph), fun _ => lt_of_le_of_lt ih1 hph⟩
        · have hph : Function.update st.ph a ((sources a).next st.machine (st.ph a)).2.2 t
              = st.ph t := Function.update_noteq hta _ _
          have ih1b : rank ((nextAll sources ts
              { st with
                machine := ((sources a).next st.machine (st.ph a)).2.1
                ph := Function.update st.ph a ((sources a).next st.machine (st.ph a)).2.2
                calls := st.calls ++ [IterCall.next a] }).1.ph t)
              ≤ rank (Function.update st.ph a
                ((sources a).next st.machine (st.ph a)).2.2 t) := ih1
          have ih2b : t ∈ ts → rank ((nextAll sources ts
              { st with
                machine := ((sources a).next st.machine (st.ph a)).2.1
                ph := Function.update st.ph a ((sources a).next st.machine (st.ph a)).2.2
                calls := st.calls ++ [IterCall.next a] }).1.ph t)
              < rank (Function.update st.ph a
                ((sources a).next st.machine (st.ph a)).2.2 t) := ih2
          rw [hph] at ih1b ih2b
          refine ⟨ih1b, fun hmem => ih2b ?_⟩
          rcases List.mem_cons.1 hmem with h | h
          · exact absurd h hta
          · exact h
    · have hn : (!((sources a).next st.machine (st.ph a)).1) = true := by simpa using hans
      rw [if_pos hn] at hgo
      cases hgo

theorem firstAll_rank (sources : Nat → Iterator) (rank : IteratorContext → Nat) (t k : Nat)
    (hfirst : ∀ m itc, ((sources t).first m itc).1 = true →
      rank ((sources t).first m itc).2.2 ≤ k)
    (ts : List Nat) (st : ForState) (needLoop : Bool)
    (hneed : (firstAll sources ts st needLoop).2.1 = true)
    (hgo : (firstAll sources ts st needLoop).2.2 = false)
    (hcase : t ∈ ts ∨ rank (st.ph t) ≤ k) :
    rank ((firstAll sources ts st needLoop).1.ph t) ≤ k := by
  induction ts generalizing st needLoop with
  | nil =>
    rcases hcase with h | h
    · exact absurd h (List.not_mem_nil t)
    · exact h
  | cons a ts ih =>
    unfold firstAll at hneed hgo ⊢
    simp only at hneed hgo ⊢
    by_cases hflag : ((sources a).first st.machine (st.ph a)).2.1.context.stopFlags ≠ 0
    · rw [if_pos hflag] at hgo
      cases hgo
    · rw [if_neg hflag] at hneed hgo ⊢
      apply ih _ _ hneed hgo
      have hin : (((sources a).first st.machine (st.ph a)).1 && needLoop) = true := by
        have h2 := (firstAll_answers sources ts
          { st with
            machine := ((sources a).first st.machine (st.ph a)).2.1
            ph := Function.update st.ph a ((sources a).first st.machine (st.ph a)).2.2
            calls := st.calls ++ [IterCall.first a] }
          (((sources a).first st.machine (st.ph a)).1 && needLoop)).2.1
        rw [hneed] at h2
        cases hb : (((sources a).first st.machine (st.ph a)).1 && needLoop)
        · rw [hb] at h2
          simp at h2
        · rfl
      have hans : ((sources a).first st.machine (st.ph a)).1 = true := by
        cases hb : ((sources a).first st.machine (st.ph a)).1
        · rw [hb] at hin
          simp at hin
        · rfl
      by_cases hta : t = a
      · subst hta
        right
        show rank (Function.update st.ph t ((sources t).first st.machine (st.ph t)).2.2 t) ≤ k
        rw [Function.update_same]
        exact hfirst st.machine (st.ph t) hans
      · have hph : Function.update st.ph a ((sources a).first st.machine (st.ph a)).2.2 t
            = st.ph t := Function.update_noteq hta _ _
        rcases hcase with h | h
        · left
          rcases List.mem_cons.1 h with h2 | h2
          · exact absurd h2 hta
          · exact h2
        · right
          show rank (Function.update st.ph a
            ((sources a).first st.machine (st.ph a)).2.2 t) ≤ k
          rw [hph]
          exact h

theorem loop_terminates (node : SimNode_ForWithIterator) (sources : Nat → Iterator)
    (pi : Nat → Ptr) (rank : IteratorContext → Nat) (t : Nat) (ht : t < node.total)
    (hnext : ∀ m itc, ((sources t).next m itc).1 = true →
      rank ((sources t).next m itc).2.2 < rank itc)
    (n : Nat) (st : ForState) (hrank : rank (st.ph t) ≤ n) :
    ∃ st2, loop node sources pi (n + 1) st = some st2 ∧
      st2.bodyInputs.length ≤ st.bodyInputs.length + (n + 1) := by
  induction n generalizing st with
  | zero =>
    unfold loop
    simp only
    by_cases hflag : st.machine.context.stopFlags ≠ 0
    · rw [if_pos hflag]
      exact ⟨st, rfl, by omega⟩
    · rw [if_neg hflag]
      split
      · refine ⟨_, rfl, ?_⟩
        rw [nextAll_bodyInputs]
        simp
      · next hgo =>
        have hgo2 := (nextAll_rank sources rank t hnext (List.range node.total) _
          (by simpa using hgo)).2 (List.mem_range.2 ht)
        have hlt : rank (st.ph t) = 0 := by omega
        rw [hlt] at hgo2
        exact absurd hgo2 (Nat.not_lt_zero _)
  | succ n ih =>
    rw [loop]
    simp only
    by_cases hflag : st.machine.context.stopFlags ≠ 0
    · rw [if_pos hflag]
      exact ⟨st, rfl, by omega⟩
    · rw [if_neg hflag]
      split
      · refine ⟨_, rfl, ?_⟩
        rw [nextAll_bodyInputs]
        simp
      · next hgo =>
        have hgo2 := (nextAll_rank sources rank t hnext (List.range node.total) _
          (by simpa using hgo)).2 (List.mem_range.2 ht)
        obtain ⟨st2, h1, h2⟩ := ih _ (by
          have h3 : rank (st.ph t) ≤ n + 1 := hrank
          exact Nat.le_of_lt_succ (lt_of_lt_of_le hgo2 h3))
        refine ⟨st2, h1, ?_⟩
        rw [nextAll_bodyInputs] at h2
        simp at h2
        omega

end SimNode_ForWithIterator

theorem listIterator_stopsWithin (xs : List Cell) :
    (listIterator xs).StopsWithin (listIterator.rank xs) (xs.length - 1) where
  first_rank := by
    intro m itc _
    show xs.length - 1 - 0 ≤ xs.length - 1
    omega
  next_rank := by
    intro m itc h
    have h3 : decide ((itc.tail : Nat) + 1 < xs.length) = true := h
    have h2 : (itc.tail : Nat) + 1 < xs.length := of_decide_eq_true h3
    have key : ∀ n a : Nat, a + 1 < n → n - 1 - (a + 1) < n - 1 - a := by
      intro n a hna
      omega
    exact key xs.length itc.tail h2

/-- C36: for-loop termination.  Sources, iterator operations and the body are
total functions here, so each of them terminates.  If, whenever the sources
evaluate without a stop flag, the iterator in some slot `t < total` answers true
to `next` at most `k` times after its `first`, then `eval` returns within `k + 1`
rounds of the main loop, and with every larger bound it returns the same result:
a zero cell after at most `k + 1` evaluations of the body. -/
theorem for_terminates (node : SimNode_ForWithIterator) (iteratorAt : Cell → Iterator)
    (junk : Nat → IteratorContext) (m : Machine) (t k : Nat)
    (rank : IteratorContext → Nat) (ht : t < node.total)
    (hstop : ∀ (m1 : Machine) (cells : Nat → Cell),
      SimNode_ForWithIterator.evalSources node (List.range node.total) m (fun _ => 0)
        = (m1, some cells) →
      (iteratorAt (cells t)).StopsWithin rank k) :
    ∃ r, SimNode_ForWithIterator.eval node iteratorAt junk (k + 1) m = some r ∧
      r.1 = _mm_setzero_ps ∧
      r.2.bodyInputs.length ≤ k + 1 ∧
      ∀ fuel, k + 1 ≤ fuel →
        SimNode_ForWithIterator.eval node iteratorAt junk fuel m = some r := by
  have hmono : ∀ r, SimNode_ForWithIterator.eval node iteratorAt junk (k + 1) m = some r →
      ∀ fuel, k + 1 ≤ fuel →
        SimNode_ForWithIterator.eval node iteratorAt junk fuel m = some r :=
    fun r h fuel hle =>
      SimNode_ForWithIterator.eval_fuel_mono node iteratorAt junk (k + 1) fuel hle m r h
  cases hrs : SimNode_ForWithIterator.evalSources node (List.range node.total) m
      (fun _ => 0) with
  | mk m1 oc =>
    cases oc with
    | none =>
      have he : SimNode_ForWithIterator.eval node iteratorAt junk (k + 1) m
          = some (_mm_setzero_ps,
              { machine := m1, ph := junk, calls := [], bodyInputs := [] }) := by
        unfold SimNode_ForWithIterator.eval
        simp only [hrs]
      exact ⟨_, he, rfl, Nat.zero_le _, hmono _ he⟩
    | some cells =>
      have hS := hstop m1 cells hrs
      obtain ⟨_, h2, _, _, h5, _⟩ :=
        SimNode_ForWithIterator.firstAll_answers (fun u => iteratorAt (cells u))
          (List.range node.total) (SimNode_ForWithIterator.start m1 junk) true
      have hunf : SimNode_ForWithIterator.atLoopend node (fun u => iteratorAt (cells u))
          (SimNode_ForWithIterator.slot node m) junk (k + 1) m1
          = if (SimNode_ForWithIterator.firstAll (fun u => iteratorAt (cells u))
                (List.range node.total)
                (SimNode_ForWithIterator.start m1 junk) true).2.2 = true then
              some (SimNode_ForWithIterator.firstAll (fun u => iteratorAt (cells u))
                (List.range node.total) (SimNode_ForWithIterator.start m1 junk) true).1
            else if (!(SimNode_ForWithIterator.firstAll (fun u => iteratorAt (cells u))
                (List.range node.total)
                (SimNode_ForWithIterator.start m1 junk) true).2.1) = true then
              some (SimNode_ForWithIterator.firstAll (fun u => iteratorAt (cells u))
                (List.range node.total) (SimNode_ForWithIterator.start m1 junk) true).1
            else SimNode_ForWithIterator.loop node (fun u => iteratorAt (cells u))
              (SimNode_ForWithIterator.slot node m) (k + 1)
              (SimNode_ForWithIterator.firstAll (fun u => iteratorAt (cells u))
                (List.range node.total)
                (SimNode_ForWithIterator.start m1 junk) true).1 := rfl
      have hexit : ∃ stExit,
          SimNode_ForWithIterator.atLoopend node (fun u => iteratorAt (cells u))
            (SimNode_ForWithIterator.slot node m) junk (k + 1) m1 = some stExit ∧
          stExit.bodyInputs.length ≤ k + 1 := by
        rw [hunf]
        by_cases hj : (SimNode_ForWithIterator.firstAll (fun u => iteratorAt (cells u))
            (List.range node.total) (SimNode_ForWithIterator.start m1 junk) true).2.2 = true
        · rw [if_pos hj]
          refine ⟨_, rfl, ?_⟩
          rw [h5]
          exact Nat.zero_le _
        · rw [if_neg hj]
          by_cases hn : (!(SimNode_ForWithIterator.firstAll (fun u => iteratorAt (cells u))
              (List.range node.total)
              (SimNode_ForWithIterator.start m1 junk) true).2.1) = true
          · rw [if_pos hn]
            refine ⟨_, rfl, ?_⟩
            rw [h5]
            exact Nat.zero_le _
          · rw [if_neg hn]
            have hrank := SimNode_ForWithIterator.firstAll_rank
              (fun u => iteratorAt (cells u)) rank t k hS.first_rank
              (List.range node.total) (SimNode_ForWithIterator.start m1 junk) true
              (by simpa using hn) (by simpa using hj) (Or.inl (List.mem_range.2 ht))
            obtain ⟨st2, hl, hlen⟩ := SimNode_ForWithIterator.loop_terminates node
              (fun u => iteratorAt (cells u)) (SimNode_ForWithIterator.slot node m) rank t ht
              hS.next_rank k _ hrank
            refine ⟨st2, hl, ?_⟩
            rw [h5] at hlen
            have hzero : (SimNode_ForWithIterator.start m1 junk).bodyInputs.length = 0 := rfl
            rw [hzero, Nat.zero_add] at hlen
            exact hlen
      obtain ⟨stExit, hex, hlen⟩ := hexit
      have he : SimNode_ForWithIterator.eval node iteratorAt junk (k + 1) m
          = some (_mm_setzero_ps,
              SimNode_ForWithIterator.loopend node (fun u => iteratorAt (cells u))
                stExit) := by
        rw [SimNode_ForWithIterator.eval_eq_atLoopend node iteratorAt junk (k + 1) m m1
          cells hrs, hex]
        rfl
      refine ⟨_, he, rfl, ?_, hmono _ he⟩
      show (SimNode_ForWithIterator.loopend node (fun u => iteratorAt (cells u))
        stExit).bodyInputs.length ≤ k + 1
      rw [SimNode_ForWithIterator.loopend_bodyInputs]
      exact hlen

/-- Witness for C36: in the loop over A = [1,2,3,4] and B = ["x","y"] the `next` of
the iterator over B answers false after one successful call (k = 1); the node
returns within two rounds, after exactly two evaluations of the body. -/
theorem for_terminates_witness :
    1 < lockstepNode.total ∧
    (lockstepIteratorAt (lockstepCells 1)).StopsWithin (listIterator.rank [120, 121]) 1 ∧
    (SimNode_ForWithIterator.eval lockstepNode lockstepIteratorAt lockstepJunk 2
        sampleMachine).map (fun r => r.2.bodyInputs.length) = some 2 ∧
    ∃ r, SimNode_ForWithIterator.eval lockstepNode lockstepIteratorAt lockstepJunk (1 + 1)
        sampleMachine = some r ∧
      r.1 = _mm_setzero_ps ∧
      r.2.bodyInputs.length ≤ 1 + 1 ∧
      ∀ fuel, 1 + 1 ≤ fuel →
        SimNode_ForWithIterator.eval lockstepNode lockstepIteratorAt lockstepJunk fuel
          sampleMachine = some r :=
  ⟨by decide, listIterator_stopsWithin [120, 121], by decide,
    for_terminates lockstepNode lockstepIteratorAt lockstepJunk sampleMachine 1 1
      (listIterator.rank [120, 121]) (by decide)
      (fun m1 cells h => by
        have h2 : (sampleMachine, some lockstepCells) = (m1, some cells) := h
        have h3 : lockstepCells = cells := by
          injection h2 with _ h4
          injection h4
        rw [← h3]
        exact listIterator_stopsWithin [120, 121])⟩

/-! ## The parser: reserved names and comma sequences -/

/-- C38: reserved names.  `das_checkName(name, at)` adds one report, with the code
`invalid_name`, the position `at` and a message that ends in the name, when
`name` has at least two characters and the first two are both an underscore, and
otherwise leaves the program as it was; so a call makes at most one report, and
it makes one with the code `invalid_name` if and only if the name starts with two
underscores.  The names "", "_", "_x" and "x__" are accepted without a report. -/
theorem reserved_names (name : String) (at_ : LineInfo) (g_Program : Program) :
    (das_checkName name at_ g_Program).errors
      = g_Program.errors ++
        (if 2 ≤ name.length ∧ name.data[0]? = some '_' ∧ name.data[1]? = some '_' then
          [{ what := "names starting with __ are reserved, " ++ name, extra := "",
             fixme := "", at_ := at_, cerr := CompilationError.invalid_name }]
        else []) ∧
    (das_checkName name at_ g_Program).errors.length ≤ g_Program.errors.length + 1 ∧
    ((∃ e ∈ (das_checkName name at_ g_Program).errors.drop g_Program.errors.length,
        e.cerr = CompilationError.invalid_name)
      ↔ 2 ≤ name.length ∧ name.data[0]? = some '_' ∧ name.data[1]? = some '_') ∧
    ((das_checkName name at_ g_Program).errors.drop g_Program.errors.length ≠ []
      ↔ 2 ≤ name.length ∧ name.data[0]? = some '_' ∧ name.data[1]? = some '_') ∧
    das_checkName "" at_ g_Program = g_Program ∧
    das_checkName "_" at_ g_Program = g_Program ∧
    das_checkName "_x" at_ g_Program = g_Program ∧
    das_checkName "x__" at_ g_Program = g_Program ∧
    (das_checkName "__x" at_ g_Program).errors
      = g_Program.errors ++
        [{ what := "names starting with __ are reserved, __x", extra := "", fixme := "",
           at_ := at_, cerr := CompilationError.invalid_name }] := by
  have hcond : (name.length ≥ 2 ∧ charAt name 0 = '_' ∧ charAt name 1 = '_')
      ↔ (2 ≤ name.length ∧ name.data[0]? = some '_' ∧ name.data[1]? = some '_') := by
    rcases name with ⟨data⟩
    rcases data with _ | ⟨a, _ | ⟨b, rest⟩⟩ <;> simp [charAt, String.length]
  have herr : (das_checkName name at_ g_Program).errors
      = g_Program.errors ++
        (if 2 ≤ name.length ∧ name.data[0]? = some '_' ∧ name.data[1]? = some '_' then
          [{ what := "names starting with __ are reserved, " ++ name, extra := "",
             fixme := "", at_ := at_, cerr := CompilationError.invalid_name }]
        else []) := by
    unfold das_checkName
    by_cases h : name.length ≥ 2 ∧ charAt name 0 = '_' ∧ charAt name 1 = '_'
    · rw [if_pos h, if_pos (hcond.1 h)]
      rfl
    · rw [if_neg h, if_neg (fun h2 => h (hcond.2 h2))]
      simp
  refine ⟨herr, ?_, ?_, ?_, rfl, rfl, rfl, rfl, rfl⟩
  · rw [herr]
    split <;> simp
  · rw [herr, List.drop_left]
    split
    · next h => simp [h]
    · next h => simp [h]
  · rw [herr, List.drop_left]
    split
    · next h => simp [h]
    · next h => simp [h]

theorem Expression.sequenceNodes_of_not_sequence (e : Expression)
    (h : e.rtti_isSequence = false) : e.sequenceNodes = 0 := by
  cases e with
  | ExprSequence l r => simp [Expression.rtti_isSequence] at h
  | other tag => rfl

theorem sequenceToList.loop_foldl (ndebug : Bool) (e1 : Expression) (es : List Expression)
    (h1 : e1.rtti_isSequence = false) (hes : ∀ e ∈ es, e.rtti_isSequence = false)
    (argList : List Expression) :
    sequenceToList.loop ndebug (es.foldl Expression.ExprSequence e1) argList
      = Except.ok (argList ++ es.reverse, e1) := by
  induction es using List.reverseRecOn generalizing argList with
  | nil =>
    cases e1 with
    | ExprSequence l r => simp [Expression.rtti_isSequence] at h1
    | other tag => simp [sequenceToList.loop]
  | append_singleton l a ih =>
    have ha : a.rtti_isSequence = false := hes a (by simp)
    have hl : ∀ e ∈ l, e.rtti_isSequence = false :=
      fun e he => hes e (List.mem_append_left _ he)
    rw [List.foldl_append]
    show sequenceToList.loop ndebug
      (Expression.ExprSequence (l.foldl Expression.ExprSequence e1) a) argList = _
    have hassert : DAS_ASSERT ndebug (!a.rtti_isSequence) "!pSeq->right->rtti_isSequence()"
        = Except.ok () := by
      simp [DAS_ASSERT, ha]
    rw [sequenceToList.loop, hassert]
    simp only
    rw [ih hl]
    simp

theorem Expression.sequenceNodes_foldl (e1 : Expression) (es : List Expression)
    (h1 : e1.rtti_isSequence = false) (hes : ∀ e ∈ es, e.rtti_isSequence = false) :
    (es.foldl Expression.ExprSequence e1).sequenceNodes = es.length := by
  induction es using List.reverseRecOn with
  | nil => exact Expression.sequenceNodes_of_not_sequence e1 h1
  | append_singleton l a ih =>
    have ha : a.rtti_isSequence = false := hes a (by simp)
    have hl : ∀ e ∈ l, e.rtti_isSequence = false :=
      fun e he => hes e (List.mem_append_left _ he)
    rw [List.foldl_append]
    show (l.foldl Expression.ExprSequence e1).sequenceNodes + a.sequenceNodes + 1 = _
    rw [ih hl, Expression.sequenceNodes_of_not_sequence a ha]
    simp

/-- C37: `sequenceToList` flattens a comma sequence in source order.  For
expressions `e1, e2, ..., en`, none of them a sequence, the left-nested sequence
`((e1, e2), ..., en)` gives the list `[e1, e2, ..., en]`, whose length is the
number of sequence nodes plus one; for `n = 1` the expression is `e1` itself, not
a sequence, and the list is `[e1]`.  No assertion fails, the function returns in
both builds, and `parseFunctionArguments` stores exactly that list as the
arguments of the call. -/
theorem sequence_flattens (ndebug : Bool) (e1 : Expression) (es : List Expression)
    (pCall : ExprLooksLikeCall)
    (h1 : e1.rtti_isSequence = false) (hes : ∀ e ∈ es, e.rtti_isSequence = false) :
    sequenceToList ndebug (es.foldl Expression.ExprSequence e1) = Except.ok (e1 :: es) ∧
    (e1 :: es).length = (es.foldl Expression.ExprSequence e1).sequenceNodes + 1 ∧
    sequenceToList ndebug e1 = Except.ok [e1] ∧
    parseFunctionArguments ndebug pCall (es.foldl Expression.ExprSequence e1)
      = Except.ok { pCall with arguments := e1 :: es } := by
  have hlist : sequenceToList ndebug (es.foldl Expression.ExprSequence e1)
      = Except.ok (e1 :: es) := by
    unfold sequenceToList
    rw [sequenceToList.loop_foldl ndebug e1 es h1 hes []]
    split
    · simp
    · next hns =>
      have hnil : es = [] := by
        induction es using List.reverseRecOn with
        | nil => rfl
        | append_singleton l a _ =>
          rw [List.foldl_append] at hns
          exact absurd rfl hns
      subst hnil
      rfl
  refine ⟨hlist, ?_, ?_, ?_⟩
  · rw [Expression.sequenceNodes_foldl e1 es h1 hes]
    simp
  · unfold sequenceToList
    rw [h1]
    rfl
  · unfold parseFunctionArguments
    rw [hlist]

/-- Witness for C37: the sequence `((a, b), c)` gives `[a, b, c]`, two sequence
nodes and three elements. -/
theorem sequence_flattens_witness :
    sequenceToList false
        (Expression.ExprSequence
          (Expression.ExprSequence (Expression.other 1) (Expression.other 2))
          (Expression.other 3))
      = Except.ok [Expression.other 1, Expression.other 2, Expression.other 3] ∧
    parseFunctionArguments false { name := "f", arguments := [] }
        (Expression.ExprSequence
          (Expression.ExprSequence (Expression.other 1) (Expression.other 2))
          (Expression.other 3))
      = Except.ok
          { name := "f"
            arguments := [Expression.other 1, Expression.other 2, Expression.other 3] } :=
  ⟨(sequence_flattens false (Expression.other 1) [Expression.other 2, Expression.other 3]
      { name := "f", arguments := [] } rfl (by decide)).1,
    (sequence_flattens false (Expression.other 1) [Expression.other 2, Expression.other 3]
      { name := "f", arguments := [] } rfl (by decide)).2.2.2⟩

/-! ## The parser: `varDeclToTypeDecl` -/

theorem TypeDecl.pushArgType_fields (t v : TypeDecl) :
    (t.pushArgType v).argTypes = t.argTypes ++ [v] ∧
    (t.pushArgType v).argNames = t.argNames ∧
    (t.pushArgType v).baseType = t.baseType := by
  cases t
  exact ⟨rfl, rfl, rfl⟩

theorem TypeDecl.pushArgName_fields (t : TypeDecl) (name : String) :
    (t.pushArgName name).argTypes = t.argTypes ∧
    (t.pushArgName name).argNames = t.argNames ++ [name] ∧
    (t.pushArgName name).baseType = t.baseType := by
  cases t
  exact ⟨rfl, rfl, rfl⟩

theorem varDeclToTypeDecl.addArgument_ok (needNames : Bool) (pDecl : VariableDeclaration)
    (typeDecl : TypeDecl) (ai : Nat) (st : TypeDecl × Program × Bool)
    (hinit : pDecl.pInit.isSome = true → pDecl.pNameList.isSome = true) :
    ∃ st1, varDeclToTypeDecl.addArgument needNames pDecl typeDecl ai st = some st1 ∧
      st1.1 = st.1.pushArgType typeDecl ∧
      (st1.2.2 = true ↔ st.2.2 = true ∨
        (needNames = true ∧ ∃ names, pDecl.pNameList = some names ∧
          (names.getD ai ("", LineInfo.mk 0 0 0 0)).1 ≠ "")) := by
  unfold varDeclToTypeDecl.addArgument
  cases hN : pDecl.pNameList with
  | none =>
    have hI : pDecl.pInit.isSome = false := by
      cases hI2 : pDecl.pInit.isSome
      · rfl
      · have := hinit hI2
        rw [hN] at this
        cases this
    simp [hI]
  | some names =>
    cases hI : pDecl.pInit.isSome <;> cases needNames <;> cases hb : st.2.2 <;> simp [hb]

theorem varDeclToTypeDecl.arguments_ok (needNames : Bool) (pDecl : VariableDeclaration)
    (typeDecl : TypeDecl)
    (hinit : pDecl.pInit.isSome = true → pDecl.pNameList.isSome = true)
    (indices : List Nat) (st : TypeDecl × Program × Bool) :
    ∃ st1, varDeclToTypeDecl.arguments needNames pDecl typeDecl indices st = some st1 ∧
      st1.1.argTypes = st.1.argTypes ++ List.replicate indices.length typeDecl ∧
      st1.1.argNames = st.1.argNames ∧
      st1.1.baseType = st.1.baseType ∧
      (st1.2.2 = true ↔ st.2.2 = true ∨
        (needNames = true ∧ ∃ names, pDecl.pNameList = some names ∧
          ∃ ai ∈ indices, (names.getD ai ("", LineInfo.mk 0 0 0 0)).1 ≠ "")) := by
  induction indices generalizing st with
  | nil => exact ⟨st, rfl, by simp, rfl, rfl, by simp⟩
  | cons ai rest ih =>
    obtain ⟨st1, h1, h2, h3⟩ :=
      varDeclToTypeDecl.addArgument_ok needNames pDecl typeDecl ai st hinit
    obtain ⟨st2, k1, k2, k3, k4, k5⟩ := ih st1
    obtain ⟨p1, p2, p3⟩ := TypeDecl.pushArgType_fields st.1 typeDecl
    refine ⟨st2, ?_, ?_, ?_, ?_, ?_⟩
    · unfold varDeclToTypeDecl.arguments
      rw [h1]
      exact k1
    · rw [k2, h2, p1]
      simp [List.replicate_succ]
    · rw [k3, h2, p2]
    · rw [k4, h2, p3]
    · rw [k5, h3]
      constructor
      · rintro ((h | ⟨hn, names, hnames, hne⟩) | ⟨hn, names, hnames, a, ha, hne⟩)
        · exact Or.inl h
        · exact Or.inr ⟨hn, names, hnames, ai, List.mem_cons_self _ _, hne⟩
        · exact Or.inr ⟨hn, names, hnames, a, List.mem_cons_of_mem _ ha, hne⟩
      · rintro (h | ⟨hn, names, hnames, a, ha, hne⟩)
        · exact Or.inl (Or.inl h)
        · rcases List.mem_cons.1 ha with rfl | ha2
          · exact Or.inl (Or.inr ⟨hn, names, hnames, hne⟩)
          · exact Or.inr ⟨hn, names, hnames, a, ha2, hne⟩

theorem exists_index_iff_exists_mem (names : List (String × LineInfo)) :
    (∃ ai ∈ List.range names.length, (names.getD ai ("", LineInfo.mk 0 0 0 0)).1 ≠ "")
      ↔ ∃ name ∈ names, name.1 ≠ "" := by
  constructor
  · rintro ⟨ai, hai, hne⟩
    have hlt : ai < names.length := List.mem_range.1 hai
    refine ⟨names[ai], List.getElem_mem _, ?_⟩
    rw [List.getD_eq_getElem _ _ hlt] at hne
    exact hne
  · rintro ⟨name, hmem, hne⟩
    obtain ⟨i, hi, hget⟩ := List.getElem_of_mem hmem
    refine ⟨i, List.mem_range.2 hi, ?_⟩
    rw [List.getD_eq_getElem _ _ hi, hget]
    exact hne

theorem varDeclToTypeDecl.types_ok (needNames : Bool) (list : List VariableDeclaration)
    (hinit : ∀ pDecl ∈ list, pDecl.pTypeDecl.isSome = true → pDecl.pInit.isSome = true →
      pDecl.pNameList.isSome = true)
    (st : TypeDecl × Program × Bool) :
    ∃ st1, varDeclToTypeDecl.types needNames list st = some st1 ∧
      st1.1.argTypes = st.1.argTypes ++ declaredTypes list ∧
      st1.1.argNames = st.1.argNames ∧
      st1.1.baseType = st.1.baseType ∧
      (st1.2.2 = true ↔ st.2.2 = true ∨ (needNames = true ∧ carriesName list)) := by
  induction list generalizing st with
  | nil =>
    refine ⟨st, rfl, by simp [declaredTypes], rfl, rfl, ?_⟩
    simp [carriesName]
  | cons pDecl rest ih =>
    have hrest : ∀ d ∈ rest, d.pTypeDecl.isSome = true → d.pInit.isSome = true →
        d.pNameList.isSome = true :=
      fun d hd => hinit d (List.mem_cons_of_mem _ hd)
    cases hT : pDecl.pTypeDecl with
    | none =>
      obtain ⟨st1, k1, k2, k3, k4, k5⟩ := ih hrest st
      refine ⟨st1, ?_, ?_, k3, k4, ?_⟩
      · unfold varDeclToTypeDecl.types
        simp only [hT]
        exact k1
      · rw [k2]
        simp only [declaredTypes, hT]
      · rw [k5]
        have hc : carriesName (pDecl :: rest) ↔ carriesName rest := by
          unfold carriesName
          constructor
          · rintro ⟨d, hd, hty, hx⟩
            rcases List.mem_cons.1 hd with rfl | hd2
            · rw [hT] at hty
              cases hty
            · exact ⟨d, hd2, hty, hx⟩
          · rintro ⟨d, hd, hty, hx⟩
            exact ⟨d, List.mem_cons_of_mem _ hd, hty, hx⟩
        rw [hc]
    | some typeDecl =>
      have hi : pDecl.pInit.isSome = true → pDecl.pNameList.isSome = true :=
        hinit pDecl (List.mem_cons_self _ _) (by rw [hT]; rfl)
      obtain ⟨st1, a1, a2, a3, a4, a5⟩ := varDeclToTypeDecl.arguments_ok needNames pDecl
        typeDecl hi (List.range (varDeclToTypeDecl.count pDecl)) st
      obtain ⟨st2, k1, k2, k3, k4, k5⟩ := ih hrest st1
      refine ⟨st2, ?_, ?_, ?_, ?_, ?_⟩
      · unfold varDeclToTypeDecl.types
        simp only [hT, a1]
        exact k1
      · rw [k2, a2]
        simp only [declaredTypes, hT, List.length_range, List.append_assoc]
      · rw [k3, a3]
      · rw [k4, a4]
      · rw [k5, a5]
        have hhere : (∃ names, pDecl.pNameList = some names ∧
            ∃ ai ∈ List.range (varDeclToTypeDecl.count pDecl),
              (names.getD ai ("", LineInfo.mk 0 0 0 0)).1 ≠ "")
            ↔ ∃ names, pDecl.pNameList = some names ∧ ∃ name ∈ names, name.1 ≠ "" := by
          constructor
          · rintro ⟨names, hn, hx⟩
            have hcount : varDeclToTypeDecl.count pDecl = names.length := by
              unfold varDeclToTypeDecl.count
              rw [hn]
            rw [hcount] at hx
            exact ⟨names, hn, (exists_index_iff_exists_mem names).1 hx⟩
          · rintro ⟨names, hn, hx⟩
            have hcount : varDeclToTypeDecl.count pDecl = names.length := by
              unfold varDeclToTypeDecl.count
              rw [hn]
            rw [hcount]
            exact ⟨names, hn, (exists_index_iff_exists_mem names).2 hx⟩
        rw [hhere]
        unfold carriesName
        constructor
        · rintro ((h | ⟨hn, hx⟩) | ⟨hn, d, hd, hty, hx⟩)
          · exact Or.inl h
          · exact Or.inr ⟨hn, pDecl, List.mem_cons_self _ _, by rw [hT]; rfl, hx⟩
          · exact Or.inr ⟨hn, d, List.mem_cons_of_mem _ hd, hty, hx⟩
        · rintro (h | ⟨hn, d, hd, hty, hx⟩)
          · exact Or.inl (Or.inl h)
          · rcases List.mem_cons.1 hd with rfl | hd2
            · exact Or.inl (Or.inr ⟨hn, hx⟩)
            · exact Or.inr ⟨hn, d, hd2, hty, hx⟩

theorem foldl_pushArgName_fields (names : List (String × LineInfo)) (pType : TypeDecl) :
    (names.foldl (fun t name => t.pushArgName name.1) pType).argTypes = pType.argTypes ∧
    (names.foldl (fun t name => t.pushArgName name.1) pType).argNames.length
      = pType.argNames.length + names.length ∧
    (names.foldl (fun t name => t.pushArgName name.1) pType).baseType = pType.baseType := by
  induction names generalizing pType with
  | nil => exact ⟨rfl, rfl, rfl⟩
  | cons a rest ih =>
    obtain ⟨h1, h2, h3⟩ := ih (pType.pushArgName a.1)
    obtain ⟨p1, p2, p3⟩ := TypeDecl.pushArgName_fields pType a.1
    refine ⟨?_, ?_, ?_⟩
    · rw [List.foldl_cons, h1, p1]
    · rw [List.foldl_cons, h2, p2]
      simp
      omega
    · rw [List.foldl_cons, h3, p3]

theorem varDeclToTypeDecl.names_fields (list : List VariableDeclaration) (pType : TypeDecl) :
    (varDeclToTypeDecl.names list pType).argTypes = pType.argTypes ∧
    (varDeclToTypeDecl.names list pType).argNames.length
      = pType.argNames.length + (declaredTypes list).length ∧
    (varDeclToTypeDecl.names list pType).baseType = pType.baseType := by
  induction list generalizing pType with
  | nil => exact ⟨rfl, rfl, rfl⟩
  | cons pDecl rest ih =>
    cases hT : pDecl.pTypeDecl with
    | none =>
      obtain ⟨h1, h2, h3⟩ := ih pType
      simp only [varDeclToTypeDecl.names, declaredTypes, hT]
      exact ⟨h1, h2, h3⟩
    | some typeDecl =>
      cases hN : pDecl.pNameList with
      | none =>
        obtain ⟨h1, h2, h3⟩ := ih (pType.pushArgName "")
        obtain ⟨p1, p2, p3⟩ := TypeDecl.pushArgName_fields pType ""
        simp only [varDeclToTypeDecl.names, declaredTypes, hT, hN, varDeclToTypeDecl.count]
        refine ⟨by rw [h1, p1], ?_, by rw [h3, p3]⟩
        rw [h2, p2]
        simp
        omega
      | some names =>
        obtain ⟨h1, h2, h3⟩ := ih (names.foldl (fun t name => t.pushArgName name.1) pType)
        obtain ⟨p1, p2, p3⟩ := foldl_pushArgName_fields names pType
        simp only [varDeclToTypeDecl.names, declaredTypes, hT, hN, varDeclToTypeDecl.count]
        refine ⟨by rw [h1, p1], ?_, by rw [h3, p3]⟩
        rw [h2, p2]
        simp
        omega

theorem declaredTypes_pos_of_carriesName (list : List VariableDeclaration)
    (h : carriesName list) : 0 < (declaredTypes list).length := by
  induction list with
  | nil =>
    obtain ⟨d, hd, _⟩ := h
    cases hd
  | cons pDecl rest ih =>
    obtain ⟨d, hd, hty, names, hn, name, hmem, _⟩ := h
    rcases List.mem_cons.1 hd with rfl | hd2
    · cases hT : d.pTypeDecl with
      | none =>
        rw [hT] at hty
        cases hty
      | some typeDecl =>
        have hpos : 0 < names.length := List.length_pos_of_mem hmem
        simp only [declaredTypes, hT, varDeclToTypeDecl.count, hn, List.length_append,
          List.length_replicate]
        omega
    · have hrest := ih ⟨d, hd2, hty, names, hn, name, hmem, ‹_›⟩
      cases hT : pDecl.pTypeDecl with
      | none =>
        simp only [declaredTypes, hT]
        exact hrest
      | some typeDecl =>
        simp only [declaredTypes, hT, List.length_append]
        omega

/-- C39: `varDeclToTypeDecl` keeps argument names and types aligned.  For a type
declaration whose `argTypes` and `argNames` are empty, and declarations in which
an initialiser comes only with a name list (as in every declaration the grammar
builds), the function returns; `argTypes` is then one copy of the type for each
declared name of every declaration that has a type, one copy for a typed
declaration without a name list, in declaration order; `argNames` is empty or as
long as `argTypes`; and `argNames` is non-empty if and only if `needNames` is true
and some declaration with a type carries a non-empty name. -/
theorem varDecl_names_aligned (pType : TypeDecl) (list : List VariableDeclaration)
    (needNames : Bool) (g_Program : Program)
    (hT : pType.argTypes = []) (hN : pType.argNames = [])
    (hinit : ∀ pDecl ∈ list, pDecl.pTypeDecl.isSome = true → pDecl.pInit.isSome = true →
      pDecl.pNameList.isSome = true) :
    ∃ r, varDeclToTypeDecl pType list needNames g_Program = some r ∧
      r.1.argTypes = declaredTypes list ∧
      (r.1.argNames = [] ∨ r.1.argNames.length = r.1.argTypes.length) ∧
      (r.1.argNames ≠ [] ↔ needNames = true ∧ carriesName list) ∧
      r.1.baseType = pType.baseType := by
  obtain ⟨st, k1, k2, k3, k4, k5⟩ :=
    varDeclToTypeDecl.types_ok needNames list hinit (pType, g_Program, false)
  have k2b : st.1.argTypes = declaredTypes list := by
    rw [k2]
    show pType.argTypes ++ declaredTypes list = declaredTypes list
    rw [hT]
    rfl
  have k3b : st.1.argNames = [] := by
    rw [k3]
    exact hN
  have k5b : st.2.2 = true ↔ needNames = true ∧ carriesName list := by
    rw [k5]
    simp
  have hr : varDeclToTypeDecl pType list needNames g_Program
      = some (if st.2.2 then varDeclToTypeDecl.names list st.1 else st.1, st.2.1) := by
    unfold varDeclToTypeDecl
    rw [k1]
  refine ⟨_, hr, ?_⟩
  obtain ⟨n1, n2, n3⟩ := varDeclToTypeDecl.names_fields list st.1
  cases hany : st.2.2 with
  | false =>
    simp only [Bool.false_eq_true, if_false]
    refine ⟨k2b, Or.inl k3b, ?_, k4⟩
    rw [← k5b, hany]
    simp [k3b]
  | true =>
    simp only [if_true]
    have hlen : (varDeclToTypeDecl.names list st.1).argNames.length
        = (varDeclToTypeDecl.names list st.1).argTypes.length := by
      rw [n2, n1, k3b, k2b]
      simp
    refine ⟨by rw [n1, k2b], Or.inr hlen, ?_, by rw [n3, k4]⟩
    rw [← k5b, hany]
    have hpos := declaredTypes_pos_of_carriesName list (k5b.1 hany).2
    have hlen2 : 0 < (varDeclToTypeDecl.names list st.1).argNames.length := by
      rw [n2, k3b]
      simpa using hpos
    constructor
    · intro _
      rfl
    · intro _ hnil
      rw [hnil] at hlen2
      exact absurd hlen2 (by simp)

/-- Witness for C39: the declarations `a, b : int`, an unnamed `float` and an
untyped `c` give the argument types `int, int, float` and, with `needNames`, the
argument names "a", "b", ""; without `needNames` no names are stored. -/
theorem varDecl_names_aligned_witness :
    varDeclToTypeDecl (TypeDecl.mk 0 [] []) sampleDeclarations true { errors := [] }
      = some (TypeDecl.mk 0 [TypeDecl.mk 7 [] [], TypeDecl.mk 7 [] [], TypeDecl.mk 9 [] []]
          ["a", "b", ""], { errors := [] }) ∧
    varDeclToTypeDecl (TypeDecl.mk 0 [] []) sampleDeclarations false { errors := [] }
      = some (TypeDecl.mk 0 [TypeDecl.mk 7 [] [], TypeDecl.mk 7 [] [], TypeDecl.mk 9 [] []]
          [], { errors := [] }) ∧
    ∃ r, varDeclToTypeDecl (TypeDecl.mk 0 [] []) sampleDeclarations true { errors := [] }
        = some r ∧
      r.1.argTypes = declaredTypes sampleDeclarations ∧
      (r.1.argNames = [] ∨ r.1.argNames.length = r.1.argTypes.length) ∧
      (r.1.argNames ≠ [] ↔ true = true ∧ carriesName sampleDeclarations) ∧
      r.1.baseType = (TypeDecl.mk 0 [] []).baseType :=
  ⟨rfl, rfl,
    varDecl_names_aligned (TypeDecl.mk 0 [] []) sampleDeclarations true { errors := [] }
      rfl rfl (by
        intro pDecl hmem _ hI
        simp only [sampleDeclarations, List.mem_cons, List.mem_singleton,
          List.not_mem_nil, or_false] at hmem
        rcases hmem with rfl | rfl | rfl <;> cases hI)⟩

/-! ## The for-loop node: closure -/

namespace SimNode_ForWithIterator

theorem closeAll_eq_closedOnce (sources : Nat → Iterator) (ts : List Nat) (st : ForState) :
    ((closeAll sources ts st).machine, (closeAll sources ts st).ph)
      = closedOnce sources ts (st.machine, st.ph) := by
  induction ts generalizing st with
  | nil => rfl
  | cons t ts ih =>
    unfold closeAll
    simp only [closedOnce, List.foldl_cons]
    exact ih _

theorem loopend_eq_closedOnce (node : SimNode_ForWithIterator) (sources : Nat → Iterator)
    (st : ForState) :
    (loopend node sources st).ph
      = (closedOnce sources (List.range node.total) (st.machine, st.ph)).2 ∧
    (loopend node sources st).machine.memory
      = (closedOnce sources (List.range node.total) (st.machine, st.ph)).1.memory ∧
    (loopend node sources st).machine.context
      = { (closedOnce sources (List.range node.total) (st.machine, st.ph)).1.context with
          stopFlags :=
            (closedOnce sources (List.range node.total)
              (st.machine, st.ph)).1.context.stopFlags
              &&& (2 ^ 32 - 1 - EvalFlags.stopForBreak) } := by
  have h := closeAll_eq_closedOnce sources (List.range node.total) st
  rw [← h]
  exact ⟨rfl, rfl, rfl⟩

end SimNode_ForWithIterator

/-- C20: iterator closure.  Whenever the for-loop node returns, on whatever exit
path, its record of calls is either empty (a source raised a stop flag, so no
`first` was called) or some calls of `first`, `next` and the body followed by one
`close` on each of the `total` iterators; so every iterator on which `first` was
called has received exactly one `close` call when the node returns.  The result
is the same for every larger bound on the rounds of the loop.  The closes are
calls of `Iterator::close`: when a source raised a flag the node returns the
machine the sources left, and otherwise the memory, the context and `ph` it
returns are those of the state at the loop exit after one call of `close` on each
iterator in index order, with the break flag cleared. -/
theorem for_closes_once (node : SimNode_ForWithIterator) (iteratorAt : Cell → Iterator)
    (junk : Nat → IteratorContext) (fuel : Nat) (m : Machine) (r : Cell × ForState)
    (h : SimNode_ForWithIterator.eval node iteratorAt junk fuel m = some r) :
    (r.2.calls = [] ∨
      ∃ l, r.2.calls = l ++ (List.range node.total).map IterCall.close ∧
        ∀ e ∈ l, IterCall.beforeClose node.total e) ∧
    (∀ fuel2, fuel ≤ fuel2 →
      SimNode_ForWithIterator.eval node iteratorAt junk fuel2 m = some r) ∧
    (∀ t, IterCall.first t ∈ r.2.calls → r.2.calls.count (IterCall.close t) = 1) ∧
    (∀ m1 : Machine,
      SimNode_ForWithIterator.evalSources node (List.range node.total) m (fun _ => 0)
        = (m1, none) →
      r.2.calls = [] ∧ r.2.machine = m1 ∧ r.2.ph = junk) ∧
    (∀ (m1 : Machine) (cells : Nat → Cell),
      SimNode_ForWithIterator.evalSources node (List.range node.total) m (fun _ => 0)
        = (m1, some cells) →
      ∃ stExit,
        SimNode_ForWithIterator.atLoopend node (fun t => iteratorAt (cells t))
          (SimNode_ForWithIterator.slot node m) junk fuel m1 = some stExit ∧
        r.2.calls = stExit.calls ++ (List.range node.total).map IterCall.close ∧
        r.2.ph
          = (closedOnce (fun t => iteratorAt (cells t)) (List.range node.total)
              (stExit.machine, stExit.ph)).2 ∧
        r.2.machine.memory
          = (closedOnce (fun t => iteratorAt (cells t)) (List.range node.total)
              (stExit.machine, stExit.ph)).1.memory ∧
        r.2.machine.context
          = { (closedOnce (fun t => iteratorAt (cells t)) (List.range node.total)
                (stExit.machine, stExit.ph)).1.context with
              stopFlags :=
                (closedOnce (fun t => iteratorAt (cells t)) (List.range node.total)
                  (stExit.machine, stExit.ph)).1.context.stopFlags
                  &&& (2 ^ 32 - 1 - EvalFlags.stopForBreak) }) := by
  have hc := SimNode_ForWithIterator.eval_calls node iteratorAt junk fuel m r h
  refine ⟨hc, fun fuel2 hle =>
    SimNode_ForWithIterator.eval_fuel_mono node iteratorAt junk fuel fuel2 hle m r h, ?_,
    ?_, ?_⟩
  · intro t ht
    rcases hc with hnil | ⟨l, hl, hall⟩
    · rw [hnil] at ht
      cases ht
    · rw [hl] at ht ⊢
      exact SimNode_ForWithIterator.count_close_of_phases node.total l hall t ht
  · intro m1 hsrc
    have he : SimNode_ForWithIterator.eval node iteratorAt junk fuel m
        = some (_mm_setzero_ps,
            { machine := m1, ph := junk, calls := [], bodyInputs := [] }) := by
      unfold SimNode_ForWithIterator.eval
      simp only [hsrc]
    rw [he] at h
    have hr := Option.some.inj h
    rw [← hr]
    exact ⟨rfl, rfl, rfl⟩
  · intro m1 cells hsrc
    rw [SimNode_ForWithIterator.eval_eq_atLoopend node iteratorAt junk fuel m m1 cells
      hsrc] at h
    cases hexit : SimNode_ForWithIterator.atLoopend node (fun t => iteratorAt (cells t))
        (SimNode_ForWithIterator.slot node m) junk fuel m1 with
    | none =>
      rw [hexit] at h
      cases h
    | some stExit =>
      rw [hexit] at h
      have hr : (_mm_setzero_ps,
          SimNode_ForWithIterator.loopend node (fun t => iteratorAt (cells t)) stExit)
          = r := Option.some.inj h
      rw [← hr]
      obtain ⟨k1, k2, k3⟩ := SimNode_ForWithIterator.loopend_eq_closedOnce node
        (fun t => iteratorAt (cells t)) stExit
      exact ⟨stExit, rfl,
        SimNode_ForWithIterator.loopend_calls node (fun t => iteratorAt (cells t)) stExit,
        k1, k2, k3⟩

/-- Witness for C20: in the lockstep scenario, which ends when B is exhausted,
and in the same loop with a `break` as body, `first` is called on both
iterators and each is closed exactly once, after all other calls.  With the
iterators that count their calls in memory, the counter of `close` of each
iterator is 0 at the loop exit and 1 when the node returns, on both exit
paths. -/
theorem for_closes_once_witness :
    (SimNode_ForWithIterator.eval lockstepNode lockstepIteratorAt lockstepJunk 2
        sampleMachine).map (fun r => r.2.calls)
      = some [IterCall.first 0, IterCall.first 1, IterCall.body, IterCall.next 0,
          IterCall.next 1, IterCall.body, IterCall.next 0, IterCall.next 1,
          IterCall.close 0, IterCall.close 1] ∧
    (SimNode_ForWithIterator.eval lockstepNode lockstepIteratorAt lockstepJunk 2
        sampleMachine).map (fun r => r.2.calls.count (IterCall.close 1)) = some 1 ∧
    (SimNode_ForWithIterator.eval breakingNode lockstepIteratorAt lockstepJunk 2
        sampleMachine).map (fun r => r.2.calls)
      = some [IterCall.first 0, IterCall.first 1, IterCall.body, IterCall.next 0,
          IterCall.close 0, IterCall.close 1] ∧
    (SimNode_ForWithIterator.eval breakingNode lockstepIteratorAt lockstepJunk 2
        sampleMachine).map (fun r => r.2.calls.count (IterCall.close 1)) = some 1 ∧
    (SimNode_ForWithIterator.atLoopend lockstepNode
        (fun t => countingIteratorAt (lockstepCells t))
        (SimNode_ForWithIterator.slot lockstepNode sampleMachine) lockstepJunk 2
        sampleMachine).map (fun st => iteratorCounters st.machine)
      = some [1, 2, 0, 1, 2, 0] ∧
    (SimNode_ForWithIterator.eval lockstepNode countingIteratorAt lockstepJunk 2
        sampleMachine).map (fun r => iteratorCounters r.2.machine)
      = some [1, 2, 1, 1, 2, 1] ∧
    (SimNode_ForWithIterator.atLoopend breakingNode
        (fun t => countingIteratorAt (lockstepCells t))
        (SimNode_ForWithIterator.slot breakingNode sampleMachine) lockstepJunk 2
        sampleMachine).map (fun st => iteratorCounters st.machine)
      = some [1, 1, 0, 1, 0, 0] ∧
    (SimNode_ForWithIterator.eval breakingNode countingIteratorAt lockstepJunk 2
        sampleMachine).map (fun r => iteratorCounters r.2.machine)
      = some [1, 1, 1, 1, 0, 1] ∧
    ∃ r stExit,
      SimNode_ForWithIterator.eval breakingNode countingIteratorAt lockstepJunk 2
        sampleMachine = some r ∧
      SimNode_ForWithIterator.atLoopend breakingNode
        (fun t => countingIteratorAt (lockstepCells t))
        (SimNode_ForWithIterator.slot breakingNode sampleMachine) lockstepJunk 2
        sampleMachine = some stExit ∧
      r.2.machine.memory
        = (closedOnce (fun t => countingIteratorAt (lockstepCells t))
            (List.range breakingNode.total) (stExit.machine, stExit.ph)).1.memory := by
  have h1 : (SimNode_ForWithIterator.eval lockstepNode lockstepIteratorAt lockstepJunk 2
        sampleMachine).map (fun r => r.2.calls)
      = some [IterCall.first 0, IterCall.first 1, IterCall.body, IterCall.next 0,
          IterCall.next 1, IterCall.body, IterCall.next 0, IterCall.next 1,
          IterCall.close 0, IterCall.close 1] := by decide
  have h2 : (SimNode_ForWithIterator.eval breakingNode lockstepIteratorAt lockstepJunk 2
        sampleMachine).map (fun r => r.2.calls)
      = some [IterCall.first 0, IterCall.first 1, IterCall.body, IterCall.next 0,
          IterCall.close 0, IterCall.close 1] := by decide
  refine ⟨h1, ?_, h2, ?_, by decide, by decide, by decide, by decide, ?_⟩
  · cases h : SimNode_ForWithIterator.eval lockstepNode lockstepIteratorAt lockstepJunk 2
        sampleMachine with
    | none => rw [h] at h1; cases h1
    | some r =>
      rw [h] at h1
      have hcalls : r.2.calls = _ := Option.some.inj h1
      show some (r.2.calls.count (IterCall.close 1)) = some 1
      rw [(for_closes_once lockstepNode lockstepIteratorAt lockstepJunk 2 sampleMachine r
        h).2.2.1 1 (by rw [hcalls]; decide)]
  · cases h : SimNode_ForWithIterator.eval breakingNode lockstepIteratorAt lockstepJunk 2
        sampleMachine with
    | none => rw [h] at h2; cases h2
    | some r =>
      rw [h] at h2
      have hcalls : r.2.calls = _ := Option.some.inj h2
      show some (r.2.calls.count (IterCall.close 1)) = some 1
      rw [(for_closes_once breakingNode lockstepIteratorAt lockstepJunk 2 sampleMachine r
        h).2.2.1 1 (by rw [hcalls]; decide)]
  · obtain ⟨r, hr⟩ := Option.isSome_iff_exists.1
      (show (SimNode_ForWithIterator.eval breakingNode countingIteratorAt lockstepJunk 2
        sampleMachine).isSome = true by decide)
    obtain ⟨stExit, hexit, _, _, hmem, _⟩ :=
      (for_closes_once breakingNode countingIteratorAt lockstepJunk 2 sampleMachine r
        hr).2.2.2.2 sampleMachine lockstepCells rfl
    exact ⟨r, stExit, hr, hexit, hmem⟩

end yzg
